import Mathlib

/-! CPP2D: a shallow embedding of `DPrinter.cpp`.

The translation engine of CPP2D walks a clang syntax tree and writes D source
text to a stack of string streams.  The clang tree is supplied by the front
end; here every fact the printer reads from a node (a printed type name, a
bit-field width, an access specifier, the text a nested traversal writes) is
a field of a descriptor record, and the printer's own state (the stream
stack, `output_enabled`, `isInMacro`, `indent`, `classInfoMap`) is an
explicit record threaded through every routine.

Pointers (`Type const*`, `CXXRecordDecl*`) are natural numbers, `0` being the
null pointer; `std::map` is a key-sorted association list.
-/

namespace CPP2D

/-! ## Strings -/

/-- Scan of `std::string::find`: the first index, counted from `i`, at which
`pat` occurs in the remaining characters. -/
def findFrom (pat : List Char) : List Char → Nat → Option Nat
  | [], i => if pat.isPrefixOf [] then some i else none
  | c :: cs, i => if pat.isPrefixOf (c :: cs) then some i else findFrom pat cs (i + 1)

/-- Model of `std::string::find(pat)`: position of the first occurrence of `pat`
in `s`, `none` standing for `std::string::npos`. -/
def strFind (s pat : String) : Option Nat :=
  findFrom pat.data s.data 0

/-- The test `s.find(pat) == 0` of the source. -/
def findAtZero (s pat : String) : Bool :=
  strFind s pat == some 0

/-! ## Semantic classifier (`DPrinter::getSemantic`) -/

/-- Modelled from the spec: the enumeration `DPrinter::Semantic` is declared in
`DPrinter.h`, which is not part of the sources; its three values are the ones
`getSemantic` returns. -/
inductive Semantic
  | Value
  | Reference
  | AssocArray
  deriving DecidableEq, Repr

/-- The values of `clang::Type::TypeClass` the printer distinguishes. -/
inductive TypeClass
  | Auto
  | Paren
  | FunctionProto
  | Record
  | Builtin
  | Pointer
  | Other
  deriving DecidableEq, Repr

/-- What the printer reads from a `clang::QualType`.

* `ptr`: the `Type const*` behind the type (`getTypePtr`), `0` when null;
* `name`: the text of `getCanonicalType().getUnqualifiedType().print(..)`;
* `typeClass`, `isClassType`, `isFunctionType`, `isConstQualified`: the clang
  predicates of the same names;
* `isBuiltinCanonical`: `isa<BuiltinType>(type->getCanonicalTypeUnqualified())`;
* `text`: what `TraverseType` writes for the type. -/
structure QualType where
  ptr : Nat
  name : String
  typeClass : TypeClass
  isClassType : Bool
  isFunctionType : Bool
  isConstQualified : Bool
  isBuiltinCanonical : Bool
  text : String
  deriving DecidableEq, Repr

/-- The structural tail of `getSemantic` (its final `return`). -/
def structuralSemantic (qt : QualType) : Semantic :=
  if qt.typeClass = TypeClass.Auto then Semantic.Value
  else if qt.isClassType || qt.isFunctionType then Semantic.Reference
  else Semantic.Value

/-- Model of `DPrinter::getSemantic`. -/
def getSemantic (qt : QualType) : Semantic :=
  let name := qt.name
  if findAtZero name "class SafeInt<" then Semantic.Value
  else if findAtZero name "class boost::array<" then Semantic.Value
  else if findAtZero name "class std::basic_string<" then Semantic.Value
  else if findAtZero name "class boost::optional<" then Semantic.Value
  else if findAtZero name "class boost::property_tree::basic_ptree<" then Semantic.Value
  else if findAtZero name "class std::vector<" then Semantic.Value
  else if findAtZero name "class std::shared_ptr<" then Semantic.Value
  else if findAtZero name "class std::scoped_ptr<" then Semantic.Value
  else if findAtZero name "class std::unordered_map<" then Semantic.AssocArray
  else structuralSemantic qt

/-- The customisation table of `getSemantic` as the specification lists it:
the qualified template name of each entry and the class it forces. -/
def semanticTable : List (String × Semantic) :=
  [ ("SafeInt", Semantic.Value),
    ("boost::array", Semantic.Value),
    ("std::basic_string", Semantic.Value),
    ("boost::optional", Semantic.Value),
    ("boost::property_tree::basic_ptree", Semantic.Value),
    ("std::vector", Semantic.Value),
    ("std::shared_ptr", Semantic.Value),
    ("std::scoped_ptr", Semantic.Value),
    ("std::unordered_map", Semantic.AssocArray) ]

/-- The printed form under which a table entry is recognised: clang prints the
canonical type of a class template specialisation `N<..>` as `class N<..>`. -/
def printedEntry (entry : String) : String :=
  "class " ++ entry ++ "<"

/-- A printed type name begins with the table entry `entry`. -/
def beginsWithEntry (name entry : String) : Bool :=
  (printedEntry entry).data.isPrefixOf name.data

/-! ## Printer state and output streams -/

/-- Modelled from the spec: `RelationInfo` is declared in `DPrinter.h`, which is
not part of the sources; the printer reads and sets its two flags `hasOpLess`
and `hasOpEqual`, both initially unset. -/
structure RelationInfo where
  hasOpLess : Bool := false
  hasOpEqual : Bool := false
  deriving DecidableEq, Repr, Inhabited

/-- Modelled from the spec: `ClassInfo` is declared in `DPrinter.h`, which is not
part of the sources; it holds `relations`, a `std::map` from `Type const*` to
`RelationInfo`, and the flags `hasOpExclaim` and `hasBoolConv`. -/
structure ClassInfo where
  relations : List (Nat × RelationInfo) := []
  hasOpExclaim : Bool := false
  hasBoolConv : Bool := false
  deriving DecidableEq, Repr, Inhabited

/-- Model of `m[k]` used as an lvalue on a `std::map` with pointer keys: the
entry for `k` is created with the default value when absent, then `f` is
applied to it.  Entries stay ordered by key. -/
def mapUpdate {β : Type} (dflt : β) (f : β → β) : List (Nat × β) → Nat → List (Nat × β)
  | [], k => [(k, f dflt)]
  | (k', v) :: rest, k =>
    if k < k' then (k, f dflt) :: (k', v) :: rest
    else if k = k' then (k, f v) :: rest
    else (k', v) :: mapUpdate dflt f rest k

/-- Model of `std::map::find`. -/
def mapFind {β : Type} : List (Nat × β) → Nat → Option β
  | [], _ => none
  | (k', v) :: rest, k => if k = k' then some v else mapFind rest k

/-- The value an entry of a `std::map` holds, an absent entry standing for the
default value `operator[]` would create. -/
def mapGet {β : Type} (dflt : β) (m : List (Nat × β)) (k : Nat) : β :=
  (mapFind m k).getD dflt

/-- What the printer reads from a `clang::IdentifierInfo`: its address and its
spelling. -/
structure IdentifierInfo where
  ptr : Nat
  name : String
  deriving DecidableEq, Repr

/-- What `printTemplateArgument` reads from a `clang::TemplateArgument`, by
kind: the text the traversal of a declaration argument writes, the value of an
integral argument, the type of a type argument, and for the remaining kinds
the text `TraverseTemplateArgument` writes. -/
inductive TemplateArgument
  | Null
  | Declaration (text : String)
  | Integral (value : Int)
  | NullPtr
  | Type (type : QualType)
  | Other (text : String)
  deriving DecidableEq, Repr

/-- What the printer reads from a template parameter (`NamedDecl*` of a
`TemplateParameterList`), by kind.  `identifier` is `getIdentifier()`, `none`
when null; `defaultArgument` is `none` when `hasDefaultArgument()` is false.
The default argument of a non-type parameter is an expression, given by the
text `TraverseStmt` writes for it; a template template parameter has no
traversal of its own in the printer, `text` is what the inherited traversal
writes for it. -/
inductive TemplateParam
  | TemplateTypeParm (identifier : Option IdentifierInfo) (defaultArgument : Option QualType)
  | NonTypeTemplateParm (type : QualType) (identifier : Option IdentifierInfo)
      (defaultArgument : Option String)
  | TemplateTemplateParm (text : String) (identifier : Option IdentifierInfo)
      (defaultArgument : Option TemplateArgument)
  deriving DecidableEq, Repr

/-- The mutable state of `DPrinter` together with the globals `outStack` and
`output_enabled`.  The back of `outStack` is the head of the list.
`includesInFile` is a `std::set` and `externIncludes` a `std::map` from module
name to a `std::set` of symbol names, both kept in key order; `renamedIdentifiers`
is a `std::map` keyed by `IdentifierInfo*`. -/
structure DPrinter where
  outStack : List String
  output_enabled : Bool
  isInMacro : Int
  indent : Int
  portConst : Bool
  classInfoMap : List (Nat × ClassInfo)
  includesInFile : List String := []
  externIncludes : List (String × List String) := []
  renamedIdentifiers : List (Nat × String) := []
  renameIdentifiers : Bool := true
  templateArgsStack : List (List TemplateParam) := []
  deriving DecidableEq, Repr

/-- Model of `out() << s`: the text goes to the stream on top of the stack, or
to a discarded scratch stream while output is disabled. -/
def out (p : DPrinter) (s : String) : DPrinter :=
  if p.output_enabled then
    match p.outStack with
    | [] => p
    | top :: rest => { p with outStack := (top ++ s) :: rest }
  else p

/-- Model of `pushStream`. -/
def pushStream (p : DPrinter) : DPrinter :=
  { p with outStack := "" :: p.outStack }

/-- Model of `popStream`: the text of the top stream and the state without it. -/
def popStream (p : DPrinter) : String × DPrinter :=
  match p.outStack with
  | [] => ("", p)
  | top :: rest => (top, { p with outStack := rest })

/-- Model of `DPrinter::indentStr`: four spaces per indentation level. -/
def indentStr (p : DPrinter) : String :=
  String.mk (List.replicate (p.indent * 4).toNat ' ')

/-- The text of `std::endl`. -/
def endl : String := "\n"

/-- Concatenation of a list of texts. -/
def concat : List String → String
  | [] => ""
  | s :: rest => s ++ concat rest

/-! ## Types (`printType`, `traversePointerTypeImpl`) -/

/-- Model of `TraverseType` on a type whose rendering is `type.text`. -/
def TraverseType (p : DPrinter) (type : QualType) : DPrinter :=
  out p type.text

/-- Model of `DPrinter::printType`. -/
def printType (p : DPrinter) (type : QualType) : DPrinter :=
  if type.typeClass = TypeClass.Auto then
    let p := if type.isConstQualified && p.portConst then out p "const " else p
    TraverseType p type
  else
    let printConst := p.portConst || type.isBuiltinCanonical
    let p := if type.isConstQualified && printConst then out p "const(" else p
    let p := TraverseType p type
    if type.isConstQualified && printConst then out p ")" else p

/-- The rendered text of a type: what `printType` sends to `out()`. -/
def typeText (portConst : Bool) (type : QualType) : String :=
  if type.typeClass = TypeClass.Auto then
    (if type.isConstQualified && portConst then "const " else "") ++ type.text
  else
    (if type.isConstQualified && (portConst || type.isBuiltinCanonical) then "const(" else "")
      ++ type.text
      ++ (if type.isConstQualified && (portConst || type.isBuiltinCanonical) then ")" else "")

/-- What `traversePointerTypeImpl` reads from a pointer type: the pointee and,
when the pointee is a `ParenType`, its inner type. -/
structure PointerType where
  pointee : QualType
  innerType : Option QualType
  deriving DecidableEq, Repr

/-- The pointee is a parenthesised function prototype. -/
def PointerType.isParenFunctionProto (t : PointerType) : Bool :=
  t.pointee.typeClass = TypeClass.Paren &&
    (match t.innerType with
     | some inner => inner.typeClass = TypeClass.FunctionProto
     | none => false)

/-- Model of `DPrinter::traversePointerTypeImpl`. -/
def traversePointerTypeImpl (p : DPrinter) (t : PointerType) : DPrinter :=
  let pointee := t.pointee
  let fallthrough : DPrinter :=
    let p := printType p pointee
    out p (if getSemantic pointee = Semantic.Value then "[]" else "")
  if pointee.typeClass = TypeClass.Paren then
    match t.innerType with
    | some innerType =>
      if innerType.typeClass = TypeClass.FunctionProto then TraverseType p innerType
      else fallthrough
    | none => fallthrough
  else fallthrough

/-! ## Aggregates: the member loop of `traverseCXXRecordDeclImpl` -/

/-- The enumeration `clang::AccessSpecifier`, in clang's order. -/
inductive AccessSpecifier
  | AS_public
  | AS_protected
  | AS_private
  | AS_none
  deriving DecidableEq, Repr

/-- Model of the array `AccessSpecifierStr`. -/
def AccessSpecifierStr : AccessSpecifier → String
  | AccessSpecifier.AS_public => "public"
  | AccessSpecifier.AS_protected => "protected"
  | AccessSpecifier.AS_private => "private"
  | AccessSpecifier.AS_none => "private"

/-- The values of `clang::Decl::Kind` the printer names, and `Other` for the rest. -/
inductive DeclKind
  | CXXRecord
  | Function
  | CXXConstructor
  | CXXDestructor
  | CXXConversion
  | CXXMethod
  | Namespace
  | NamespaceAlias
  | UsingDirective
  | Empty
  | Friend
  | FunctionTemplate
  | Enum
  | Field
  | Var
  | AccessSpec
  | Other
  deriving DecidableEq, Repr

/-- Model of the set `noSemiCommaDeclKind`. -/
def noSemiCommaDeclKind : List DeclKind :=
  [ DeclKind.CXXRecord, DeclKind.Function, DeclKind.CXXConstructor, DeclKind.CXXDestructor,
    DeclKind.CXXConversion, DeclKind.CXXMethod, DeclKind.Namespace, DeclKind.NamespaceAlias,
    DeclKind.UsingDirective, DeclKind.Empty, DeclKind.Friend, DeclKind.FunctionTemplate,
    DeclKind.Enum ]

/-- What the printer reads from a `clang::RawComment`: whether it trails the
declaration, and its text (for a leading comment, the text after the
line-ending normalisation `replace(comment, "\r\n", "\n")`). -/
structure RawComment where
  isTrailingComment : Bool
  text : String
  deriving DecidableEq, Repr

/-- What the member loop reads from a member declaration `decl2`.

* `kind`, `isCompleteDefinition`, `access`: the clang accessors;
* `bitWidth`: `some w` when the member is a `FieldDecl` with `isBitField()`,
  `w` being `getBitWidthValue`; `none` otherwise;
* `text`: the text the nested `TraverseDecl(decl2)` sends to `out()`;
* `macroDelta`: the change that traversal makes to `isInMacro`
  (`printStmtMacro` increments or decrements it);
* `comment`: `getRawCommentForDeclNoCache(decl2)`. -/
structure Decl where
  kind : DeclKind
  isCompleteDefinition : Bool
  bitWidth : Option Nat
  access : AccessSpecifier
  text : String
  macroDelta : Int
  comment : Option RawComment
  deriving DecidableEq, Repr

/-- Model of `needSemiComma(Decl*)`. -/
def needSemiComma (decl : Decl) : Bool :=
  if decl.kind = DeclKind.CXXRecord then !decl.isCompleteDefinition
  else !noSemiCommaDeclKind.contains decl.kind

/-- Model of `static_cast<int>` applied to an `unsigned` value. -/
def castToInt (w : Nat) : Int :=
  if w % 2 ^ 32 < 2 ^ 31 then ((w % 2 ^ 32 : Nat) : Int)
  else ((w % 2 ^ 32 : Nat) : Int) - 2 ^ 32

/-- Model of the lambda `isBitField`: the declared width of a bit-field, `-1`
for any other declaration. -/
def isBitField (decl2 : Decl) : Int :=
  match decl2.bitWidth with
  | some w => castToInt w
  | none => -1

/-- Model of the lambda `roundPow2`. -/
def roundPow2 (bit_count : Int) : Int :=
  if bit_count ≤ 0 then 0
  else if bit_count ≤ 8 then 8
  else if bit_count ≤ 16 then 16
  else if bit_count ≤ 32 then 32
  else 64

/-- Model of the nested `TraverseDecl(decl2)`: it writes the member's text and
may enter or leave a macro. -/
def TraverseDecl (p : DPrinter) (decl2 : Decl) : DPrinter :=
  let p := out p decl2.text
  { p with isInMacro := p.isInMacro + decl2.macroDelta }

/-- Model of `DPrinter::printCommentBefore`. -/
def printCommentBefore (p : DPrinter) (t : Decl) : DPrinter :=
  match t.comment with
  | some rc =>
    if !rc.isTrailingComment then
      let p := out p (endl ++ indentStr p)
      out p (rc.text ++ endl ++ indentStr p)
    else out p (endl ++ indentStr p)
  | none => out p (endl ++ indentStr p)

/-- Model of `DPrinter::printCommentAfter`. -/
def printCommentAfter (p : DPrinter) (t : Decl) : DPrinter :=
  match t.comment with
  | some rc => if rc.isTrailingComment then out p ("\t" ++ rc.text) else p
  | none => p

/-- The local variables of the member loop together with the printer. -/
structure MemberLoop where
  p : DPrinter
  bit_count : Int
  inBitField : Bool
  access : AccessSpecifier
  deriving DecidableEq, Repr

/-- The state on entry to the member loop. -/
def memberLoopInit (p : DPrinter) (isClass : Bool) : MemberLoop :=
  { p := p, bit_count := 0, inBitField := false,
    access := if isClass then AccessSpecifier.AS_private else AccessSpecifier.AS_public }

/-- First half of the loop body: the member is rendered into a stream of its
own, after the padding field that closes a pending bit-field run; the result
is `declstr` and the printer after `popStream`. -/
def memberDeclstr (st : MemberLoop) (decl2 : Decl) : String × DPrinter :=
  let p := pushStream st.p
  let bc := isBitField decl2
  let nextIsBitField : Bool := decide (0 ≤ bc)
  let p :=
    if nextIsBitField then p
    else if st.bit_count ≠ 0 then
      out p ("\tuint, \"\", " ++ toString (roundPow2 st.bit_count - st.bit_count) ++ "));\n"
        ++ indentStr p)
    else p
  let p := TraverseDecl p decl2
  popStream p

/-- The access a member is printed under: its own, or public when unspecified. -/
def newAccess (decl2 : Decl) : AccessSpecifier :=
  if decl2.access = AccessSpecifier.AS_none then AccessSpecifier.AS_public else decl2.access

/-- The three statements that print a visibility label: one level out, the
label line, one level in again. -/
def printAccessLabel (p : DPrinter) (a : AccessSpecifier) : DPrinter :=
  let p := { p with indent := p.indent - 1 }
  let p := out p (endl ++ indentStr p ++ AccessSpecifierStr a ++ ":")
  { p with indent := p.indent + 1 }

/-- Second half of the loop body, run when `declstr` is not empty: visibility
label, comments, bit-field block opener, the member text and its semicolon. -/
def memberEmit (p : DPrinter) (access : AccessSpecifier) (inBitField nextIsBitField : Bool)
    (decl2 : Decl) (declstr : String) : DPrinter × AccessSpecifier :=
  let labelled : DPrinter × AccessSpecifier :=
    if newAccess decl2 ≠ access ∧ p.isInMacro = 0 then
      (printAccessLabel p (newAccess decl2), newAccess decl2)
    else (p, access)
  let p := labelled.1
  let p := printCommentBefore p decl2
  let p :=
    if inBitField = false ∧ nextIsBitField = true ∧ p.isInMacro = 0 then
      out p ("mixin(bitfields!(\n" ++ indentStr p)
    else p
  let p := out p declstr
  let p := if needSemiComma decl2 && nextIsBitField == false then out p ";" else p
  (printCommentAfter p decl2, labelled.2)

/-- One iteration of the member loop `for(Decl* decl2 : decl->decls())`. -/
def memberStep (st : MemberLoop) (decl2 : Decl) : MemberLoop :=
  let bc := isBitField decl2
  let nextIsBitField : Bool := decide (0 ≤ bc)
  let bit_count := if nextIsBitField then st.bit_count + bc else st.bit_count
  let rendered := memberDeclstr st decl2
  let emitted : DPrinter × AccessSpecifier :=
    if rendered.1 ≠ "" then
      memberEmit rendered.2 st.access st.inBitField nextIsBitField decl2 rendered.1
    else (rendered.2, st.access)
  { p := { emitted.1 with output_enabled := decide (emitted.1.isInMacro = 0) },
    bit_count := if nextIsBitField = false then 0 else bit_count,
    inBitField := nextIsBitField,
    access := emitted.2 }

/-- The member loop over `decl->decls()`. -/
def memberLoop (st : MemberLoop) (decls : List Decl) : MemberLoop :=
  decls.foldl memberStep st

/-- The statements after the loop: the padding field that closes a run still
open at the end of the list, then a line break. -/
def closeMembers (st : MemberLoop) : DPrinter :=
  let p :=
    if st.inBitField then
      out st.p ("\n" ++ indentStr st.p ++ "\tuint, \"\", "
        ++ toString (roundPow2 st.bit_count - st.bit_count) ++ "));")
    else st.p
  out p endl

/-- The member section of `traverseCXXRecordDeclImpl`: from the initialisation
of `bit_count` to the line break after the last member. -/
def traverseMembers (p : DPrinter) (isClass : Bool) (decls : List Decl) : DPrinter :=
  closeMembers (memberLoop (memberLoopInit p isClass) decls)

/-! ### The text of one member, outside a macro -/

/-- The content of `declstr` when output is enabled: the padding field closing
a pending run, if any, then the member's own text. -/
def declstrText (st : MemberLoop) (d : Decl) : String :=
  (if 0 ≤ isBitField d then ""
   else if st.bit_count ≠ 0 then
     "\tuint, \"\", " ++ toString (roundPow2 st.bit_count - st.bit_count) ++ "));\n"
       ++ indentStr st.p
   else "") ++ d.text

/-- The visibility label line for access `a`, one level out of the body. -/
def labelText (p : DPrinter) (a : AccessSpecifier) : String :=
  endl ++ indentStr { p with indent := p.indent - 1 } ++ AccessSpecifierStr a ++ ":"

/-- The text `printCommentBefore` sends to `out()`. -/
def commentBeforeText (p : DPrinter) (d : Decl) : String :=
  match d.comment with
  | some rc =>
    if !rc.isTrailingComment then
      endl ++ indentStr p ++ (rc.text ++ endl ++ indentStr p)
    else endl ++ indentStr p
  | none => endl ++ indentStr p

/-- The text `printCommentAfter` sends to `out()`. -/
def commentAfterText (d : Decl) : String :=
  match d.comment with
  | some rc => if rc.isTrailingComment then "\t" ++ rc.text else ""
  | none => ""

/-- The text that follows the visibility label of a member: comment, bit-field
block opener, `declstr`, semicolon, trailing comment. -/
def memberBodyText (st : MemberLoop) (d : Decl) : String :=
  commentBeforeText st.p d
    ++ (if st.inBitField = false ∧ 0 ≤ isBitField d then
          "mixin(bitfields!(\n" ++ indentStr st.p else "")
    ++ declstrText st d
    ++ (if needSemiComma d && !decide (0 ≤ isBitField d) then ";" else "")
    ++ commentAfterText d

/-- The whole text of one member outside a macro: a visibility label exactly
when the member's access differs from the active one, then the member body. -/
def memberText (st : MemberLoop) (d : Decl) : String :=
  (if newAccess d ≠ st.access then labelText st.p (newAccess d) else "")
    ++ memberBodyText st d

/-- The visibility an aggregate starts with: private for a class, public for
a struct or union. -/
def initialAccess (isClass : Bool) : AccessSpecifier :=
  if isClass then AccessSpecifier.AS_private else AccessSpecifier.AS_public

/-- The active visibility as the specification describes it: it starts as the
initial visibility of the aggregate kind and becomes a member's visibility as
soon as a label is emitted for that member, that is, when the two differ. -/
def activeAccess (isClass : Bool) (pre : List Decl) : AccessSpecifier :=
  pre.foldl (fun active d => if newAccess d ≠ active then newAccess d else active)
    (initialAccess isClass)

/-- A storage unit of the `bitfields` mixin. -/
def storageUnits : List Int := [8, 16, 32, 64]

/-- The unit `m` is the smallest storage unit that holds `n` bits. -/
def IsSmallestUnit (m n : Int) : Prop :=
  m ∈ storageUnits ∧ n ≤ m ∧ ∀ m' ∈ storageUnits, n ≤ m' → m ≤ m'

/-- The declared widths of a list of bit-field members (`0` for a member that
is not a bit-field). -/
def declaredWidths (run : List Decl) : List Nat :=
  run.map (fun d => d.bitWidth.getD 0)

/-- A bit-field member of the given width and access with text `text`. -/
def bitFieldDecl (w : Nat) (access : AccessSpecifier) (text : String) : Decl :=
  { kind := DeclKind.Field, isCompleteDefinition := false, bitWidth := some w,
    access := access, text := text, macroDelta := 0, comment := none }

/-- An ordinary field of the given access with text `text`. -/
def fieldDecl (access : AccessSpecifier) (text : String) : Decl :=
  { kind := DeclKind.Field, isCompleteDefinition := false, bitWidth := none,
    access := access, text := text, macroDelta := 0, comment := none }

/-- A printer inside an aggregate body at nesting depth one. -/
def bodyPrinter : DPrinter :=
  { outStack := [""], output_enabled := true, isInMacro := 0, indent := 1,
    portConst := false, classInfoMap := [] }

/-! ## Identifiers -/

/-- Model of `mangleName`. -/
def mangleName (name : String) : String :=
  if name = "version" then "version_"
  else if name = "out" then "out_"
  else if name = "in" then "in_"
  else if name = "ref" then "ref_"
  else if name = "debug" then "debug_"
  else if name = "function" then "function_"
  else if name = "Exception" then "Exception_"
  else name

/-! ## Derived members at the close of an aggregate body -/

/-- The loop body of the `opCmp` synthesis for one related type `type`, a key of
`relations`; `getPointeeType` is the clang accessor `type->getPointeeType()`,
which gives the null `QualType` (`ptr = 0`) for a type that is neither a
pointer nor a reference.  `printType` dereferences the type it is given, and
the accessor is called through `type`: the result is `none` when `type` or its
pointee type is null. -/
def printOpCmp (p : DPrinter) (getPointeeType : Nat → QualType) (type : Nat) :
    Option DPrinter :=
  if type = 0 ∨ (getPointeeType type).ptr = 0 then none
  else
    let p := out p (indentStr p ++ "int opCmp(ref in ")
    let p := printType p (getPointeeType type)
    let p := out p " other)"
    let p := if p.portConst then out p " const" else p
    let p := out p "\n"
    let p := out p (indentStr p ++ "\x7b\n")
    let p := { p with indent := p.indent + 1 }
    let p := out p (indentStr p ++ "return _opLess(other) ? -1: ((this == other)? 0: 1);\n")
    let p := { p with indent := p.indent - 1 }
    some (out p (indentStr p ++ "\x7d\n"))

/-- The loop `for(auto && type_info : classInfoMap[cxxRecordDecl].relations)`. -/
def printOpCmps (p : DPrinter) (getPointeeType : Nat → QualType) :
    List (Nat × RelationInfo) → Option DPrinter
  | [] => some p
  | type_info :: rest =>
    if type_info.2.hasOpLess && type_info.2.hasOpEqual then
      match printOpCmp p getPointeeType type_info.1 with
      | none => none
      | some p => printOpCmps p getPointeeType rest
    else printOpCmps p getPointeeType rest

/-- The statements that print the synthesized `opCast(T : bool)`. -/
def printOpCast (p : DPrinter) : DPrinter :=
  let p := out p (indentStr p ++ "bool opCast(T : bool)()")
  let p := if p.portConst then out p " const" else p
  let p := out p "\n"
  let p := out p (indentStr p ++ "\x7b\n")
  let p := { p with indent := p.indent + 1 }
  let p := out p (indentStr p ++ "return !_opExclaim();\n")
  let p := { p with indent := p.indent - 1 }
  out p (indentStr p ++ "\x7d\n")

/-- The synthesis step of `traverseCXXRecordDeclImpl` (the block under
`// print the opCmd operator`): `cxxRecordDecl` is the result of
`dyn_cast<CXXRecordDecl>(decl)`, `none` when the cast fails.  The result is
`none` when the `opCmp` loop dereferences a null type. -/
def printDerivedMembers (p : DPrinter) (getPointeeType : Nat → QualType)
    (cxxRecordDecl : Option Nat) : Option DPrinter :=
  match cxxRecordDecl with
  | none => some p
  | some record =>
    let p := { p with classInfoMap := mapUpdate default id p.classInfoMap record }
    let classInfo := mapGet default p.classInfoMap record
    match printOpCmps p getPointeeType classInfo.relations with
    | none => none
    | some p =>
      some (if classInfo.hasOpExclaim && !classInfo.hasBoolConv then printOpCast p else p)

/-- The text of one synthesized `opCmp` method for the related type rendered
as `type`. -/
def opCmpText (p : DPrinter) (type : QualType) : String :=
  indentStr p ++ "int opCmp(ref in " ++ typeText p.portConst type ++ " other)"
    ++ (if p.portConst then " const" else "") ++ "\n"
    ++ indentStr p ++ "\x7b\n"
    ++ indentStr { p with indent := p.indent + 1 }
    ++ "return _opLess(other) ? -1: ((this == other)? 0: 1);\n"
    ++ indentStr p ++ "\x7d\n"

/-- The text of the synthesized `opCast(T : bool)` method. -/
def opCastText (p : DPrinter) : String :=
  indentStr p ++ "bool opCast(T : bool)()"
    ++ (if p.portConst then " const" else "") ++ "\n"
    ++ indentStr p ++ "\x7b\n"
    ++ indentStr { p with indent := p.indent + 1 }
    ++ "return !_opExclaim();\n"
    ++ indentStr p ++ "\x7d\n"

/-- The related types of a `ClassInfo` for which `opCmp` is synthesized. -/
def opCmpRelations (relations : List (Nat × RelationInfo)) : List (Nat × RelationInfo) :=
  relations.filter (fun type_info => type_info.2.hasOpLess && type_info.2.hasOpEqual)

/-- Whether the `opCmp` loop can print every related type it synthesizes a
method for: neither the key nor its pointee type is null. -/
def pointeesNotNull (getPointeeType : Nat → QualType)
    (relations : List (Nat × RelationInfo)) : Bool :=
  (opCmpRelations relations).all
    (fun type_info => decide (¬ (type_info.1 = 0 ∨ (getPointeeType type_info.1).ptr = 0)))

/-- The text the synthesis step sends to `out()` for a `ClassInfo`: one
`opCmp` per related type with both flags, then `opCast` when `hasOpExclaim`
is set and `hasBoolConv` is not. -/
def derivedText (p : DPrinter) (getPointeeType : Nat → QualType) (classInfo : ClassInfo) :
    String :=
  concat ((opCmpRelations classInfo.relations).map
      (fun type_info => opCmpText p (getPointeeType type_info.1)))
    ++ (if classInfo.hasOpExclaim = true ∧ classInfo.hasBoolConv = false then opCastText p
        else "")

/-- The invariant of a `std::map`: keys strictly increasing. -/
@[reducible] def mapSorted {β : Type} (m : List (Nat × β)) : Prop :=
  m.Pairwise (fun a b => a.1 < b.1)

/-- A `ClassInfo` with one related type (pointer `101`) that has both an
ordering and an equality overload. -/
def orderedClassInfo : ClassInfo :=
  { relations := [(101, { hasOpLess := true, hasOpEqual := true })],
    hasOpExclaim := false, hasBoolConv := false }

/-- A `ClassInfo` with one related type that has only an equality overload. -/
def equalityOnlyClassInfo : ClassInfo :=
  { relations := [(101, { hasOpLess := false, hasOpEqual := true })],
    hasOpExclaim := false, hasBoolConv := false }

/-- A printer inside the body of the aggregate `1` whose `ClassInfo` is `ci`. -/
def closePrinter (ci : ClassInfo) : DPrinter :=
  { outStack := [""], output_enabled := true, isInMacro := 0, indent := 1,
    portConst := false, classInfoMap := [(1, ci)] }

/-! ## Operator overloads (`printFuncBegin`) -/

/-- The enumeration `clang::OverloadedOperatorKind` (clang's
`OperatorKinds.def`); `OO_None` is the kind of a function that is not an
overloaded operator. -/
inductive OverloadedOperatorKind
  | OO_None | OO_New | OO_Delete | OO_Array_New | OO_Array_Delete
  | OO_Plus | OO_Minus | OO_Star | OO_Slash | OO_Percent | OO_Caret | OO_Amp | OO_Pipe
  | OO_Tilde | OO_Exclaim | OO_Equal | OO_Less | OO_Greater
  | OO_PlusEqual | OO_MinusEqual | OO_StarEqual | OO_SlashEqual | OO_PercentEqual
  | OO_CaretEqual | OO_AmpEqual | OO_PipeEqual | OO_LessLess | OO_GreaterGreater
  | OO_LessLessEqual | OO_GreaterGreaterEqual | OO_EqualEqual | OO_ExclaimEqual
  | OO_LessEqual | OO_GreaterEqual | OO_AmpAmp | OO_PipePipe | OO_PlusPlus | OO_MinusMinus
  | OO_Comma | OO_ArrowStar | OO_Arrow | OO_Call | OO_Subscript | OO_Conditional | OO_Coawait
  deriving DecidableEq, Repr

open OverloadedOperatorKind in
/-- The spelling table of clang's `getOperatorSpelling` (`OperatorKinds.def`). -/
def getOperatorSpelling : OverloadedOperatorKind → String
  | OO_None => "" | OO_New => "new" | OO_Delete => "delete"
  | OO_Array_New => "new[]" | OO_Array_Delete => "delete[]"
  | OO_Plus => "+" | OO_Minus => "-" | OO_Star => "*" | OO_Slash => "/" | OO_Percent => "%"
  | OO_Caret => "^" | OO_Amp => "&" | OO_Pipe => "|" | OO_Tilde => "~" | OO_Exclaim => "!"
  | OO_Equal => "=" | OO_Less => "<" | OO_Greater => ">"
  | OO_PlusEqual => "+=" | OO_MinusEqual => "-=" | OO_StarEqual => "*=" | OO_SlashEqual => "/="
  | OO_PercentEqual => "%=" | OO_CaretEqual => "^=" | OO_AmpEqual => "&=" | OO_PipeEqual => "|="
  | OO_LessLess => "<<" | OO_GreaterGreater => ">>"
  | OO_LessLessEqual => "<<=" | OO_GreaterGreaterEqual => ">>="
  | OO_EqualEqual => "==" | OO_ExclaimEqual => "!=" | OO_LessEqual => "<=" | OO_GreaterEqual => ">="
  | OO_AmpAmp => "&&" | OO_PipePipe => "||" | OO_PlusPlus => "++" | OO_MinusMinus => "--"
  | OO_Comma => "," | OO_ArrowStar => "->*" | OO_Arrow => "->" | OO_Call => "()"
  | OO_Subscript => "[]" | OO_Conditional => "?" | OO_Coawait => "co_await"

/-- What `printFuncBegin` reads from a parameter: its type and the record the
lambda `getRecordType` finds behind it (`none` for a null result). -/
structure ParmVarDecl where
  type : QualType
  record : Option Nat
  deriving DecidableEq, Repr

/-- What `printFuncBegin` reads from a `clang::FunctionDecl`; `method` is
`some (thisType, parent)` when the declaration is a `CXXMethodDecl`. -/
structure FunctionDecl where
  isImplicit : Bool
  overloadedOperator : OverloadedOperatorKind
  name : String
  returnType : QualType
  method : Option (QualType × Nat)
  params : List ParmVarDecl
  deriving DecidableEq, Repr

/-- A default-constructed (null) `QualType`. -/
def nullQualType : QualType :=
  { ptr := 0, name := "", typeClass := TypeClass.Other, isClassType := false,
    isFunctionType := false, isConstQualified := false, isBuiltinCanonical := false,
    text := "" }

/-- The first operand of an operator declaration: type and record
(`arg1Type`, `arg1Record`). -/
def arg1 (Decl : FunctionDecl) : QualType × Option Nat :=
  match Decl.method with
  | some (thisType, parent) => (thisType, some parent)
  | none =>
    match Decl.params with
    | param0 :: _ => (param0.type, param0.record)
    | [] => (nullQualType, none)

/-- The second operand of an operator declaration (`arg2Type`, `arg2Record`). -/
def arg2 (Decl : FunctionDecl) : QualType × Option Nat :=
  match Decl.method with
  | some _ =>
    match Decl.params with
    | param0 :: _ => (param0.type, param0.record)
    | [] => (nullQualType, none)
  | none =>
    match Decl.params with
    | _ :: param1 :: _ => (param1.type, param1.record)
    | _ => (nullQualType, none)

/-- Model of `classInfoMap[record].relations[type].hasOpEqual = true`. -/
def setHasOpEqual (m : List (Nat × ClassInfo)) (record type : Nat) : List (Nat × ClassInfo) :=
  mapUpdate default
    (fun ci =>
      { ci with
        relations := mapUpdate default (fun r => { r with hasOpEqual := true }) ci.relations type })
    m record

/-- Model of `classInfoMap[record].relations[type].hasOpLess = true`. -/
def setHasOpLess (m : List (Nat × ClassInfo)) (record type : Nat) : List (Nat × ClassInfo) :=
  mapUpdate default
    (fun ci =>
      { ci with
        relations := mapUpdate default (fun r => { r with hasOpLess := true }) ci.relations type })
    m record

/-- Model of `classInfoMap[record].hasOpExclaim = true`. -/
def setHasOpExclaim (m : List (Nat × ClassInfo)) (record : Nat) : List (Nat × ClassInfo) :=
  mapUpdate default (fun ci => { ci with hasOpExclaim := true }) m record

/-- Model of `classInfoMap[record].hasBoolConv = true`. -/
def setHasBoolConv (m : List (Nat × ClassInfo)) (record : Nat) : List (Nat × ClassInfo) :=
  mapUpdate default (fun ci => { ci with hasBoolConv := true }) m record

/-- The local `nbArgs` of `printFuncBegin`: the parameters, plus one for `this`
when no parameter becomes `this`. -/
def nbArgs (Decl : FunctionDecl) (arg_become_this : Int) : Nat :=
  (if arg_become_this = -1 then 1 else 0) + Decl.params.length

/-- Model of `spelling.resize(spelling.size() - 1)`. -/
def dropLastChar (spelling : String) : String :=
  String.mk spelling.data.dropLast

/-- The operator branch of `printFuncBegin(FunctionDecl*)`: the method name sent
to `out()`, the `ClassInfo` updates, and the new value of `tmpParams`. -/
def printOperatorName (p : DPrinter) (Decl : FunctionDecl) (tmpParams : String)
    (arg_become_this : Int) : String × DPrinter :=
  let arg1Type := (arg1 Decl).1
  let arg1Record := (arg1 Decl).2
  let arg2Type := (arg2 Decl).1
  let arg2Record := (arg2 Decl).2
  let nbArgs : Nat := nbArgs Decl arg_become_this
  let right : String := if arg_become_this = 1 then "Right" else ""
  let opKind := Decl.overloadedOperator
  if opKind = OverloadedOperatorKind.OO_EqualEqual then
    let p := out p ("opEquals" ++ right)
    let p := match arg1Record with
      | some r => { p with classInfoMap := setHasOpEqual p.classInfoMap r arg2Type.ptr }
      | none => p
    let p := match arg2Record with
      | some r => { p with classInfoMap := setHasOpEqual p.classInfoMap r arg1Type.ptr }
      | none => p
    (tmpParams, p)
  else if opKind = OverloadedOperatorKind.OO_Exclaim then
    let p := out p ("_opExclaim" ++ right)
    let p := match arg1Record with
      | some r => { p with classInfoMap := setHasOpExclaim p.classInfoMap r }
      | none => p
    (tmpParams, p)
  else if opKind = OverloadedOperatorKind.OO_Call then (tmpParams, out p ("opCall" ++ right))
  else if opKind = OverloadedOperatorKind.OO_Subscript then
    (tmpParams, out p ("opIndex" ++ right))
  else if opKind = OverloadedOperatorKind.OO_Equal then (tmpParams, out p ("opAssign" ++ right))
  else if opKind = OverloadedOperatorKind.OO_Less then
    let p := out p ("_opLess" ++ right)
    let p := match arg1Record with
      | some r => { p with classInfoMap := setHasOpLess p.classInfoMap r arg2Type.ptr }
      | none => p
    (tmpParams, p)
  else if opKind = OverloadedOperatorKind.OO_LessEqual then
    (tmpParams, out p ("_opLessEqual" ++ right))
  else if opKind = OverloadedOperatorKind.OO_Greater then
    (tmpParams, out p ("_opGreater" ++ right))
  else if opKind = OverloadedOperatorKind.OO_GreaterEqual then
    (tmpParams, out p ("_opGreaterEqual" ++ right))
  else if opKind = OverloadedOperatorKind.OO_PlusPlus ∧ nbArgs = 2 then
    (tmpParams, out p ("_opPostPlusplus" ++ right))
  else if opKind = OverloadedOperatorKind.OO_MinusMinus ∧ nbArgs = 2 then
    (tmpParams, out p ("_opPostMinusMinus" ++ right))
  else
    let spelling := getOperatorSpelling opKind
    if nbArgs = 1 then
      ("string op: \"" ++ spelling ++ "\"", out p ("opUnary" ++ right))
    else if spelling.data.getLast? = some '=' then
      let p := out p "opOpAssign"
      let spelling := dropLastChar spelling
      ("string op: \"" ++ spelling ++ "\"", p)
    else
      ("string op: \"" ++ spelling ++ "\"", out p ("opBinary" ++ right))

/-- Model of `DPrinter::printFuncBegin(FunctionDecl*, std::string&, int)`: the
returned flag, the value of the reference parameter `tmpParams` on return,
and the printer. -/
def printFuncBegin (p : DPrinter) (Decl : FunctionDecl) (tmpParams : String)
    (arg_become_this : Int) : Bool × String × DPrinter :=
  if Decl.isImplicit then (false, tmpParams, p)
  else if Decl.overloadedOperator ≠ OverloadedOperatorKind.OO_None
      ∧ Decl.overloadedOperator = OverloadedOperatorKind.OO_ExclaimEqual then
    (false, tmpParams, p)
  else if Decl.name = "cpp2d_dummy_variadic" then (false, tmpParams, p)
  else
    let p := printType p Decl.returnType
    let p := out p " "
    if Decl.overloadedOperator ≠ OverloadedOperatorKind.OO_None then
      let r := printOperatorName p Decl tmpParams arg_become_this
      (true, r.1, r.2)
    else
      (true, tmpParams, out p (mangleName Decl.name))

/-- The operator kinds `printFuncBegin` names explicitly: the one it declines
(`!=`) and those with a method name of their own. -/
def dedicatedOps : List OverloadedOperatorKind :=
  [ OverloadedOperatorKind.OO_ExclaimEqual, OverloadedOperatorKind.OO_EqualEqual,
    OverloadedOperatorKind.OO_Exclaim, OverloadedOperatorKind.OO_Call,
    OverloadedOperatorKind.OO_Subscript, OverloadedOperatorKind.OO_Equal,
    OverloadedOperatorKind.OO_Less, OverloadedOperatorKind.OO_LessEqual,
    OverloadedOperatorKind.OO_Greater, OverloadedOperatorKind.OO_GreaterEqual,
    OverloadedOperatorKind.OO_PlusPlus, OverloadedOperatorKind.OO_MinusMinus ]

/-- The compound-assignment operators `+= -= *= /= %= ^= &= |= <<= >>=`. -/
def compoundAssignOps : List OverloadedOperatorKind :=
  [ OverloadedOperatorKind.OO_PlusEqual, OverloadedOperatorKind.OO_MinusEqual,
    OverloadedOperatorKind.OO_StarEqual, OverloadedOperatorKind.OO_SlashEqual,
    OverloadedOperatorKind.OO_PercentEqual, OverloadedOperatorKind.OO_CaretEqual,
    OverloadedOperatorKind.OO_AmpEqual, OverloadedOperatorKind.OO_PipeEqual,
    OverloadedOperatorKind.OO_LessLessEqual, OverloadedOperatorKind.OO_GreaterGreaterEqual ]

/-- Model of `printFuncBegin(CXXConversionDecl*, std::string&, int)`;
`attributes` is the text `printSpecialMethodAttribute` writes, `parent` the
record `Decl->getParent()`, `conversionTypeString` the text of
`getConversionType().getAsString()`. -/
def printFuncBeginConversion (p : DPrinter) (attributes : String) (parent : Nat)
    (conversionType : QualType) (conversionTypeString : String) : Bool × String × DPrinter :=
  let p := out p attributes
  let p := printType p conversionType
  let p := out p " opCast"
  let p := pushStream p
  let p := out p "T : "
  let p :=
    if conversionTypeString = "bool" then
      { p with classInfoMap := setHasBoolConv p.classInfoMap parent }
    else p
  let p := printType p conversionType
  let r := popStream p
  (true, r.1, r.2)

/-- The reserved words `mangleName` escapes. -/
def reservedWords : List String :=
  ["version", "out", "in", "ref", "debug", "function", "Exception"]

/-! ## Imports (`includeFile`, `mangleType`, `addExternInclude`) -/

/-- The value `std::string::npos`, the largest `size_t`. -/
def npos : Nat := 2 ^ 64 - 1

/-- Subtraction of two `size_t` values. -/
def sizeSub (a b : Nat) : Nat := (a + 2 ^ 64 - b % 2 ^ 64) % 2 ^ 64

/-- Model of `s.find(pat)` as a `size_t`: `npos` when `pat` does not occur. -/
def findPos (s pat : String) : Nat :=
  (strFind s pat).getD npos

/-- Scan of `find_last_of(c)`: the last index holding `c` among the characters
from index `i` on, `best` when there is none. -/
def findLastOfFrom (c : Char) : List Char → Nat → Nat → Nat
  | [], _, best => best
  | d :: ds, i, best => findLastOfFrom c ds (i + 1) (if d = c then i else best)

/-- Model of `s.find_last_of(c)`. -/
def findLastOf (s : String) (c : Char) : Nat :=
  findLastOfFrom c s.data 0 npos

/-- Model of `s.substr(pos, count)` for `pos` within the string. -/
def substr (s : String) (pos count : Nat) : String :=
  String.mk ((s.data.drop pos).take count)

/-- Model of the table `type2type`. -/
def type2type : List (String × String) :=
  [ ("boost::optional", "std.typecons.Nullable"),
    ("std::vector", "cpp_std.vector"),
    ("std::set", "std.container.rbtree.RedBlackTree"),
    ("boost::shared_mutex", "core.sync.rwmutex.ReadWriteMutex"),
    ("boost::mutex", "core.sync.mutex.Mutex"),
    ("std::allocator", "cpp_std.allocator"),
    ("time_t", "core.stdc.time.time_t"),
    ("intptr_t", "core.stdc.stdint.intptr_t"),
    ("int8_t", "core.stdc.stdint.int8_t"),
    ("uint8_t", "core.stdc.stdint.uint8_t"),
    ("int16_t", "core.stdc.stdint.int16_t"),
    ("uint16_t", "core.stdc.stdint.uint16_t"),
    ("int32_t", "core.stdc.stdint.int32_t"),
    ("uint32_t", "core.stdc.stdint.uint32_t"),
    ("int64_t", "core.stdc.stdint.int64_t"),
    ("uint64_t", "core.stdc.stdint.uint64_t"),
    ("SafeInt", "std.experimental.safeint.SafeInt"),
    ("RedBlackTree", "std.container.rbtree"),
    ("std::map", "cpp_std.map"),
    ("std::string", "string"),
    ("std::ostream", "std.stdio.File") ]

/-- Model of `std::set<std::string>::insert`: the set is a list in increasing
order without repetition. -/
def setInsert : List String → String → List String
  | [], x => [x]
  | y :: ys, x =>
    if x < y then x :: y :: ys
    else if x = y then y :: ys
    else y :: setInsert ys x

/-- Model of `externIncludes[module].insert(symbol)`: the entry of `module` is
created empty when absent, and the symbol is inserted in its set. -/
def recordImport : List (String × List String) → String → String → List (String × List String)
  | [], module, symbol => [(module, [symbol])]
  | (k, set) :: rest, module, symbol =>
    if module < k then (module, [symbol]) :: (k, set) :: rest
    else if module = k then (k, setInsert set symbol) :: rest
    else (k, set) :: recordImport rest module symbol

/-- Model of `DPrinter::addExternInclude`. -/
def addExternInclude (p : DPrinter) (inc typeName : String) : DPrinter :=
  { p with externIncludes := recordImport p.externIncludes inc typeName }

/-- The test of `includeFile` on one include: it occurs in `declInc`, the
occurrence `find` reports ends the path, and it starts the path or follows a
separator. -/
def includeMatches (declInc inc : String) : Bool :=
  let pos := findPos declInc inc
  decide (pos ≠ npos) &&
    decide (pos = sizeSub declInc.data.length inc.data.length) &&
    (decide (pos = 0) || declInc.data.get? (pos - 1) == some '/'
      || declInc.data.get? (pos - 1) == some '\\')

/-- The module name `includeFile` derives from a matched include: the two
extension tests, then lower-casing, then both separators replaced by a dot. -/
def moduleOfInclude (inc : String) : String :=
  let inc :=
    if findPos inc ".h" = sizeSub inc.data.length 2 then
      substr inc 0 (sizeSub inc.data.length 2)
    else inc
  let inc :=
    if findPos inc ".hpp" = sizeSub inc.data.length 4 then
      substr inc 0 (sizeSub inc.data.length 4)
    else inc
  let inc := String.mk (inc.data.map Char.toLower)
  let inc := String.mk (inc.data.map (fun c => if c = '/' then '.' else c))
  String.mk (inc.data.map (fun c => if c = '\\' then '.' else c))

/-- The loop of `includeFile` over `includesInFile`: the first include that
passes the test is recorded, and the loop breaks. -/
def includeLoop (externIncludes : List (String × List String)) (declInc typeName : String) :
    List String → List (String × List String)
  | [] => externIncludes
  | inc :: rest =>
    if includeMatches declInc inc then
      recordImport externIncludes (moduleOfInclude inc) typeName
    else includeLoop externIncludes declInc typeName rest

/-- Model of `DPrinter::includeFile`. -/
def includeFile (p : DPrinter) (declInc typeName : String) : DPrinter :=
  if p.isInMacro ≠ 0 then p
  else
    { p with externIncludes := includeLoop p.externIncludes declInc typeName p.includesInFile }

/-- What `mangleType` reads from a `clang::NamedDecl`: `getNameAsString()`, the
qualified name of the canonical declaration when there is one and it is a named
declaration, and the file `CPP2DTools::getFile` reports for the declaration
that is used (`none` for a null result). -/
structure NamedDecl where
  name : String
  canonicalQualifiedName : Option String
  file : Option String
  deriving DecidableEq, Repr

/-- The local `qualName` of `mangleType`. -/
def qualName (decl : NamedDecl) : String :=
  decl.canonicalQualifiedName.getD decl.name

/-- Model of `DPrinter::mangleType`: the returned name and the printer, `none`
when the file handed to `includeFile` is a null pointer. -/
def mangleType (p : DPrinter) (decl : NamedDecl) : Option (String × DPrinter) :=
  match type2type.lookup (qualName decl) with
  | some dQualType =>
    let dotPos := findLastOf dQualType '.'
    let module := if dotPos = npos then "" else substr dQualType 0 dotPos
    let p :=
      if module ≠ "" then
        { p with externIncludes := recordImport p.externIncludes module (qualName decl) }
      else p
    some (substr dQualType ((dotPos + 1) % 2 ^ 64) npos, p)
  | none =>
    match decl.file with
    | none => none
    | some file => some (mangleName decl.name, includeFile p file (qualName decl))

/-- The invariant of a `std::set<std::string>`: strictly increasing. -/
@[reducible] def setSorted (set : List String) : Prop :=
  set.Pairwise (fun a b => a < b)

/-- The invariant of `externIncludes`: keys strictly increasing, every set
strictly increasing. -/
@[reducible] def importsSorted (imports : List (String × List String)) : Prop :=
  imports.Pairwise (fun a b => a.1 < b.1) ∧ ∀ e ∈ imports, setSorted e.2

/-- The text of a mapped name after its last dot, as the specification words
the result of `mangleType` on a remapped declaration. -/
def afterLastDot (s : String) : String :=
  String.mk (s.data.reverse.takeWhile (fun c => c ≠ '.')).reverse

/-- The text of a mapped name before its last dot, empty when it has no dot. -/
def beforeLastDot (s : String) : String :=
  String.mk (s.data.reverse.dropWhile (fun c => c ≠ '.')).reverse.dropLast

/-- Model of `std::map::find` on `externIncludes`. -/
def importsFind : List (String × List String) → String → Option (List String)
  | [], _ => none
  | (k, set) :: rest, module => if module = k then some set else importsFind rest module

/-- The check, for one mapped name of `type2type`, that the module and the
name `mangleType` computes from it are its text before and after the last dot. -/
def remapSplitOk (dQualType : String) : Bool :=
  decide ((if findLastOf dQualType '.' = npos then ""
      else substr dQualType 0 (findLastOf dQualType '.')) = beforeLastDot dQualType) &&
    decide (substr dQualType ((findLastOf dQualType '.' + 1) % 2 ^ 64) npos
      = afterLastDot dQualType)

/-- The symbols recorded for a module, empty when the module has no entry. -/
def importedSymbols (imports : List (String × List String)) (module : String) : List String :=
  (importsFind imports module).getD []

/-- Recording a sequence of symbols for one module, in order. -/
def recordAll (imports : List (String × List String)) (module : String)
    (symbols : List String) : List (String × List String) :=
  symbols.foldl (fun acc symbol => recordImport acc module symbol) imports

/-- A sequence of calls `addExternInclude(module, symbol)`, one per symbol. -/
def addExternIncludes (p : DPrinter) (module : String) (symbols : List String) : DPrinter :=
  symbols.foldl (fun q symbol => addExternInclude q module symbol) p

/-! ## Comments between statements (`trim`, `split`, `printStmtComment`) -/

/-- The characters of the set `"\r\n\t "` that `trim` removes. -/
def isTrimChar (c : Char) : Bool :=
  c = '\r' || c = '\n' || c = '\t' || c = ' '

/-- Scan of `find_first_not_of("\r\n\t ")` from index `i`. -/
def findFirstNotOfFrom : List Char → Nat → Option Nat
  | [], _ => none
  | c :: cs, i => if isTrimChar c then findFirstNotOfFrom cs (i + 1) else some i

/-- Scan of `find_last_not_of("\r\n\t ")` from index `i`, `best` being the last
hit so far. -/
def findLastNotOfFrom : List Char → Nat → Option Nat → Option Nat
  | [], _, best => best
  | c :: cs, i, best => findLastNotOfFrom cs (i + 1) (if isTrimChar c then best else some i)

/-- Model of `DPrinter::trim`. -/
def trim (s : String) : String :=
  match findFirstNotOfFrom s.data 0, findLastNotOfFrom s.data 0 none with
  | some pos1, some pos2 => substr s pos1 (pos2 - pos1 + 1)
  | _, _ => ""

/-- The loop of `DPrinter::split`: `cur` is the text since the last line break;
each line break, and the end of the text, closes a line, which is trimmed. -/
def splitFrom : List Char → List Char → List String
  | cur, [] => [trim (String.mk cur)]
  | cur, c :: cs =>
    if c = '\n' then trim (String.mk cur) :: splitFrom [] cs
    else splitFrom (cur ++ [c]) cs

/-- Model of `DPrinter::split`. -/
def split (instr : String) : List String :=
  splitFrom [] instr.data

/-- The first line of a comment block after `printStmtComment` has cut it at
its first `//` or `/*`; a line with neither becomes empty. -/
def cutFirstComment (firstComment : String) : String :=
  let commentPos1 := findPos firstComment "//"
  let commentPos2 := findPos firstComment "/*"
  if commentPos1 ≠ npos then
    let trimPos := if commentPos2 ≠ npos then min commentPos1 commentPos2 else commentPos1
    if firstComment ≠ "" then substr firstComment trimPos npos else firstComment
  else if commentPos2 ≠ npos then
    if firstComment ≠ "" then substr firstComment commentPos2 npos else firstComment
  else ""

/-- The loop `for(auto const& c : comments)` of `printStmtComment`; `first` is
the flag of the `Spliter`, whose separator is the indentation `str`. -/
def printCommentLoop (p : DPrinter) (str : String) : Bool → List String → DPrinter
  | _, [] => p
  | first, c :: rest =>
    let p := if first then p else out p str
    let p := out p c
    let p := out p endl
    printCommentLoop p str false rest

/-- The part of `printStmtComment` that follows `comments.pop_back()`. -/
def printCommentLines (p : DPrinter) (comments : List String) : DPrinter :=
  let str := indentStr p
  match comments with
  | [] => out p endl
  | firstComment :: rest =>
    let p := out p " "
    printCommentLoop p str true (cutFirstComment firstComment :: rest)

/-- Model of `DPrinter::printStmtComment`; `span` is the source text between
`locStart` and `locEnd`, `none` when a location is invalid or comes from a
macro expansion.  The last line of the split is dropped without a test. -/
def printStmtComment (p : DPrinter) (span : Option String) : DPrinter :=
  match span with
  | none => out p endl
  | some comment => printCommentLines p (split comment).dropLast

/-! ## Templates (`printTemplateParameterList`, `printTemplateSpec_TmpArgsAndParms`) -/

/-- The identifier of a template parameter (`getIdentifier()`). -/
def TemplateParam.identifier : TemplateParam → Option IdentifierInfo
  | TemplateParam.TemplateTypeParm identifier _ => identifier
  | TemplateParam.NonTypeTemplateParm _ identifier _ => identifier
  | TemplateParam.TemplateTemplateParm _ identifier _ => identifier

/-- Model of `DPrinter::TraverseTemplateTypeParmDecl`.  No printer is registered
for template parameters (`MatchContainer::getMatcher` registers printers for
`std::hash` specialisations and free operators only), so `passDecl` declines. -/
def TraverseTemplateTypeParmDecl (p : DPrinter) (identifier : Option IdentifierInfo) :
    DPrinter :=
  match identifier with
  | some info =>
    match mapFind p.renamedIdentifiers info.ptr with
    | some renamed => if p.renameIdentifiers then out p renamed else out p info.name
    | none => out p info.name
  | none => p

/-- Model of `DPrinter::TraverseNonTypeTemplateParmDecl`. -/
def TraverseNonTypeTemplateParmDecl (p : DPrinter) (type : QualType)
    (identifier : Option IdentifierInfo) : DPrinter :=
  let p := printType p type
  let p := out p " "
  match identifier with
  | some info => out p (mangleName info.name)
  | none => p

/-- Model of `TraverseDecl` on a template parameter. -/
def TraverseTemplateParam (p : DPrinter) : TemplateParam → DPrinter
  | TemplateParam.TemplateTypeParm identifier _ => TraverseTemplateTypeParmDecl p identifier
  | TemplateParam.NonTypeTemplateParm type identifier _ =>
    TraverseNonTypeTemplateParmDecl p type identifier
  | TemplateParam.TemplateTemplateParm text _ _ => out p text

/-- Model of `DPrinter::printTemplateArgument`. -/
def printTemplateArgument (p : DPrinter) : TemplateArgument → DPrinter
  | TemplateArgument.Null => p
  | TemplateArgument.Declaration text => out p text
  | TemplateArgument.Integral value => out p (toString value)
  | TemplateArgument.NullPtr => out p "null"
  | TemplateArgument.Type type => printType p type
  | TemplateArgument.Other text => out p text

/-- The statements of `printTemplateParameterList` that follow `TraverseDecl(param)`:
the default argument of the parameter, if it has one, after ` = `. -/
def printDefaultArgument (p : DPrinter) : TemplateParam → DPrinter
  | TemplateParam.TemplateTypeParm _ (some defaultArgument) =>
    printType (out p " = ") defaultArgument
  | TemplateParam.NonTypeTemplateParm _ _ (some defaultArgument) =>
    out (out p " = ") defaultArgument
  | TemplateParam.TemplateTemplateParm _ _ (some defaultArgument) =>
    printTemplateArgument (out p " = ") defaultArgument
  | _ => p

/-- Model of `Spliter::split` for a splitter with separator `str`: nothing the
first time, the separator afterwards.  The result is the printer and the new
value of `first`. -/
def Spliter.split (p : DPrinter) (str : String) (first : Bool) : DPrinter × Bool :=
  if first then (p, false) else (out p str, false)

/-- The loop of `printTemplateParameterList` over the parameters. -/
def printTemplateParameterLoop (p : DPrinter) (first : Bool) : List TemplateParam → DPrinter
  | [] => p
  | param :: rest =>
    let s := Spliter.split p ", " first
    let p := TraverseTemplateParam s.1 param
    let p := printDefaultArgument p param
    printTemplateParameterLoop p s.2 rest

/-- Model of `DPrinter::printTemplateParameterList`. -/
def printTemplateParameterList (p : DPrinter) (tmpParams : List TemplateParam)
    (prevTmplParmsStr : String) : DPrinter :=
  let p := out p "("
  let s : DPrinter × Bool :=
    if prevTmplParmsStr ≠ "" then
      let s := Spliter.split p ", " true
      (out s.1 prevTmplParmsStr, s.2)
    else (p, true)
  let p := printTemplateParameterLoop s.1 s.2 tmpParams
  out p ")"

/-- The first loop of `printTemplateSpec_TmpArgsAndParms`: every parameter of
`newTmpParams` is entered in `renamedIdentifiers` under its name followed by
`_`.  The result is `none` when a parameter has no identifier (the code
dereferences the null `IdentifierInfo*`). -/
def registerRenames (renamedIdentifiers : List (Nat × String)) :
    List TemplateParam → Option (List (Nat × String))
  | [] => some renamedIdentifiers
  | parmDecl :: rest =>
    match parmDecl.identifier with
    | none => none
    | some info =>
      registerRenames (mapUpdate "" (fun _ => info.name ++ "_") renamedIdentifiers info.ptr) rest

/-- The second loop of `printTemplateSpec_TmpArgsAndParms`, over the arguments:
the primary parameter printed with `renameIdentifiers` off, ` : `, the argument.
The result is `none` when the primary list is shorter than the argument list. -/
def printBindingLoop (p : DPrinter) (first : Bool) :
    List TemplateParam → List TemplateArgument → Option (DPrinter × Bool)
  | _, [] => some (p, first)
  | [], _ :: _ => none
  | param :: params, arg :: args =>
    let s := Spliter.split p ", " first
    let p := { s.1 with renameIdentifiers := false }
    let p := TraverseTemplateParam p param
    let p := { p with renameIdentifiers := true }
    let p := out p " : "
    let p := printTemplateArgument p arg
    printBindingLoop p s.2 params args

/-- The third loop of `printTemplateSpec_TmpArgsAndParms`, over `newTmpParams`. -/
def printExtraLoop (p : DPrinter) (first : Bool) : List TemplateParam → DPrinter
  | [] => p
  | param :: rest =>
    let s := Spliter.split p ", " first
    printExtraLoop (TraverseTemplateParam s.1 param) s.2 rest

/-- Model of `DPrinter::printTemplateSpec_TmpArgsAndParms`; `newTmpParams` is
`none` for a null pointer. -/
def printTemplateSpec_TmpArgsAndParms (p : DPrinter) (primaryTmpParams : List TemplateParam)
    (tmpArgs : List TemplateArgument) (newTmpParams : Option (List TemplateParam))
    (prevTmplParmsStr : String) : Option DPrinter :=
  let p := out p "("
  let s : DPrinter × Bool :=
    if prevTmplParmsStr ≠ "" then
      let s := Spliter.split p ", " true
      (out s.1 prevTmplParmsStr, s.2)
    else (p, true)
  let registered : Option DPrinter :=
    match newTmpParams with
    | some params =>
      (registerRenames s.1.renamedIdentifiers params).map
        (fun m => { s.1 with renamedIdentifiers := m })
    | none => some s.1
  match registered with
  | none => none
  | some p =>
    match printBindingLoop p s.2 primaryTmpParams tmpArgs with
    | none => none
    | some b =>
      let p :=
        match newTmpParams with
        | some params => printExtraLoop b.1 b.2 params
        | none => b.1
      some (out p ")")

/-- A template parameter without its default argument. -/
def TemplateParam.withoutDefault : TemplateParam → TemplateParam
  | TemplateParam.TemplateTypeParm identifier _ =>
    TemplateParam.TemplateTypeParm identifier none
  | TemplateParam.NonTypeTemplateParm type identifier _ =>
    TemplateParam.NonTypeTemplateParm type identifier none
  | TemplateParam.TemplateTemplateParm text identifier _ =>
    TemplateParam.TemplateTemplateParm text identifier none

/-- The text `TraverseDecl` sends to `out()` for a template parameter. -/
def templateParamText (p : DPrinter) : TemplateParam → String
  | TemplateParam.TemplateTypeParm (some info) _ =>
    match mapFind p.renamedIdentifiers info.ptr with
    | some renamed => if p.renameIdentifiers then renamed else info.name
    | none => info.name
  | TemplateParam.TemplateTypeParm none _ => ""
  | TemplateParam.NonTypeTemplateParm type (some info) _ =>
    typeText p.portConst type ++ " " ++ mangleName info.name
  | TemplateParam.NonTypeTemplateParm type none _ => typeText p.portConst type ++ " "
  | TemplateParam.TemplateTemplateParm text _ _ => text

/-- The text `printTemplateArgument` sends to `out()`. -/
def templateArgumentText (p : DPrinter) : TemplateArgument → String
  | TemplateArgument.Null => ""
  | TemplateArgument.Declaration text => text
  | TemplateArgument.Integral value => toString value
  | TemplateArgument.NullPtr => "null"
  | TemplateArgument.Type type => typeText p.portConst type
  | TemplateArgument.Other text => text

/-- The text that follows a parameter in the primary list: ` = ` and the
rendering of the default argument when the parameter has one, nothing otherwise. -/
def defaultArgumentText (p : DPrinter) : TemplateParam → String
  | TemplateParam.TemplateTypeParm _ (some defaultArgument) =>
    " = " ++ typeText p.portConst defaultArgument
  | TemplateParam.NonTypeTemplateParm _ _ (some defaultArgument) => " = " ++ defaultArgument
  | TemplateParam.TemplateTemplateParm _ _ (some defaultArgument) =>
    " = " ++ templateArgumentText p defaultArgument
  | _ => ""

/-- The items of a list separated by `, `; `first` tells whether the first item
of the list is also the first item printed. -/
def joinItems : Bool → List String → String
  | _, [] => ""
  | first, item :: rest => (if first then "" else ", ") ++ item ++ joinItems false rest

/-- The default argument of a template parameter as an option: whether
`hasDefaultArgument()` holds. -/
def TemplateParam.hasDefaultArgument : TemplateParam → Bool
  | TemplateParam.TemplateTypeParm _ d => d.isSome
  | TemplateParam.NonTypeTemplateParm _ _ d => d.isSome
  | TemplateParam.TemplateTemplateParm _ _ d => d.isSome

/-! ## Functions and aggregates as a whole -/

/-- The values of `FunctionDecl::getTemplatedKind()` together with what the
printer reads in each case: the parameters of the described function template
(`none` when `getDescribedFunctionTemplate()` is null), or the parameters of
the primary template and the specialisation arguments (`none` when
`getPrimaryTemplate()` is null). -/
inductive TemplatedKind
  | TK_NonTemplate
  | TK_MemberSpecialization
  | TK_FunctionTemplate (described : Option (List TemplateParam))
  | TK_FunctionTemplateSpecialization
      (primary : Option (List TemplateParam × List TemplateArgument))
  | TK_DependentFunctionTemplateSpecialization
      (primary : Option (List TemplateParam × List TemplateArgument))
  deriving DecidableEq, Repr

/-- What `traverseFunctionDeclImpl` reads from a `FunctionDecl` besides what
`printFuncBegin` reads.

* `isCanonicalDecl`: `Decl == Decl->getCanonicalDecl()`;
* `numParams`: `Decl->getNumParams()`;
* `parametersText`: the text the loop over the parameters and the statement for
  a variadic function write, for the value of `arg_become_this` the function is
  traversed with;
* `closingComment`: `none` when `funcTypeLoc` is null, otherwise the span of
  source text between the last parameter and the closing parenthesis, as
  `printStmtComment` takes it;
* `isConstMethod`: the local of that name after the parameter loop;
* `bodyText`: the text written for the body after the line break, when
  `getBody()` is not null;
* `isThisFunctionUsefull`: the member of that name after the body is traversed. -/
structure FunctionInfo where
  Decl : FunctionDecl
  isDeleted : Bool
  hasBody : Bool
  isCanonicalDecl : Bool
  isThisDeclarationADefinition : Bool
  templatedKind : TemplatedKind
  numParams : Nat
  parametersText : String
  closingComment : Option (Option String)
  isConstMethod : Bool
  bodyText : String
  isThisFunctionUsefull : Bool
  deriving DecidableEq, Repr

/-- The `switch(Decl->getTemplatedKind())` of `traverseFunctionDeclImpl`: the
printer and the flag `tmplPrinted`. -/
def printFunctionTemplateLists (p : DPrinter) (kind : TemplatedKind) (tmplParamsStr : String) :
    Option (DPrinter × Bool) :=
  match kind with
  | TemplatedKind.TK_MemberSpecialization => some (p, false)
  | TemplatedKind.TK_NonTemplate => some (p, false)
  | TemplatedKind.TK_FunctionTemplate (some tmpParams) =>
    some (printTemplateParameterList p tmpParams tmplParamsStr, true)
  | TemplatedKind.TK_FunctionTemplate none => some (p, false)
  | TemplatedKind.TK_FunctionTemplateSpecialization (some primary) =>
    (printTemplateSpec_TmpArgsAndParms p primary.1 primary.2 none tmplParamsStr).map
      (fun q => (q, true))
  | TemplatedKind.TK_FunctionTemplateSpecialization none => some (p, false)
  | TemplatedKind.TK_DependentFunctionTemplateSpecialization (some primary) =>
    (printTemplateSpec_TmpArgsAndParms p primary.1 primary.2 none tmplParamsStr).map
      (fun q => (q, true))
  | TemplatedKind.TK_DependentFunctionTemplateSpecialization none => some (p, false)

/-- Whether the templated kind is `TK_FunctionTemplateSpecialization`. -/
def TemplatedKind.isFunctionTemplateSpecialization : TemplatedKind → Bool
  | TemplatedKind.TK_FunctionTemplateSpecialization _ => true
  | _ => false

/-- The statements of `traverseFunctionDeclImpl` between `out() << "("` and
`out() << ")"`: the parameters, then the comment before the closing
parenthesis, rendered into a stream of its own and kept when it has more than
two characters. -/
def printParameters (p : DPrinter) (f : FunctionInfo) : DPrinter :=
  if f.numParams ≠ 0 then
    let p := { p with indent := p.indent + 1 }
    let p := out p f.parametersText
    let p := pushStream p
    let p :=
      match f.closingComment with
      | some span => printStmtComment p span
      | none => p
    let comment := popStream p
    let p := { comment.2 with indent := comment.2.indent - 1 }
    if 2 < comment.1.length then out p (comment.1 ++ indentStr p) else p
  else p

/-- Model of `DPrinter::traverseFunctionDeclImpl` for `D = FunctionDecl`, the
instantiation used for free operators (`printFuncEnd(FunctionDecl*)` writes
nothing). -/
def traverseFunctionDeclImpl (p : DPrinter) (f : FunctionInfo) (arg_become_this : Int) :
    Option DPrinter :=
  if f.isDeleted then some p
  else if f.Decl.isImplicit && !f.hasBody then some p
  else if !f.isCanonicalDecl &&
      !(f.templatedKind.isFunctionTemplateSpecialization && f.isThisDeclarationADefinition) then
    some p
  else
    let p := pushStream p
    let begun := printFuncBegin p f.Decl "" arg_become_this
    if begun.1 = false then some (popStream begun.2.2).2
    else
      match printFunctionTemplateLists begun.2.2 f.templatedKind begun.2.1 with
      | none => none
      | some lists =>
        let p := lists.1
        let p :=
          if lists.2 = false ∧ begun.2.1 ≠ "" then out p ("(" ++ begun.2.1 ++ ")") else p
        let p := out p "("
        let p := printParameters p f
        let p := out p ")"
        let p := if f.isConstMethod && p.portConst then out p " const" else p
        let p := if f.hasBody then out (out p endl) f.bodyText else out p ";"
        let printedFunction := popStream p
        if !f.Decl.isImplicit || f.isThisFunctionUsefull then
          some (out printedFunction.2 printedFunction.1)
        else some printedFunction.2

/-- What `printBasesClass` reads from a `CXXBaseSpecifier`. -/
structure CXXBaseSpecifier where
  accessSpecifier : AccessSpecifier
  type : QualType
  deriving DecidableEq, Repr

/-- The lambda `printBaseSpec` applied to the bases in order; `first` is the
flag of the `Spliter`. -/
def printBaseSpecs (p : DPrinter) (first : Bool) : List CXXBaseSpecifier → DPrinter
  | [] => p
  | base :: rest =>
    let s := Spliter.split p ", " first
    let p :=
      if base.accessSpecifier ≠ AccessSpecifier.AS_public then
        out s.1 ("/*" ++ AccessSpecifierStr base.accessSpecifier ++ "*/ ")
      else s.1
    let p := printType p base.type
    printBaseSpecs p s.2 rest

/-- Model of `DPrinter::printBasesClass`: `bases` and `vbases` are the ranges
`decl->bases()` and `decl->vbases()`. -/
def printBasesClass (p : DPrinter) (bases vbases : List CXXBaseSpecifier) : DPrinter :=
  if bases.length + vbases.length ≠ 0 then
    let p := out p " : "
    printBaseSpecs p true (bases ++ vbases)
  else p

/-- What `traverseCXXRecordDeclImpl` reads from a `RecordDecl`.

* `ptr`: the address of the declaration, key of `classInfoMap`;
* `hasDefinition`: `getDefinition() != nullptr`;
* `isCXXRecord`: whether `dyn_cast<CXXRecordDecl>(decl)` succeeds;
* `freeOperator`, `freeOperatorRight`: the entries of `receiver.freeOperator`
  and `receiver.freeOperatorRight` under the name of the record. -/
structure RecordDecl where
  ptr : Nat
  isImplicit : Bool
  isCompleteDefinition : Bool
  hasDefinition : Bool
  isClass : Bool
  isUnion : Bool
  name : String
  isCXXRecord : Bool
  decls : List Decl
  bases : List CXXBaseSpecifier
  vbases : List CXXBaseSpecifier
  freeOperator : List FunctionInfo
  freeOperatorRight : List FunctionInfo
  deriving DecidableEq, Repr

/-- The two loops of `traverseCXXRecordDeclImpl` that print the free operators
inside the class scope, for one of the two ranges. -/
def printFreeOperators (p : DPrinter) (arg_become_this : Int) :
    List FunctionInfo → Option DPrinter
  | [] => some p
  | f :: rest =>
    match traverseFunctionDeclImpl (out p (indentStr p)) f arg_become_this with
    | none => none
    | some q => printFreeOperators (out q endl) arg_become_this rest

/-- Model of `DPrinter::traverseCXXRecordDeclImpl`; the two lambdas are
parameters, `getPointeeType` is the clang accessor used by the synthesis. -/
def traverseCXXRecordDeclImpl (p : DPrinter) (decl : RecordDecl)
    (traverseTmpSpecs : DPrinter → Option DPrinter) (printBases : DPrinter → DPrinter)
    (getPointeeType : Nat → QualType) : Option DPrinter :=
  if decl.isImplicit then some p
  else if decl.isCompleteDefinition = false ∧ decl.hasDefinition then some p
  else
    let struct_class :=
      if decl.isClass then "class" else if decl.isUnion then "union" else "struct"
    let p := out p (struct_class ++ " " ++ mangleName decl.name)
    match traverseTmpSpecs p with
    | none => none
    | some p =>
      if decl.isCompleteDefinition = false then some p
      else
        let p := printBases p
        let p := out p (endl ++ indentStr p ++ "\x7b")
        let p := { p with indent := p.indent + 1 }
        let p := traverseMembers p decl.isClass decl.decls
        match printFreeOperators p 0 decl.freeOperator with
        | none => none
        | some p =>
          match printFreeOperators p 1 decl.freeOperatorRight with
          | none => none
          | some p =>
            match printDerivedMembers p getPointeeType
                (if decl.isCXXRecord then some decl.ptr else none) with
            | none => none
            | some p =>
              let p := { p with indent := p.indent - 1 }
              some (out p (indentStr p ++ "\x7d"))

/-- The values of `clang::TemplateSpecializationKind`. -/
inductive TemplateSpecializationKind
  | TSK_Undeclared
  | TSK_ImplicitInstantiation
  | TSK_ExplicitSpecialization
  | TSK_ExplicitInstantiationDeclaration
  | TSK_ExplicitInstantiationDefinition
  deriving DecidableEq, Repr

/-- What `traverseClassTemplateSpecializationDeclImpl` reads from a class
template (partial) specialisation.

* `printer`: the text the printer registered for the declaration in the
  override table writes, `none` when no printer is registered (`passDecl`);
* `templateParameters`: `getTemplateParameters(Decl)`, `none` for a full
  specialisation, the parameters of a partial specialisation otherwise;
* `specializedTemplateParameters`: the parameters of the specialised template;
* `templateArgs`: `Decl->getTemplateArgs()`. -/
structure ClassTemplateSpecializationDecl where
  record : RecordDecl
  printer : Option String
  specializationKind : TemplateSpecializationKind
  templateParameters : Option (List TemplateParam)
  specializedTemplateParameters : List TemplateParam
  templateArgs : List TemplateArgument
  deriving DecidableEq, Repr

/-- Model of `DPrinter::traverseClassTemplateSpecializationDeclImpl`. -/
def traverseClassTemplateSpecializationDeclImpl (p : DPrinter)
    (Decl : ClassTemplateSpecializationDecl) (getPointeeType : Nat → QualType) :
    Option DPrinter :=
  match Decl.printer with
  | some text => some (out p text)
  | none =>
    if Decl.specializationKind = TemplateSpecializationKind.TSK_ExplicitInstantiationDeclaration
        ∨ Decl.specializationKind = TemplateSpecializationKind.TSK_ExplicitInstantiationDefinition
        ∨ Decl.specializationKind = TemplateSpecializationKind.TSK_ImplicitInstantiation then
      some p
    else
      let p := { p with templateArgsStack := [] :: p.templateArgsStack }
      let p :=
        match Decl.templateParameters with
        | some tmpParams =>
          { p with templateArgsStack := tmpParams :: p.templateArgsStack.tail }
        | none => p
      match traverseCXXRecordDeclImpl p Decl.record
          (fun q => printTemplateSpec_TmpArgsAndParms q Decl.specializedTemplateParameters
            Decl.templateArgs Decl.templateParameters "")
          (fun q => printBasesClass q Decl.record.bases Decl.record.vbases)
          getPointeeType with
      | none => none
      | some p => some { p with templateArgsStack := p.templateArgsStack.tail }

/-! ## Look-alike containers (`isStdArray`) -/

/-- Model of `DPrinter::isStdArray`; `name` is `rawType.getAsString()`, the
printed canonical type (for a type without qualifiers this is also the text
`getSemantic` reads). -/
def isStdArray (name : String) : Bool :=
  let boost_array := "class boost::array<"
  let std_array := "class std::array<"
  substr name 0 boost_array.length == boost_array ||
    substr name 0 std_array.length == std_array

/-! ## Base classes (`printBasesClass`) as text -/

/-- The annotation the lambda `printBaseSpec` writes in front of a base whose
access is not public. -/
def baseAnnotation (as : AccessSpecifier) : String :=
  if as ≠ AccessSpecifier.AS_public then "/*" ++ AccessSpecifierStr as ++ "*/ " else ""

/-- The text `printBaseSpec` sends to `out()` for one base, separator apart. -/
def baseSpecText (portConst : Bool) (base : CXXBaseSpecifier) : String :=
  baseAnnotation base.accessSpecifier ++ typeText portConst base.type

/-! ## Counting in the output text -/

/-- Number of positions of a text at which `pat` occurs. -/
def occurrences (pat : List Char) : List Char → Nat
  | [] => 0
  | c :: cs => (if pat.isPrefixOf (c :: cs) then 1 else 0) + occurrences pat cs

/-! ## Literals (`TraverseIntegerLiteral`, `TraverseStringLiteral`) and the override table -/

/-- Modelled from the spec: `MatchContainer.h` is not part of the sources.  The
override table `receiver` holds, for each of the three node categories, the
multimap from a node to the tags of the matchers that bound it (`typeTags`,
`stmtTags`, `declTags`, an association list in the order of the multimap) and
the map from a tag to its printer (`typePrinters`, `stmtPrinters`,
`declPrinters`).  A printer is given by its effect on the printer state when
`passDecl`, `passStmt` or `passType` calls it on the node. -/
structure MatchContainer where
  typeTags : List (Nat × String) := []
  stmtTags : List (Nat × String) := []
  declTags : List (Nat × String) := []
  typePrinters : List (String × (DPrinter → DPrinter)) := []
  stmtPrinters : List (String × (DPrinter → DPrinter)) := []
  declPrinters : List (String × (DPrinter → DPrinter)) := []

/-- Model of the three overloads of `MatchContainer::getPrinter`, which differ in
the pair of tables they read: the first tag of the node (`equal_range(node).first`)
is looked up among the printers; `none` is the empty `std::function`. -/
def getPrinter (tags : List (Nat × String)) (printers : List (String × (DPrinter → DPrinter)))
    (node : Nat) : Option (DPrinter → DPrinter) :=
  match tags.find? (fun e => e.1 == node) with
  | some e =>
    match printers.find? (fun f => f.1 == e.2) with
    | some iter2 => some iter2.2
    | none => none
  | none => none

/-- Model of `DPrinter::passDecl`: the returned flag and the printer. -/
def passDecl (receiver : MatchContainer) (p : DPrinter) (decl : Nat) : Bool × DPrinter :=
  match getPrinter receiver.declTags receiver.declPrinters decl with
  | some printer => (true, printer p)
  | none => (false, p)

/-- Model of `DPrinter::passStmt`. -/
def passStmt (receiver : MatchContainer) (p : DPrinter) (stmt : Nat) : Bool × DPrinter :=
  match getPrinter receiver.stmtTags receiver.stmtPrinters stmt with
  | some printer => (true, printer p)
  | none => (false, p)

/-- Model of `DPrinter::passType`. -/
def passType (receiver : MatchContainer) (p : DPrinter) (type : Nat) : Bool × DPrinter :=
  match getPrinter receiver.typeTags receiver.typePrinters type with
  | some printer => (true, printer p)
  | none => (false, p)

/-- What the printer reads from an `llvm::APInt`: its width in bits and its
value as an unsigned number below `2 ^ BitWidth`. -/
structure APInt where
  BitWidth : Nat
  VAL : Nat
  deriving DecidableEq, Repr

/-- Model of `llvm::APInt::toString(10, Signed)`.  LLVM is outside the sources;
this is its documented behaviour: with `Signed` the bits are read in two's
complement, so a value with the top bit set is written as `-` and its
magnitude; without `Signed` the unsigned value is written. -/
def APInt.toString (a : APInt) (Signed : Bool) : String :=
  let v := a.VAL % 2 ^ a.BitWidth
  if Signed && decide (0 < a.BitWidth) && decide (2 ^ (a.BitWidth - 1) ≤ v) then
    "-" ++ Nat.repr (2 ^ a.BitWidth - v)
  else Nat.repr v

/-- What the printer reads from an `IntegerLiteral`: the node, its value, and
(not read by the printer) whether the type of the literal is unsigned. -/
structure IntegerLiteral where
  ptr : Nat
  value : APInt
  isUnsignedIntegerType : Bool
  deriving DecidableEq, Repr

/-- Model of `DPrinter::TraverseIntegerLiteral`. -/
def TraverseIntegerLiteral (receiver : MatchContainer) (p : DPrinter) (Stmt : IntegerLiteral) :
    DPrinter :=
  let passed := passStmt receiver p Stmt.ptr
  if passed.1 then passed.2
  else out passed.2 (Stmt.value.toString true)

/-- What the printer reads from a `ConstantArrayType`: the node, the element
type and the size. -/
structure ConstantArrayType where
  ptr : Nat
  elementType : QualType
  size : APInt
  deriving DecidableEq, Repr

/-- Model of `DPrinter::TraverseConstantArrayType`. -/
def TraverseConstantArrayType (receiver : MatchContainer) (p : DPrinter)
    (type : ConstantArrayType) : DPrinter :=
  let passed := passType receiver p type.ptr
  if passed.1 then passed.2
  else
    let p := printType passed.2 type.elementType
    out p ("[" ++ type.size.toString false ++ "]")

/-- Model of `s.substr(pos)`, the rest of the string from `pos`. -/
def substrFrom (s : String) (pos : Nat) : String :=
  String.mk (s.data.drop pos)

/-- Model of `s.find(c, pos)` for a character: the first index from `pos` on
that holds `c`, `none` standing for `npos`. -/
def findCharFrom (s : String) (c : Char) (pos : Nat) : Option Nat :=
  findFrom [c] (s.data.drop pos) pos

/-- First loop of `TraverseStringLiteral`: every backslash is doubled.  Each
iteration moves `pos` forward; `fuel` bounds the number of iterations and the
result is `none` when it runs out. -/
def escapeBackslashes : Nat → String → Nat → Option String
  | 0, _, _ => none
  | fuel + 1, literal, pos =>
    match findCharFrom literal '\\' pos with
    | none => some literal
    | some pos =>
      escapeBackslashes fuel (substr literal 0 pos ++ "\\\\" ++ substrFrom literal (pos + 1))
        (pos + 2)

/-- Second loop of `TraverseStringLiteral`: every line break becomes `\n`,
searched from the start each time. -/
def escapeNewlines : Nat → String → Option String
  | 0, _ => none
  | fuel + 1, literal =>
    match findCharFrom literal '\n' 0 with
    | none => some literal
    | some pos =>
      escapeNewlines fuel (substr literal 0 pos ++ "\\n" ++ substrFrom literal (pos + 1))

/-- Third loop of `TraverseStringLiteral`: a double quote is escaped unless the
character before it is a backslash. -/
def escapeQuotes : Nat → String → Nat → Option String
  | 0, _, _ => none
  | fuel + 1, literal, pos =>
    match findCharFrom literal '"' pos with
    | none => some literal
    | some pos =>
      if 0 < pos ∧ literal.data.get? (pos - 1) = some '\\' then
        escapeQuotes fuel literal (pos + 1)
      else
        escapeQuotes fuel (substr literal 0 pos ++ "\\\"" ++ substrFrom literal (pos + 1))
          (pos + 2)

/-- What the printer reads from a `StringLiteral`: the node and the value of the
local `literal` before the escape loops (for a narrow literal the bytes of
`getString()`, otherwise their conversion to UTF-8). -/
structure StringLiteral where
  ptr : Nat
  literal : String
  deriving DecidableEq, Repr

/-- The three escape loops of `TraverseStringLiteral` in sequence; each loop is
given more iterations than it can make on its input. -/
def escapeLiteral (literal : String) : Option String :=
  match escapeBackslashes (literal.length + 1) literal 0 with
  | none => none
  | some literal =>
    match escapeNewlines (literal.length + 1) literal with
    | none => none
    | some literal => escapeQuotes (literal.length + 1) literal 0

/-- Model of `DPrinter::TraverseStringLiteral`; `none` when a loop runs out of
iterations. -/
def TraverseStringLiteral (receiver : MatchContainer) (p : DPrinter) (Stmt : StringLiteral) :
    Option DPrinter :=
  let passed := passStmt receiver p Stmt.ptr
  if passed.1 then some passed.2
  else
    let p := out passed.2 "\""
    match escapeLiteral Stmt.literal with
    | none => none
    | some literal =>
      let p := out p literal
      some (out p "\\0\"")

/-! ## Line endings of comments (`DPrinter::replace`) -/

/-- The loop of `DPrinter::replace`.  `iter` is the offset of the iterator
`iter` from `std::begin(str)`: it is computed once, before the loop, and no
statement of the loop assigns it.  (An iterator does not formally survive the
assignment to `str`; the model keeps its offset, which is what a short string,
held inside the string object, gives.  The branch without assignment involves
no such question.)  The local `pos` is assigned from `iter` at the
top of every iteration, so its increment has no effect.  `fuel` bounds the
number of iterations; the result is `none` when it runs out. -/
def replaceLoop (inp outp : String) (iter : Nat) : Nat → String → Option String
  | 0, _ => none
  | fuel + 1, str =>
    if iter ≠ str.length then
      let pos := iter
      if pos + 1 < str.length ∧ str.data.get? (pos + 1) = some '\n' then
        replaceLoop inp outp iter fuel
          (substr str 0 pos ++ outp ++ substrFrom str (pos + inp.length))
      else replaceLoop inp outp iter fuel str
    else some str

/-- Model of `DPrinter::replace(str, in, out)` run for at most `fuel`
iterations of its loop: `std::find` gives the offset of the first carriage
return, the length of the string when there is none. -/
def replace (fuel : Nat) (str inp outp : String) : Option String :=
  let iter := str.data.indexOf '\r'
  replaceLoop inp outp iter fuel str

/-- Whether a text, read as the content of a D string literal, holds a double
quote that is not escaped: a backslash escapes the character after it. -/
def hasUnescapedQuote : List Char → Bool
  | [] => false
  | '\\' :: _ :: cs => hasUnescapedQuote cs
  | '"' :: _ => true
  | _ :: cs => hasUnescapedQuote cs

/-! ## Variables (`TraverseVarDecl`) and the translation unit -/

/-- Model of `DPrinter::printStmtMacro`; `macro_name` is the text of the string
literal that names the macro and `macro_args` the text `printMacroArgs` writes. -/
def printStmtMacro (p : DPrinter) (varName macro_name macro_args : String) : DPrinter :=
  if findAtZero varName "CPP2D_MACRO_STMT_END" then { p with isInMacro := p.isInMacro - 1 }
  else if findAtZero varName "CPP2D_MACRO_STMT" then
    let p := out p ("mixin(" ++ macro_name ++ "!(")
    let p := out p macro_args
    let p := out p "))"
    { p with isInMacro := p.isInMacro + 1 }
  else p

/-- What `traverseVarDeclImpl` reads from the initialiser of a variable: for a
`CXXConstructExpr` the number of its arguments and the text
`printCXXConstructExprParams` writes, and in every case the text
`TraverseStmt(init)` writes. -/
inductive VarInit
  | CXXConstructExpr (numArgs : Nat) (paramsText : String) (text : String)
  | Other (text : String)
  deriving DecidableEq, Repr

/-- The text `TraverseStmt(init)` writes. -/
def VarInit.text : VarInit → String
  | VarInit.CXXConstructExpr _ _ text => text
  | VarInit.Other text => text

/-- The accessors `traverseVarDeclImpl` reads from the declaration it prints,
which is the `VarDecl` it is given or the out-of-line definition of it:
`qualifier` is the text `TraverseNestedNameSpecifier` writes for
`getQualifier()`, `none` when there is no qualifier; `init` is `none` when
`hasInit()` is false. -/
structure VarDeclaration where
  type : QualType
  name : String
  isStaticDataMember : Bool
  isStaticLocal : Bool
  isOutOfLine : Bool
  qualifier : Option String
  init : Option VarInit
  isDirectInit : Bool
  deriving DecidableEq, Repr

/-- What the printer reads from a `VarDecl`: the node, its own accessors, what
`printStmtMacro` reads from its initialiser when its name is that of a macro
statement, and `getOutOfLineDefinition()`. -/
structure VarDecl where
  ptr : Nat
  declaration : VarDeclaration
  macro_name : String
  macro_args : String
  outOfLineDefinition : Option VarDeclaration
  deriving DecidableEq, Repr

/-- Model of `DPrinter::traverseVarDeclImpl`; `doPrintType` and `inForRangeInit`
are the members of the printer of these names. -/
def traverseVarDeclImpl (receiver : MatchContainer) (p : DPrinter) (Decl : VarDecl)
    (doPrintType inForRangeInit : Bool) : DPrinter :=
  let varName := Decl.declaration.name
  if findAtZero varName "CPP2D_MACRO_STMT" then
    printStmtMacro p varName Decl.macro_name Decl.macro_args
  else
    let passed := passDecl receiver p Decl.ptr
    if passed.1 then passed.2
    else
      let p := passed.2
      if Decl.declaration.isOutOfLine then p
      else
        let Decl : VarDeclaration :=
          match Decl.outOfLineDefinition with
          | some definition => definition
          | none => Decl.declaration
        let varType := Decl.type
        let p :=
          if doPrintType then
            let p :=
              if Decl.isStaticDataMember || Decl.isStaticLocal then out p "static " else p
            let p :=
              if !Decl.isOutOfLine then
                match Decl.qualifier with
                | some qualifier => out p qualifier
                | none => p
              else p
            let p := printType p varType
            out p " "
          else p
        let p := out p (mangleName Decl.name)
        let in_foreach_decl := inForRangeInit
        match Decl.init with
        | some init =>
          if !in_foreach_decl then
            if Decl.isDirectInit then
              match init with
              | VarInit.CXXConstructExpr numArgs paramsText _ =>
                if getSemantic varType ≠ Semantic.Reference then
                  if numArgs ≠ 0 then out (out p " = ") paramsText else p
                else out (out p " = new ") paramsText
              | VarInit.Other text => out (out p " = ") text
            else out (out p " = ") init.text
          else p
        | none => p

/-- Model of `DPrinter::TraverseVarDecl`. -/
def TraverseVarDecl (receiver : MatchContainer) (p : DPrinter) (Decl : VarDecl)
    (doPrintType inForRangeInit : Bool) : DPrinter :=
  let passed := passDecl receiver p Decl.ptr
  if passed.1 then passed.2
  else traverseVarDeclImpl receiver passed.2 Decl doPrintType inForRangeInit

/-- The loop of `TraverseTranslationUnitDecl` over the declarations of the
unit, each with the answer of `checkFilename`. -/
def translationUnitLoop (p : DPrinter) : List (Bool × Decl) → DPrinter
  | [] => p
  | (inFile, c) :: rest =>
    if inFile then
      let p := pushStream p
      let p := TraverseDecl p c
      let popped := popStream p
      let decl := popped.1
      let p := popped.2
      let p :=
        if decl ≠ "" then
          let p := printCommentBefore p c
          let p := out p (indentStr p ++ decl)
          let p := if needSemiComma c then out p ";" else p
          let p := printCommentAfter p c
          out p (endl ++ endl)
        else p
      translationUnitLoop { p with output_enabled := decide (p.isInMacro = 0) } rest
    else translationUnitLoop p rest

/-- Model of `DPrinter::TraverseTranslationUnitDecl`: the stack of streams is
cleared and given one stream, then the declarations are rendered. -/
def TraverseTranslationUnitDecl (receiver : MatchContainer) (p : DPrinter) (unit : Nat)
    (decls : List (Bool × Decl)) : DPrinter :=
  let passed := passDecl receiver p unit
  if passed.1 then passed.2
  else translationUnitLoop { passed.2 with outStack := [""] } decls

/-! ## Constructor initialisers (`startCtorBody`) -/

/-- The loop of `startCtorBody(CXXConstructorDecl*)`; an initialiser is given by
the text `TraverseConstructorInitializer` writes for it.  The result is `none`
when `initStr.substr(initStr.size() - 2)` throws, which it does for a text of
one character. -/
def startCtorBodyLoop (p : DPrinter) : List String → Option DPrinter
  | [] => some p
  | init :: rest =>
    let p := pushStream p
    let p := out p init
    let popped := popStream p
    let initStr := popped.1
    let p := popped.2
    if initStr ≠ "" then
      let p := out p (endl ++ indentStr p)
      if initStr.length < 2 then none
      else
        let p :=
          if substrFrom initStr (initStr.length - 2) ≠ "= " then out (out p initStr) ";"
          else p
        startCtorBodyLoop p rest
    else startCtorBodyLoop p rest

/-- Model of `DPrinter::startCtorBody(CXXConstructorDecl*)`. -/
def startCtorBody (p : DPrinter) (inits : List String) : Option DPrinter :=
  if inits.length ≠ 0 then startCtorBodyLoop p inits else some p

/-! ## The stack of output streams -/

/-- The depth of the stack of output streams and the streams under the top
one: what a routine that writes to the top stream, and pops the streams it
pushes, leaves as it found them. -/
def stackBelow (p : DPrinter) : Nat × List String :=
  (p.outStack.length, p.outStack.tail)

/-- Whether a templated kind gives `printTemplateSpec_TmpArgsAndParms` as many
primary parameters as arguments, as its `assert` requires. -/
def TemplatedKind.sizesAgree : TemplatedKind → Bool
  | TemplatedKind.TK_FunctionTemplateSpecialization (some primary) =>
    primary.2.length == primary.1.length
  | TemplatedKind.TK_DependentFunctionTemplateSpecialization (some primary) =>
    primary.2.length == primary.1.length
  | _ => true

/-! ## Sample inputs -/

/-- The builtin type `bool`. -/
def boolType : QualType :=
  { ptr := 12, name := "_Bool", typeClass := TypeClass.Builtin, isClassType := false,
    isFunctionType := false, isConstQualified := false, isBuiltinCanonical := true,
    text := "bool" }

/-- The parameter type `A const&` of a class `A` (record `1`). -/
def refToA : QualType :=
  { ptr := 201, name := "const class A &", typeClass := TypeClass.Other, isClassType := false,
    isFunctionType := false, isConstQualified := false, isBuiltinCanonical := false,
    text := "A" }

/-- The parameter type `B const&` of a class `B` (record `2`). -/
def refToB : QualType :=
  { ptr := 202, name := "const class B &", typeClass := TypeClass.Other, isClassType := false,
    isFunctionType := false, isConstQualified := false, isBuiltinCanonical := false,
    text := "B" }

/-- The free operator `bool operator OP (A const&, B const&)` of kind `op`. -/
def freeOperatorAB (op : OverloadedOperatorKind) : FunctionDecl :=
  { isImplicit := false, overloadedOperator := op,
    name := "operator" ++ getOperatorSpelling op, returnType := boolType, method := none,
    params := [⟨refToA, some 1⟩, ⟨refToB, some 2⟩] }

/-- A `ClassInfo` with a logical-not overload and no boolean conversion. -/
def exclaimClassInfo : ClassInfo :=
  { relations := [], hasOpExclaim := true, hasBoolConv := false }

/-- A `ClassInfo` with a logical-not overload and a boolean conversion. -/
def exclaimBoolClassInfo : ClassInfo :=
  { relations := [], hasOpExclaim := true, hasBoolConv := true }


/-- A printer at the start of a unit: one empty stream, output enabled. -/
def freshPrinter : DPrinter :=
  { outStack := [""], output_enabled := true, isInMacro := 0, indent := 0,
    portConst := false, classInfoMap := [] }

/-- The builtin type `int`. -/
def intType : QualType :=
  { ptr := 10, name := "int", typeClass := TypeClass.Builtin, isClassType := false,
    isFunctionType := false, isConstQualified := false, isBuiltinCanonical := true,
    text := "int" }

/-- A user class `Foo`. -/
def fooType : QualType :=
  { ptr := 11, name := "class Foo", typeClass := TypeClass.Record, isClassType := true,
    isFunctionType := false, isConstQualified := false, isBuiltinCanonical := false,
    text := "Foo" }

/-- The identifier `T`. -/
def identT : IdentifierInfo := { ptr := 301, name := "T" }

/-- The identifier `N`. -/
def identN : IdentifierInfo := { ptr := 302, name := "N" }

/-- The type `T*` of a partial specialisation `A<T*>`, as it is rendered with
the rename of `T` in force. -/
def pointerToT : QualType :=
  { ptr := 13, name := "type-parameter-0-0 *", typeClass := TypeClass.Pointer,
    isClassType := false, isFunctionType := false, isConstQualified := false,
    isBuiltinCanonical := false, text := "T_[]" }

/-- The partial specialisation `template<class T> class A<T*>` of a primary
template `template<class T> class A`, with one field. -/
def partialSpecOfA : ClassTemplateSpecializationDecl :=
  { record :=
      { ptr := 1, isImplicit := false, isCompleteDefinition := true, hasDefinition := true,
        isClass := true, isUnion := false, name := "A", isCXXRecord := true,
        decls := [fieldDecl AccessSpecifier.AS_public "int x"],
        bases := [], vbases := [], freeOperator := [], freeOperatorRight := [] },
    printer := none,
    specializationKind := TemplateSpecializationKind.TSK_ExplicitSpecialization,
    templateParameters := some [TemplateParam.TemplateTypeParm (some identT) none],
    specializedTemplateParameters := [TemplateParam.TemplateTypeParm (some identT) none],
    templateArgs := [TemplateArgument.Type pointerToT] }

/-- The printer `traverseClassTemplateSpecializationDeclImpl` leaves behind when
it renders `partialSpecOfA` from `freshPrinter`. -/
def partialSpecOfAPrinted : DPrinter :=
  { outStack := ["class A(T : T_[], T_)\n\x7b\npublic:\n    int x;\n\x7d"],
    output_enabled := true, isInMacro := 0, indent := 0, portConst := false,
    classInfoMap := [(1, default)], renamedIdentifiers := [(301, "T_")] }

/-- The type `std::array<int, 3>` where `std::array` is declared with the
class key `class`: a class type, rendered as a static array. -/
def stdArrayOfInt : QualType :=
  { ptr := 14, name := "class std::array<int, 3>", typeClass := TypeClass.Record,
    isClassType := true, isFunctionType := false, isConstQualified := false,
    isBuiltinCanonical := false, text := "int[3]" }

/-- The type `boost::array<int, 3>`. -/
def boostArrayOfInt : QualType :=
  { ptr := 15, name := "class boost::array<int, 3>", typeClass := TypeClass.Record,
    isClassType := true, isFunctionType := false, isConstQualified := false,
    isBuiltinCanonical := false, text := "int[3]" }

/-- The base specifiers of `class D : public Foo, protected Foo, private Foo`
(one type stands for the three bases). -/
def threeBases : List CXXBaseSpecifier :=
  [ { accessSpecifier := AccessSpecifier.AS_public, type := fooType },
    { accessSpecifier := AccessSpecifier.AS_protected, type := fooType },
    { accessSpecifier := AccessSpecifier.AS_private, type := fooType } ]

/-- An override table without any entry. -/
def emptyReceiver : MatchContainer := {}

/-- The literal `0xFFFFFFFFu`, of type `unsigned int` (32 bits). -/
def allOnes32 : IntegerLiteral :=
  { ptr := 401, value := { BitWidth := 32, VAL := 4294967295 }, isUnsignedIntegerType := true }

/-- The literal `2147483648u`, of type `unsigned int` (32 bits). -/
def twoTo31 : IntegerLiteral :=
  { ptr := 402, value := { BitWidth := 32, VAL := 2147483648 }, isUnsignedIntegerType := true }

/-- The literal `42`, of type `int`. -/
def fortyTwo : IntegerLiteral :=
  { ptr := 403, value := { BitWidth := 32, VAL := 42 }, isUnsignedIntegerType := false }

/-- The array type `int[4294967295]`; the size of an array is a 64-bit value. -/
def hugeArray : ConstantArrayType :=
  { ptr := 404, elementType := intType, size := { BitWidth := 64, VAL := 4294967295 } }

/-- The narrow literal written `"a\\\"b"` in C++: its content is `a`, a
backslash, a double quote, `b`. -/
def backslashQuote : StringLiteral := { ptr := 405, literal := "a\\\"b" }

/-- The narrow literal written `"say \"hi\""` in C++. -/
def quoted : StringLiteral := { ptr := 406, literal := "say \"hi\"" }

/-- An override table with the two declaration printers `getMatcher` registers,
which write nothing, a declaration bound by `free_operator`, and for the sake
of the example a printer for the statement `allOnes32` that writes `uint.max`. -/
def sampleReceiver : MatchContainer :=
  { declTags := [(501, "free_operator")],
    declPrinters := [("dont_print_this_decl", fun p => p), ("free_operator", fun p => p)],
    stmtTags := [(401, "all_ones")],
    stmtPrinters := [("all_ones", fun p => out p "uint.max")] }

/-- The variable `int x = 1;`, bound by `free_operator` in `sampleReceiver`. -/
def overriddenVar : VarDecl :=
  { ptr := 501,
    declaration :=
      { type := intType, name := "x", isStaticDataMember := false, isStaticLocal := false,
        isOutOfLine := false, qualifier := none, init := some (VarInit.Other "1"),
        isDirectInit := false },
    macro_name := "", macro_args := "", outOfLineDefinition := none }

/-- The free operator `bool operator<(A const& a, B const& b)` with a body and
a comment before the closing parenthesis, as `traverseFunctionDeclImpl` reads
it when it is printed inside `A` (`arg_become_this = 0`). -/
def freeLess : FunctionInfo :=
  { Decl := freeOperatorAB OverloadedOperatorKind.OO_Less,
    isDeleted := false, hasBody := true, isCanonicalDecl := true,
    isThisDeclarationADefinition := true, templatedKind := TemplatedKind.TK_NonTemplate,
    numParams := 2, parametersText := "B b", closingComment := some (some " /* rhs */\n"),
    isConstMethod := true, bodyText := "\x7b\n    return true;\n\x7d",
    isThisFunctionUsefull := true }

/-- The implicit operator `!=`, which `printFuncBegin` declines. -/
def declinedOperator : FunctionInfo :=
  { freeLess with Decl := freeOperatorAB OverloadedOperatorKind.OO_ExclaimEqual }

/-- The class type `A`, pointee of the parameter type `A const&`. -/
def classA : QualType :=
  { ptr := 211, name := "class A", typeClass := TypeClass.Record, isClassType := true,
    isFunctionType := false, isConstQualified := true, isBuiltinCanonical := false,
    text := "A" }

/-- The class type `B`, pointee of the parameter type `B const&`. -/
def classB : QualType :=
  { ptr := 212, name := "class B", typeClass := TypeClass.Record, isClassType := true,
    isFunctionType := false, isConstQualified := true, isBuiltinCanonical := false,
    text := "B" }

/-- The accessor `type->getPointeeType()` on the sample types: the references
`A const&` (`201`) and `B const&` (`202`) have a pointee type; a type that is
neither a pointer nor a reference, as `int` (`10`), has the null `QualType`. -/
def pointeeOf (type : Nat) : QualType :=
  if type = 201 then classA else if type = 202 then classB else nullQualType

/-- The free operator `bool operator OP (A const&, int)` of kind `op`. -/
def freeOperatorAInt (op : OverloadedOperatorKind) : FunctionDecl :=
  { isImplicit := false, overloadedOperator := op,
    name := "operator" ++ getOperatorSpelling op, returnType := boolType, method := none,
    params := [⟨refToA, some 1⟩, ⟨intType, none⟩] }

/-- The free operator `bool operator OP (A const&, A const&)` of kind `op`. -/
def freeOperatorAA (op : OverloadedOperatorKind) : FunctionDecl :=
  { isImplicit := false, overloadedOperator := op,
    name := "operator" ++ getOperatorSpelling op, returnType := boolType, method := none,
    params := [⟨refToA, some 1⟩, ⟨refToA, some 1⟩] }

/-! # Theorems -/

/-! ## Facts about `find` -/

theorem findFrom_ge (pat : List Char) (s : List Char) (i j : Nat)
    (h : findFrom pat s i = some j) : i ≤ j := by
  induction s generalizing i with
  | nil =>
    simp only [findFrom] at h
    split at h
    · cases h; exact Nat.le_refl _
    · cases h
  | cons c cs ih =>
    simp only [findFrom] at h
    split at h
    · cases h; exact Nat.le_refl _
    · exact Nat.le_of_succ_le (ih _ h)

theorem findAtZero_eq_isPrefixOf (s pat : String) :
    findAtZero s pat = pat.data.isPrefixOf s.data := by
  unfold findAtZero strFind
  cases hs : s.data with
  | nil =>
    simp only [findFrom]
    cases hp : pat.data.isPrefixOf [] <;> simp
  | cons c cs =>
    simp only [findFrom]
    cases hp : pat.data.isPrefixOf (c :: cs)
    · have : findFrom pat.data cs 1 ≠ some 0 := fun h => by
        have := findFrom_ge _ _ _ _ h
        omega
      simp [this]
    · simp

theorem isPrefixOf_chain (p q s : List Char)
    (hp : p.isPrefixOf s = true) (hq : q.isPrefixOf s = true) :
    (p.isPrefixOf q || q.isPrefixOf p) = true := by
  rw [List.isPrefixOf_iff_prefix] at hp hq
  rcases Nat.le_total p.length q.length with h | h
  · have := List.prefix_of_prefix_length_le hp hq h
    simp [List.isPrefixOf_iff_prefix, this]
  · have := List.prefix_of_prefix_length_le hq hp h
    simp [List.isPrefixOf_iff_prefix, this]

theorem getSemantic_of_isPrefixOf_false (qt : QualType)
    (h : ∀ e ∈ semanticTable, beginsWithEntry qt.name e.1 = false) :
    getSemantic qt = structuralSemantic qt := by
  have h1 := h ("SafeInt", Semantic.Value) (by simp [semanticTable])
  have h2 := h ("boost::array", Semantic.Value) (by simp [semanticTable])
  have h3 := h ("std::basic_string", Semantic.Value) (by simp [semanticTable])
  have h4 := h ("boost::optional", Semantic.Value) (by simp [semanticTable])
  have h5 := h ("boost::property_tree::basic_ptree", Semantic.Value) (by simp [semanticTable])
  have h6 := h ("std::vector", Semantic.Value) (by simp [semanticTable])
  have h7 := h ("std::shared_ptr", Semantic.Value) (by simp [semanticTable])
  have h8 := h ("std::scoped_ptr", Semantic.Value) (by simp [semanticTable])
  have h9 := h ("std::unordered_map", Semantic.AssocArray) (by simp [semanticTable])
  have g1 : "class SafeInt<".data.isPrefixOf qt.name.data = false := h1
  have g2 : "class boost::array<".data.isPrefixOf qt.name.data = false := h2
  have g3 : "class std::basic_string<".data.isPrefixOf qt.name.data = false := h3
  have g4 : "class boost::optional<".data.isPrefixOf qt.name.data = false := h4
  have g5 : "class boost::property_tree::basic_ptree<".data.isPrefixOf qt.name.data = false := h5
  have g6 : "class std::vector<".data.isPrefixOf qt.name.data = false := h6
  have g7 : "class std::shared_ptr<".data.isPrefixOf qt.name.data = false := h7
  have g8 : "class std::scoped_ptr<".data.isPrefixOf qt.name.data = false := h8
  have g9 : "class std::unordered_map<".data.isPrefixOf qt.name.data = false := h9
  simp only [getSemantic, findAtZero_eq_isPrefixOf, g1, g2, g3, g4, g5, g6, g7, g8, g9,
    Bool.false_eq_true, if_false]

theorem isPrefixOf_exclusive (p q : String) (s : List Char)
    (hp : p.data.isPrefixOf s = true)
    (hne : (p.data.isPrefixOf q.data || q.data.isPrefixOf p.data) = false) :
    q.data.isPrefixOf s = false := by
  cases hq : q.data.isPrefixOf s
  · rfl
  · rw [isPrefixOf_chain _ _ _ hp hq] at hne
    cases hne

theorem getSemantic_of_isPrefixOf_true (qt : QualType) (e : String × Semantic)
    (he : e ∈ semanticTable) (h : beginsWithEntry qt.name e.1 = true) :
    getSemantic qt = e.2 := by
  simp only [semanticTable, List.mem_cons, List.mem_singleton, List.mem_nil_iff, or_false] at he
  simp only [beginsWithEntry, printedEntry] at h
  simp only [getSemantic, findAtZero_eq_isPrefixOf]
  rcases he with rfl | rfl | rfl | rfl | rfl | rfl | rfl | rfl | rfl
  · have g : "class SafeInt<".data.isPrefixOf qt.name.data = true := h
    simp only [g, if_true]
  · have g : "class boost::array<".data.isPrefixOf qt.name.data = true := h
    simp only [g, if_true]
    split_ifs <;> rfl
  · have g : "class std::basic_string<".data.isPrefixOf qt.name.data = true := h
    simp only [g, if_true]
    split_ifs <;> rfl
  · have g : "class boost::optional<".data.isPrefixOf qt.name.data = true := h
    simp only [g, if_true]
    split_ifs <;> rfl
  · have g : "class boost::property_tree::basic_ptree<".data.isPrefixOf qt.name.data = true := h
    simp only [g, if_true]
    split_ifs <;> rfl
  · have g : "class std::vector<".data.isPrefixOf qt.name.data = true := h
    simp only [g, if_true]
    split_ifs <;> rfl
  · have g : "class std::shared_ptr<".data.isPrefixOf qt.name.data = true := h
    simp only [g, if_true]
    split_ifs <;> rfl
  · have g : "class std::scoped_ptr<".data.isPrefixOf qt.name.data = true := h
    simp only [g, if_true]
    split_ifs <;> rfl
  · have g : "class std::unordered_map<".data.isPrefixOf qt.name.data = true := h
    have g1 := isPrefixOf_exclusive _ "class SafeInt<" _ g (by decide)
    have g2 := isPrefixOf_exclusive _ "class boost::array<" _ g (by decide)
    have g3 := isPrefixOf_exclusive _ "class std::basic_string<" _ g (by decide)
    have g4 := isPrefixOf_exclusive _ "class boost::optional<" _ g (by decide)
    have g5 := isPrefixOf_exclusive _ "class boost::property_tree::basic_ptree<" _ g (by decide)
    have g6 := isPrefixOf_exclusive _ "class std::vector<" _ g (by decide)
    have g7 := isPrefixOf_exclusive _ "class std::shared_ptr<" _ g (by decide)
    have g8 := isPrefixOf_exclusive _ "class std::scoped_ptr<" _ g (by decide)
    simp only [g, g1, g2, g3, g4, g5, g6, g7, g8, Bool.false_eq_true, if_false, if_true]

/-- C1. `getSemantic` is table-first: a printed name that begins with a table
entry gets the class of that entry whatever the type is structurally (a class
type included); a name that begins with no entry gets `Value` for an `auto`
type, `Reference` for a class or function type, and `Value` otherwise. -/
theorem getSemantic_table_first (qt : QualType) :
    (∀ e ∈ semanticTable, beginsWithEntry qt.name e.1 = true → getSemantic qt = e.2) ∧
    ((∀ e ∈ semanticTable, beginsWithEntry qt.name e.1 = false) →
      (qt.typeClass = TypeClass.Auto → getSemantic qt = Semantic.Value) ∧
      (qt.typeClass ≠ TypeClass.Auto → (qt.isClassType = true ∨ qt.isFunctionType = true) →
        getSemantic qt = Semantic.Reference) ∧
      (qt.typeClass ≠ TypeClass.Auto → qt.isClassType = false → qt.isFunctionType = false →
        getSemantic qt = Semantic.Value)) := by
  refine ⟨fun e he h => getSemantic_of_isPrefixOf_true qt e he h, fun h => ?_⟩
  rw [getSemantic_of_isPrefixOf_false qt h]
  refine ⟨fun ha => ?_, fun ha hc => ?_, fun ha hc hf => ?_⟩
  · simp [structuralSemantic, ha]
  · rcases hc with hc | hc <;> simp [structuralSemantic, ha, hc]
  · simp [structuralSemantic, ha, hc, hf]

/-- Witness for C1: `class std::vector<int>` is a class type and is classified
`Value` by its table entry; `class Foo` matches no entry and is `Reference`. -/
theorem getSemantic_table_first_witness :
    getSemantic ⟨1, "class std::vector<int>", TypeClass.Record, true, false, false, false,
      "vector!(int)"⟩ = Semantic.Value ∧
    getSemantic ⟨2, "class Foo", TypeClass.Record, true, false, false, false, "Foo"⟩
      = Semantic.Reference :=
  ⟨(getSemantic_table_first _).1 ("std::vector", Semantic.Value) (by decide) (by decide),
   ((getSemantic_table_first _).2 (by decide)).2.1 (by decide) (Or.inl rfl)⟩

/-! ## Output streams -/

theorem out_out (p : DPrinter) (a b : String) : out (out p a) b = out p (a ++ b) := by
  unfold out
  cases he : p.output_enabled
  · simp [he]
  · cases hs : p.outStack with
    | nil => simp [he, hs]
    | cons top rest => simp [he, hs, String.append_assoc]

theorem out_empty (p : DPrinter) : out p "" = p := by
  unfold out
  cases he : p.output_enabled
  · simp
  · cases hs : p.outStack with
    | nil => simp
    | cons top rest =>
      cases p
      simp_all

theorem out_portConst (p : DPrinter) (s : String) : (out p s).portConst = p.portConst := by
  unfold out
  split
  · split <;> rfl
  · rfl

theorem out_indent (p : DPrinter) (s : String) : (out p s).indent = p.indent := by
  unfold out
  split
  · split <;> rfl
  · rfl

theorem printType_eq_out (p : DPrinter) (type : QualType) :
    printType p type = out p (typeText p.portConst type) := by
  unfold printType typeText TraverseType
  by_cases ha : type.typeClass = TypeClass.Auto
  · simp only [ha, if_true]
    cases hc : (type.isConstQualified && p.portConst)
    · simp
    · simp [out_out]
  · simp only [ha, if_false]
    cases hc : (type.isConstQualified && (p.portConst || type.isBuiltinCanonical))
    · simp [out_empty]
    · simp [out_out, String.append_assoc]

/-! ## Pointers -/

/-- C2. For a pointer whose pointee is not a parenthesised function prototype,
`traversePointerTypeImpl` sends to `out()` the rendered text of the pointee
immediately followed by `[]` when the pointee has `Value` semantic, and the
rendered text alone (no suffix, no pointer marker) when it has `Reference`
semantic. -/
theorem traversePointerTypeImpl_suffix (p : DPrinter) (t : PointerType)
    (h : t.isParenFunctionProto = false) :
    (getSemantic t.pointee = Semantic.Value →
      traversePointerTypeImpl p t = out p (typeText p.portConst t.pointee ++ "[]")) ∧
    (getSemantic t.pointee = Semantic.Reference →
      traversePointerTypeImpl p t = out p (typeText p.portConst t.pointee)) := by
  have key : traversePointerTypeImpl p t =
      out (printType p t.pointee)
        (if getSemantic t.pointee = Semantic.Value then "[]" else "") := by
    unfold traversePointerTypeImpl
    unfold PointerType.isParenFunctionProto at h
    by_cases hp : t.pointee.typeClass = TypeClass.Paren
    · cases hi : t.innerType with
      | none => simp [hp]
      | some inner =>
        have : ¬ inner.typeClass = TypeClass.FunctionProto := by
          simpa [hp, hi] using h
        simp [hp, this]
    · simp [hp]
  constructor
  · intro hv
    rw [key, printType_eq_out, out_out]
    simp [hv]
  · intro hr
    rw [key, printType_eq_out, out_out]
    simp [hr]

/-- Witness for C2: `int*` renders as `int[]`, `Foo*` (a class) as `Foo`. -/
theorem traversePointerTypeImpl_suffix_witness :
    (traversePointerTypeImpl freshPrinter ⟨intType, none⟩).outStack = ["int[]"] ∧
    (traversePointerTypeImpl freshPrinter ⟨fooType, none⟩).outStack = ["Foo"] :=
  ⟨by rw [(traversePointerTypeImpl_suffix freshPrinter ⟨intType, none⟩ (by decide)).1
      (by decide)]; decide,
   by rw [(traversePointerTypeImpl_suffix freshPrinter ⟨fooType, none⟩ (by decide)).2
      (by decide)]; decide⟩


/-! ## Bit-field runs -/

theorem castToInt_of_lt (w : Nat) (h : w < 2 ^ 31) : castToInt w = (w : Int) := by
  unfold castToInt
  have h1 : w % 2 ^ 32 = w := Nat.mod_eq_of_lt (by omega)
  rw [h1, if_pos h]

theorem roundPow2_isSmallestUnit (n : Int) (h1 : 1 ≤ n) (h64 : n ≤ 64) :
    IsSmallestUnit (roundPow2 n) n := by
  unfold roundPow2 IsSmallestUnit storageUnits
  split_ifs with a b c d
  · omega
  · refine ⟨by simp, b, ?_⟩
    intro m' hm'
    simp only [List.mem_cons, List.mem_singleton, List.mem_nil_iff, or_false] at hm'
    rcases hm' with rfl | rfl | rfl | rfl <;> intro _ <;> omega
  · refine ⟨by simp, c, ?_⟩
    intro m' hm'
    simp only [List.mem_cons, List.mem_singleton, List.mem_nil_iff, or_false] at hm'
    rcases hm' with rfl | rfl | rfl | rfl <;> intro _ <;> omega
  · refine ⟨by simp, d, ?_⟩
    intro m' hm'
    simp only [List.mem_cons, List.mem_singleton, List.mem_nil_iff, or_false] at hm'
    rcases hm' with rfl | rfl | rfl | rfl <;> intro _ <;> omega
  · refine ⟨by simp, h64, ?_⟩
    intro m' hm'
    simp only [List.mem_cons, List.mem_singleton, List.mem_nil_iff, or_false] at hm'
    rcases hm' with rfl | rfl | rfl | rfl <;> intro _ <;> omega

theorem isSmallestUnit_unique (m m' n : Int) (h : IsSmallestUnit m n)
    (h' : IsSmallestUnit m' n) : m = m' :=
  Int.le_antisymm (h.2.2 m' h'.1 h'.2.1) (h'.2.2 m h.1 h.2.1)

theorem memberStep_bitField (st : MemberLoop) (d : Decl) (w : Nat)
    (hd : d.bitWidth = some w) (hw : w < 2 ^ 31) :
    (memberStep st d).bit_count = st.bit_count + (w : Int) ∧
    (memberStep st d).inBitField = true := by
  have hb : isBitField d = (w : Int) := by simp [isBitField, hd, castToInt_of_lt w hw]
  have h0 : (0 : Int) ≤ (w : Int) := Int.ofNat_nonneg w
  simp [memberStep, hb, h0]

theorem memberDeclstr_bitField (st : MemberLoop) (d : Decl) (w : Nat)
    (hd : d.bitWidth = some w) (hw : w < 2 ^ 31) :
    memberDeclstr st d = popStream (TraverseDecl (pushStream st.p) d) := by
  have hb : isBitField d = (w : Int) := by simp [isBitField, hd, castToInt_of_lt w hw]
  have h0 : (0 : Int) ≤ (w : Int) := Int.ofNat_nonneg w
  simp [memberDeclstr, hb, h0]

theorem memberLoop_cons (st : MemberLoop) (d : Decl) (ds : List Decl) :
    memberLoop st (d :: ds) = memberLoop (memberStep st d) ds := rfl

theorem memberLoop_bitFields (run : List Decl) :
    ∀ st : MemberLoop, (∀ d ∈ run, ∃ w, d.bitWidth = some w ∧ w < 2 ^ 31) →
      (memberLoop st run).bit_count = st.bit_count + ((declaredWidths run).sum : Nat) ∧
      (run ≠ [] → (memberLoop st run).inBitField = true) := by
  induction run with
  | nil => intro st _; simp [memberLoop, declaredWidths]
  | cons d ds ih =>
    intro st h
    obtain ⟨w, hd, hw⟩ := h d (List.mem_cons_self _ _)
    have hs := memberStep_bitField st d w hd hw
    have hrest := ih (memberStep st d) (fun d' hd' => h d' (List.mem_cons_of_mem _ hd'))
    rw [memberLoop_cons]
    constructor
    · rw [hrest.1, hs.1]
      simp [declaredWidths, hd]
      omega
    · intro _
      by_cases hds : ds = []
      · subst hds
        simpa [memberLoop] using hs.2
      · exact hrest.2 hds

theorem le_sum_of_mem_widths (l : List Nat) (x : Nat) (hx : x ∈ l) : x ≤ l.sum := by
  induction l with
  | nil => cases hx
  | cons a as ih =>
    simp only [List.mem_cons] at hx
    simp only [List.sum_cons]
    rcases hx with rfl | hx
    · omega
    · have := ih hx
      omega

theorem memberLoop_run_close (st : MemberLoop) (run : List Decl) (n : Int)
    (hstart : st.bit_count = 0)
    (hrun : ∀ d ∈ run, d.bitWidth ≠ none)
    (hsum : (((declaredWidths run).sum : Nat) : Int) = n)
    (h1 : 1 ≤ n) (h64 : n ≤ 64) :
    (∀ d ∈ run, ∀ st0 : MemberLoop,
      memberDeclstr st0 d = popStream (TraverseDecl (pushStream st0.p) d)) ∧
    (memberLoop st run).bit_count = n ∧
    (memberLoop st run).inBitField = true ∧
    closeMembers (memberLoop st run) =
      out (memberLoop st run).p
        ("\n" ++ indentStr (memberLoop st run).p ++ "\tuint, \"\", "
          ++ toString (roundPow2 n - n) ++ "));" ++ endl) ∧
    (∀ d : Decl, d.bitWidth = none →
      memberDeclstr (memberLoop st run) d =
        popStream (TraverseDecl
          (out (pushStream (memberLoop st run).p)
            ("\tuint, \"\", " ++ toString (roundPow2 n - n) ++ "));\n"
              ++ indentStr (memberLoop st run).p)) d) ∧
      (memberStep (memberLoop st run) d).bit_count = 0 ∧
      (memberStep (memberLoop st run) d).inBitField = false) := by
  have hbits : ∀ d ∈ run, ∃ w, d.bitWidth = some w ∧ w < 2 ^ 31 := by
    intro d hd
    cases hw : d.bitWidth with
    | none => exact absurd hw (hrun d hd)
    | some w =>
      refine ⟨w, rfl, ?_⟩
      have hmem : w ∈ declaredWidths run := by
        simp only [declaredWidths, List.mem_map]
        exact ⟨d, hd, by simp [hw]⟩
      have := le_sum_of_mem_widths _ _ hmem
      omega
  have hne : run ≠ [] := by
    rintro rfl
    simp [declaredWidths] at hsum
    omega
  obtain ⟨hbc, hin⟩ := memberLoop_bitFields run st hbits
  have hbc' : (memberLoop st run).bit_count = n := by rw [hbc, hstart, hsum]; simp
  have hin' := hin hne
  refine ⟨?_, hbc', hin', ?_, ?_⟩
  · intro d hd st0
    obtain ⟨w, hw, hlt⟩ := hbits d hd
    exact memberDeclstr_bitField st0 d w hw hlt
  · simp only [closeMembers, hin', hbc', if_true]
    rw [out_out]
  · intro d hd
    have hb : isBitField d = -1 := by simp [isBitField, hd]
    have hn0 : n ≠ 0 := by omega
    refine ⟨?_, ?_, ?_⟩
    · simp [memberDeclstr, hb, hn0, hbc', indentStr, pushStream]
    · simp [memberStep, hb]
    · simp [memberStep, hb]

/-- C3. A bit-field run that starts with `bit_count = 0` and whose declared
widths sum to `n`, `1 ≤ n ≤ 64`, is closed by one padding field of width
`m - n`, `m` the smallest of 8, 16, 32, 64 that is at least `n`: no member of
the run writes a padding field, the loop reaches the close with `bit_count = n`,
and the close (the end of the list, or a following member that is not a
bit-field) sends the field `uint, "", m - n` to `out()` once and resets the run. -/
theorem bitfield_run_padding (st : MemberLoop) (run : List Decl) (n : Int)
    (hstart : st.bit_count = 0)
    (hrun : ∀ d ∈ run, d.bitWidth ≠ none)
    (hsum : (((declaredWidths run).sum : Nat) : Int) = n)
    (h1 : 1 ≤ n) (h64 : n ≤ 64) :
    ∃ m : Int, IsSmallestUnit m n ∧
      (∀ d ∈ run, ∀ st0 : MemberLoop,
        memberDeclstr st0 d = popStream (TraverseDecl (pushStream st0.p) d)) ∧
      (memberLoop st run).bit_count = n ∧
      (memberLoop st run).inBitField = true ∧
      closeMembers (memberLoop st run) =
        out (memberLoop st run).p
          ("\n" ++ indentStr (memberLoop st run).p ++ "\tuint, \"\", " ++ toString (m - n)
            ++ "));" ++ endl) ∧
      (∀ d : Decl, d.bitWidth = none →
        memberDeclstr (memberLoop st run) d =
          popStream (TraverseDecl
            (out (pushStream (memberLoop st run).p)
              ("\tuint, \"\", " ++ toString (m - n) ++ "));\n"
                ++ indentStr (memberLoop st run).p)) d) ∧
        (memberStep (memberLoop st run) d).bit_count = 0 ∧
        (memberStep (memberLoop st run) d).inBitField = false) :=
  ⟨roundPow2 n, roundPow2_isSmallestUnit n h1 h64,
    memberLoop_run_close st run n hstart hrun hsum h1 h64⟩

/-- Witness for C3: the run of widths `[3, 4, 3]` reaches its close with
`bit_count = 10` and is closed by the padding field of width `6`. -/
theorem bitfield_run_padding_witness :
    (∃ m : Int, IsSmallestUnit m 10 ∧
      (memberLoop (memberLoopInit bodyPrinter true)
        [bitFieldDecl 3 AccessSpecifier.AS_public "uint, \"a\", 3,",
         bitFieldDecl 4 AccessSpecifier.AS_public "uint, \"b\", 4,",
         bitFieldDecl 3 AccessSpecifier.AS_public "uint, \"c\", 3,"]).bit_count = 10) ∧
    (traverseMembers bodyPrinter true
        [bitFieldDecl 3 AccessSpecifier.AS_public "uint, \"a\", 3,",
         bitFieldDecl 4 AccessSpecifier.AS_public "uint, \"b\", 4,",
         bitFieldDecl 3 AccessSpecifier.AS_public "uint, \"c\", 3,"]).outStack =
      ["\npublic:\n    mixin(bitfields!(\n    uint, \"a\", 3,\n    uint, \"b\", 4,\n" ++
       "    uint, \"c\", 3,\n    \tuint, \"\", 6));\n"] ∧
    (traverseMembers bodyPrinter true
        [bitFieldDecl 3 AccessSpecifier.AS_public "uint, \"a\", 3,",
         bitFieldDecl 4 AccessSpecifier.AS_public "uint, \"b\", 4,",
         bitFieldDecl 3 AccessSpecifier.AS_public "uint, \"c\", 3,",
         fieldDecl AccessSpecifier.AS_public "int x"]).outStack =
      ["\npublic:\n    mixin(bitfields!(\n    uint, \"a\", 3,\n    uint, \"b\", 4,\n" ++
       "    uint, \"c\", 3,\n    \tuint, \"\", 6));\n    int x;\n"] :=
  ⟨(bitfield_run_padding (memberLoopInit bodyPrinter true)
      [bitFieldDecl 3 AccessSpecifier.AS_public "uint, \"a\", 3,",
       bitFieldDecl 4 AccessSpecifier.AS_public "uint, \"b\", 4,",
       bitFieldDecl 3 AccessSpecifier.AS_public "uint, \"c\", 3,"] 10
      rfl (by decide) (by decide) (by decide) (by decide)).imp
      (fun _ h => ⟨h.1, h.2.2.1⟩),
   by decide, by decide⟩

/-- C4 as stated fails: a single bit-field of width 32 closes with the padding
field `uint, "", 0`, which is present in the output text. -/
theorem padding_field_emitted_at_32 :
    (traverseMembers bodyPrinter true
        [bitFieldDecl 32 AccessSpecifier.AS_public "uint, \"a\", 32,"]).outStack =
      ["\npublic:\n    mixin(bitfields!(\n    uint, \"a\", 32,\n    \tuint, \"\", 0));\n"] ∧
    closeMembers (memberLoop (memberLoopInit bodyPrinter true)
        [bitFieldDecl 32 AccessSpecifier.AS_public "uint, \"a\", 32,"]) ≠
      out (memberLoop (memberLoopInit bodyPrinter true)
        [bitFieldDecl 32 AccessSpecifier.AS_public "uint, \"a\", 32,"]).p endl := by
  constructor <;> decide

/-- C4, amended. A bit-field run whose declared widths sum to exactly 32 closes
with a padding width of 0, and the padding field `uint, "", 0` is still sent to
`out()`, at the end of the list as well as before a following member that is
not a bit-field. -/
theorem bitfield_run_32_padding_zero (st : MemberLoop) (run : List Decl)
    (hstart : st.bit_count = 0)
    (hrun : ∀ d ∈ run, d.bitWidth ≠ none)
    (hsum : (declaredWidths run).sum = 32) :
    roundPow2 (memberLoop st run).bit_count - (memberLoop st run).bit_count = 0 ∧
    closeMembers (memberLoop st run) =
      out (memberLoop st run).p
        ("\n" ++ indentStr (memberLoop st run).p ++ "\tuint, \"\", 0));" ++ endl) ∧
    (∀ d : Decl, d.bitWidth = none →
      memberDeclstr (memberLoop st run) d =
        popStream (TraverseDecl
          (out (pushStream (memberLoop st run).p)
            ("\tuint, \"\", 0));\n" ++ indentStr (memberLoop st run).p)) d)) := by
  obtain ⟨_, hbc, _, hclose, hmid⟩ :=
    memberLoop_run_close st run 32 hstart hrun (by rw [hsum]; rfl) (by decide) (by decide)
  have h0 : toString (roundPow2 32 - 32 : Int) = "0" := by decide
  have e : ∀ a : String, a ++ "\tuint, \"\", " ++ "0" ++ "));" = a ++ "\tuint, \"\", 0));" := by
    intro a
    rw [String.append_assoc, String.append_assoc]
    exact congrArg (fun x => a ++ x) (by decide)
  have e' : ("\tuint, \"\", " : String) ++ "0" ++ "));\n" = "\tuint, \"\", 0));\n" := by decide
  refine ⟨by rw [hbc]; decide, ?_, ?_⟩
  · rw [hclose, h0, e]
  · intro d hd
    rw [(hmid d hd).1, h0, e']

/-- Witness for the amended C4: the run of widths `[16, 16]`. -/
theorem bitfield_run_32_padding_zero_witness :
    closeMembers (memberLoop (memberLoopInit bodyPrinter true)
        [bitFieldDecl 16 AccessSpecifier.AS_public "uint, \"a\", 16,",
         bitFieldDecl 16 AccessSpecifier.AS_public "uint, \"b\", 16,"]) =
      out (memberLoop (memberLoopInit bodyPrinter true)
        [bitFieldDecl 16 AccessSpecifier.AS_public "uint, \"a\", 16,",
         bitFieldDecl 16 AccessSpecifier.AS_public "uint, \"b\", 16,"]).p
        ("\n" ++ indentStr (memberLoop (memberLoopInit bodyPrinter true)
          [bitFieldDecl 16 AccessSpecifier.AS_public "uint, \"a\", 16,",
           bitFieldDecl 16 AccessSpecifier.AS_public "uint, \"b\", 16,"]).p
          ++ "\tuint, \"\", 0));" ++ endl) :=
  (bitfield_run_32_padding_zero (memberLoopInit bodyPrinter true)
    [bitFieldDecl 16 AccessSpecifier.AS_public "uint, \"a\", 16,",
     bitFieldDecl 16 AccessSpecifier.AS_public "uint, \"b\", 16,"]
    rfl (by decide) (by decide)).2.1

/-! ## Visibility labels -/

theorem out_isInMacro (p : DPrinter) (s : String) : (out p s).isInMacro = p.isInMacro := by
  unfold out
  split
  · split <;> rfl
  · rfl

theorem out_output_enabled (p : DPrinter) (s : String) :
    (out p s).output_enabled = p.output_enabled := by
  unfold out
  split
  · split <;> rfl
  · rfl

theorem indentStr_out (p : DPrinter) (s : String) : indentStr (out p s) = indentStr p := by
  simp [indentStr, out_indent]

theorem printCommentBefore_eq_out (p : DPrinter) (d : Decl) :
    printCommentBefore p d = out p (commentBeforeText p d) := by
  unfold printCommentBefore commentBeforeText
  cases d.comment with
  | none => rfl
  | some rc =>
    cases h : rc.isTrailingComment
    · simp [h, indentStr_out, out_out]
    · simp [h]

theorem commentBeforeText_out (p : DPrinter) (s : String) (d : Decl) :
    commentBeforeText (out p s) d = commentBeforeText p d := by
  simp [commentBeforeText, indentStr_out]

theorem printCommentAfter_eq_out (p : DPrinter) (d : Decl) :
    printCommentAfter p d = out p (commentAfterText d) := by
  unfold printCommentAfter commentAfterText
  cases d.comment with
  | none => simp [out_empty]
  | some rc =>
    cases h : rc.isTrailingComment
    · simp [h, out_empty]
    · simp [h]

theorem printAccessLabel_eq_out (p : DPrinter) (a : AccessSpecifier) :
    printAccessLabel p a = out p (labelText p a) := by
  unfold printAccessLabel labelText out
  cases he : p.output_enabled
  · cases p
    simp_all
  · cases hs : p.outStack with
    | nil =>
      cases p
      simp_all
    | cons top rest =>
      cases p
      simp_all

theorem printAccessLabel_isInMacro (p : DPrinter) (a : AccessSpecifier) :
    (printAccessLabel p a).isInMacro = p.isInMacro := by
  rw [printAccessLabel_eq_out, out_isInMacro]

theorem memberDeclstr_enabled (st : MemberLoop) (d : Decl)
    (hen : st.p.output_enabled = true) (hdelta : d.macroDelta = 0) :
    memberDeclstr st d = (declstrText st d, st.p) := by
  obtain ⟨p, bc, ib, ac⟩ := st
  obtain ⟨stack, en, mac, ind, pc, cim⟩ := p
  simp only at hen
  subst hen
  unfold memberDeclstr declstrText
  by_cases hb : 0 ≤ isBitField d
  · simp [hb, pushStream, TraverseDecl, out, popStream, hdelta]
  · by_cases h0 : bc = 0
    · simp [hb, h0, pushStream, TraverseDecl, out, popStream, hdelta]
    · simp [hb, h0, pushStream, TraverseDecl, out, popStream, hdelta, indentStr]

theorem memberEmit_outside_macro (p : DPrinter) (access : AccessSpecifier)
    (inBitField nextIsBitField : Bool) (d : Decl) (declstr : String)
    (hmac : p.isInMacro = 0) :
    memberEmit p access inBitField nextIsBitField d declstr =
      (out p ((if newAccess d ≠ access then labelText p (newAccess d) else "")
          ++ (commentBeforeText p d
          ++ (if inBitField = false ∧ nextIsBitField = true then
                "mixin(bitfields!(\n" ++ indentStr p else "")
          ++ declstr
          ++ (if needSemiComma d && nextIsBitField == false then ";" else "")
          ++ commentAfterText d)),
       newAccess d) := by
  unfold memberEmit
  generalize needSemiComma d = semi
  by_cases ha : newAccess d = access
  · cases inBitField <;> cases nextIsBitField <;> cases semi <;>
      simp [ha, printCommentBefore_eq_out, printCommentAfter_eq_out, out_isInMacro, hmac,
        indentStr_out, out_out, String.append_assoc]
  · cases inBitField <;> cases nextIsBitField <;> cases semi <;>
      simp [ha, printCommentBefore_eq_out, printCommentAfter_eq_out, out_isInMacro, hmac,
        indentStr_out, out_out, String.append_assoc, printAccessLabel_eq_out,
        commentBeforeText_out]

theorem append_ne_empty_right (a b : String) (h : b ≠ "") : a ++ b ≠ "" := by
  intro hab
  apply h
  have := congrArg String.data hab
  rw [String.data_append] at this
  have hb : b.data = [] := (List.append_eq_nil.1 this).2
  exact String.ext hb

theorem memberStep_outside_macro (st : MemberLoop) (d : Decl)
    (hmac : st.p.isInMacro = 0) (hen : st.p.output_enabled = true)
    (hdelta : d.macroDelta = 0) (htext : d.text ≠ "") :
    memberStep st d =
      { p := out st.p (memberText st d),
        bit_count := if 0 ≤ isBitField d then st.bit_count + isBitField d else 0,
        inBitField := decide (0 ≤ isBitField d),
        access := newAccess d } := by
  have hne : declstrText st d ≠ "" := append_ne_empty_right _ _ htext
  have hq : ∀ q : DPrinter, q.output_enabled = true → q.isInMacro = 0 →
      { q with output_enabled := decide (q.isInMacro = 0) } = q := by
    intro q h1 h2
    cases q
    simp_all
  unfold memberStep
  simp only [memberDeclstr_enabled st d hen hdelta, hne, ne_eq, not_false_eq_true, if_true,
    memberEmit_outside_macro st.p st.access st.inBitField _ d _ hmac]
  rw [hq _ (by rw [out_output_enabled]; exact hen) (by rw [out_isInMacro]; exact hmac)]
  by_cases hb : 0 ≤ isBitField d
  · simp [hb, memberText, memberBodyText, String.append_assoc]
  · simp [hb, memberText, memberBodyText, String.append_assoc]

theorem memberLoop_outside_macro (pre : List Decl) :
    ∀ st : MemberLoop, st.p.isInMacro = 0 → st.p.output_enabled = true →
      (∀ d ∈ pre, d.macroDelta = 0 ∧ d.text ≠ "") →
      (memberLoop st pre).p.isInMacro = 0 ∧
      (memberLoop st pre).p.output_enabled = true ∧
      (memberLoop st pre).access =
        pre.foldl (fun active d => if newAccess d ≠ active then newAccess d else active)
          st.access := by
  induction pre with
  | nil => intro st h1 h2 _; exact ⟨h1, h2, rfl⟩
  | cons d ds ih =>
    intro st h1 h2 h
    obtain ⟨hd1, hd2⟩ := h d (List.mem_cons_self _ _)
    have hstep := memberStep_outside_macro st d h1 h2 hd1 hd2
    have hm : (memberStep st d).p.isInMacro = 0 := by rw [hstep]; simp [out_isInMacro, h1]
    have he : (memberStep st d).p.output_enabled = true := by
      rw [hstep]; simp [out_output_enabled, h2]
    have ha : (memberStep st d).access = newAccess d := by rw [hstep]
    obtain ⟨r1, r2, r3⟩ := ih (memberStep st d) hm he
      (fun d' hd' => h d' (List.mem_cons_of_mem _ hd'))
    refine ⟨r1, r2, ?_⟩
    rw [memberLoop_cons, r3, ha, List.foldl_cons]
    by_cases hx : newAccess d = st.access
    · simp [hx]
    · simp [hx]

/-- C5. Outside a macro, with every member producing non-empty text, the
member that follows the members `pre` is preceded by a visibility label exactly
when its resolved visibility (`newAccess`: its own, or public when unspecified)
differs from the active visibility; the loop variable `access` is that active
visibility (initially private for a class and public for a struct or union,
then the visibility of the last labelled member), and the label is the first
text the member sends to `out()`. -/
theorem visibility_label_iff (p : DPrinter) (isClass : Bool) (pre : List Decl) (d : Decl)
    (hmac : p.isInMacro = 0) (hen : p.output_enabled = true)
    (hpre : ∀ d' ∈ pre, d'.macroDelta = 0 ∧ d'.text ≠ "")
    (hd : d.macroDelta = 0 ∧ d.text ≠ "") :
    (memberLoop (memberLoopInit p isClass) pre).access = activeAccess isClass pre ∧
    (memberStep (memberLoop (memberLoopInit p isClass) pre) d).p =
      out (memberLoop (memberLoopInit p isClass) pre).p
        ((if newAccess d ≠ activeAccess isClass pre then
            labelText (memberLoop (memberLoopInit p isClass) pre).p (newAccess d)
          else "")
          ++ memberBodyText (memberLoop (memberLoopInit p isClass) pre) d) ∧
    (memberStep (memberLoop (memberLoopInit p isClass) pre) d).access =
      activeAccess isClass (pre ++ [d]) := by
  obtain ⟨h1, h2, h3⟩ := memberLoop_outside_macro pre (memberLoopInit p isClass) hmac hen hpre
  have h3' : (memberLoop (memberLoopInit p isClass) pre).access = activeAccess isClass pre := by
    rw [h3]; rfl
  have hstep := memberStep_outside_macro _ d h1 h2 hd.1 hd.2
  refine ⟨h3', ?_, ?_⟩
  · rw [hstep]
    simp only [memberText, h3']
  · rw [hstep]
    simp only [activeAccess, List.foldl_append, List.foldl_cons, List.foldl_nil]
    split
    · rfl
    · rename_i hx
      exact not_not.1 hx

/-- Witness for C5: a class with member visibilities public, public, private,
private, public gets exactly three labels, before members 1, 3 and 5. -/
theorem visibility_label_iff_witness :
    (memberStep (memberLoop (memberLoopInit bodyPrinter true)
        [fieldDecl AccessSpecifier.AS_public "int a", fieldDecl AccessSpecifier.AS_public "int b"])
      (fieldDecl AccessSpecifier.AS_private "int c")).p =
      out (memberLoop (memberLoopInit bodyPrinter true)
        [fieldDecl AccessSpecifier.AS_public "int a", fieldDecl AccessSpecifier.AS_public "int b"]).p
        ("\nprivate:" ++ "\n    int c;") ∧
    (traverseMembers bodyPrinter true
        [fieldDecl AccessSpecifier.AS_public "int a", fieldDecl AccessSpecifier.AS_public "int b",
         fieldDecl AccessSpecifier.AS_private "int c", fieldDecl AccessSpecifier.AS_private "int d",
         fieldDecl AccessSpecifier.AS_public "int e"]).outStack =
      ["\npublic:\n    int a;\n    int b;\nprivate:\n    int c;\n    int d;\npublic:\n    int e;\n"] :=
  ⟨(visibility_label_iff bodyPrinter true
      [fieldDecl AccessSpecifier.AS_public "int a", fieldDecl AccessSpecifier.AS_public "int b"]
      (fieldDecl AccessSpecifier.AS_private "int c") rfl rfl (by decide) (by decide)).2.1.trans
      (by decide),
   by decide⟩

/-! ## Derived members -/

theorem printOpCmp_eq_out (p : DPrinter) (getPointeeType : Nat → QualType) (type : Nat) :
    printOpCmp p getPointeeType type =
      if type = 0 ∨ (getPointeeType type).ptr = 0 then none
      else some (out p (opCmpText p (getPointeeType type))) := by
  by_cases h : type = 0 ∨ (getPointeeType type).ptr = 0
  · simp only [printOpCmp, h, if_true]
  · obtain ⟨stack, en, mac, ind, pc, cim⟩ := p
    simp only [printOpCmp, h, if_false, Option.some.injEq]
    unfold opCmpText
    simp only [printType_eq_out]
    cases en
    · cases pc <;> simp [out]
    · cases stack with
      | nil => cases pc <;> simp [out]
      | cons top rest =>
        cases pc <;> simp [out, indentStr, String.append_assoc]

theorem printOpCast_eq_out (p : DPrinter) : printOpCast p = out p (opCastText p) := by
  obtain ⟨stack, en, mac, ind, pc, cim⟩ := p
  unfold printOpCast opCastText
  cases en
  · cases pc <;> simp [out]
  · cases stack with
    | nil => cases pc <;> simp [out]
    | cons top rest =>
      cases pc <;> simp [out, indentStr, String.append_assoc]

theorem opCmpText_out (p : DPrinter) (s : String) (type : QualType) :
    opCmpText (out p s) type = opCmpText p type := by
  simp [opCmpText, indentStr, out_indent, out_portConst]

theorem opCastText_out (p : DPrinter) (s : String) : opCastText (out p s) = opCastText p := by
  simp [opCastText, indentStr, out_indent, out_portConst]

theorem printOpCmps_eq_out (getPointeeType : Nat → QualType)
    (relations : List (Nat × RelationInfo)) :
    ∀ p : DPrinter, printOpCmps p getPointeeType relations =
      if pointeesNotNull getPointeeType relations = true then
        some (out p (concat ((opCmpRelations relations).map
          (fun type_info => opCmpText p (getPointeeType type_info.1)))))
      else none := by
  induction relations with
  | nil => intro p; simp [printOpCmps, pointeesNotNull, opCmpRelations, concat, out_empty]
  | cons ti rest ih =>
    intro p
    unfold printOpCmps
    by_cases h : (ti.2.hasOpLess && ti.2.hasOpEqual) = true
    · have hrel : opCmpRelations (ti :: rest) = ti :: opCmpRelations rest := by
        simp [opCmpRelations, List.filter_cons, h]
      have hnn : pointeesNotNull getPointeeType (ti :: rest) =
          (decide (¬ (ti.1 = 0 ∨ (getPointeeType ti.1).ptr = 0)) &&
            pointeesNotNull getPointeeType rest) := by
        simp only [pointeesNotNull, hrel, List.all_cons]
      simp only [h, if_true]
      rw [printOpCmp_eq_out, hnn, hrel]
      by_cases hn : ti.1 = 0 ∨ (getPointeeType ti.1).ptr = 0
      · simp only [hn, if_true, not_true_eq_false, decide_False, Bool.false_and,
          Bool.false_eq_true, if_false]
      · simp only [hn, if_false, not_false_eq_true, decide_True, Bool.true_and]
        rw [ih]
        split_ifs
        · simp only [out_out, opCmpText_out, List.map_cons, concat]
        · rfl
    · have hrel : opCmpRelations (ti :: rest) = opCmpRelations rest := by
        simp [opCmpRelations, List.filter_cons, h]
      have hnn : pointeesNotNull getPointeeType (ti :: rest) =
          pointeesNotNull getPointeeType rest := by
        simp only [pointeesNotNull, hrel]
      rw [if_neg h, ih, hnn, hrel]

/-! ## Maps -/

theorem mapFind_eq_none_of_lt {β : Type} (m : List (Nat × β)) (k : Nat)
    (h : ∀ e ∈ m, k < e.1) : mapFind m k = none := by
  induction m with
  | nil => rfl
  | cons e rest ih =>
    have h1 := h e (List.mem_cons_self _ _)
    have hne : ¬ k = e.1 := by omega
    simp only [mapFind, hne, if_false]
    exact ih (fun e' he' => h e' (List.mem_cons_of_mem _ he'))

theorem mapFind_mapUpdate_other {β : Type} (dflt : β) (f : β → β) (m : List (Nat × β))
    (k k' : Nat) (h : k' ≠ k) : mapFind (mapUpdate dflt f m k) k' = mapFind m k' := by
  induction m with
  | nil => simp [mapUpdate, mapFind, h]
  | cons e rest ih =>
    obtain ⟨ke, v⟩ := e
    unfold mapUpdate
    by_cases h1 : k < ke
    · simp [h1, mapFind, h]
    · by_cases h2 : k = ke
      · subst h2
        simp [mapFind, h]
      · simp only [h1, h2, if_false, mapFind, ih]

theorem mapFind_mapUpdate_exists {β : Type} (dflt : β) (f : β → β) (m : List (Nat × β))
    (k : Nat) : ∃ v, mapFind (mapUpdate dflt f m k) k = some (f v) := by
  induction m with
  | nil => exact ⟨dflt, by simp [mapUpdate, mapFind]⟩
  | cons e rest ih =>
    obtain ⟨ke, v⟩ := e
    unfold mapUpdate
    by_cases h1 : k < ke
    · exact ⟨dflt, by simp [h1, mapFind]⟩
    · by_cases h2 : k = ke
      · subst h2
        exact ⟨v, by simp [mapFind]⟩
      · obtain ⟨w, hw⟩ := ih
        exact ⟨w, by simp only [h1, h2, if_false, mapFind, hw]⟩

theorem mapFind_mapUpdate_self {β : Type} (dflt : β) (f : β → β) (m : List (Nat × β))
    (k : Nat) (hs : mapSorted m) :
    mapFind (mapUpdate dflt f m k) k = some (f (mapGet dflt m k)) := by
  induction m with
  | nil => simp [mapUpdate, mapFind, mapGet]
  | cons e rest ih =>
    obtain ⟨ke, v⟩ := e
    have hs' := List.pairwise_cons.1 hs
    unfold mapUpdate
    by_cases h1 : k < ke
    · have hnone : mapFind rest k = none :=
        mapFind_eq_none_of_lt rest k (fun e' he' => by
          have := hs'.1 e' he'
          simp only at this
          omega)
      have hne : ¬ k = ke := by omega
      simp [h1, mapFind, mapGet, hne, hnone]
    · by_cases h2 : k = ke
      · subst h2
        simp [mapFind, mapGet]
      · simp only [h1, h2, if_false, mapFind, mapGet]
        have := ih hs'.2
        simpa [mapGet] using this

theorem mapGet_mapUpdate_id {β : Type} (dflt : β) (m : List (Nat × β)) (k : Nat)
    (hs : mapSorted m) : mapGet dflt (mapUpdate dflt id m k) k = mapGet dflt m k := by
  unfold mapGet
  rw [mapFind_mapUpdate_self dflt id m k hs]
  simp [mapGet]

theorem mapUpdate_id_idem {β : Type} (dflt : β) (m : List (Nat × β)) (k : Nat) :
    mapUpdate dflt id (mapUpdate dflt id m k) k = mapUpdate dflt id m k := by
  induction m with
  | nil => simp [mapUpdate]
  | cons e rest ih =>
    obtain ⟨ke, v⟩ := e
    by_cases h1 : k < ke
    · simp [mapUpdate, h1]
    · by_cases h2 : k = ke
      · subst h2
        simp [mapUpdate]
      · simp [mapUpdate, h1, h2, ih]

theorem out_classInfoMap (p : DPrinter) (s : String) :
    (out p s).classInfoMap = p.classInfoMap := by
  unfold out
  split
  · split <;> rfl
  · rfl

theorem derivedText_congr (p q : DPrinter) (getPointeeType : Nat → QualType)
    (classInfo : ClassInfo) (hi : q.indent = p.indent) (hc : q.portConst = p.portConst) :
    derivedText q getPointeeType classInfo = derivedText p getPointeeType classInfo := by
  simp [derivedText, opCmpText, opCastText, indentStr, hi, hc]

theorem printDerivedMembers_eq_out_read (p : DPrinter) (getPointeeType : Nat → QualType)
    (record : Nat) :
    printDerivedMembers p getPointeeType (some record) =
      if pointeesNotNull getPointeeType
          (mapGet default (mapUpdate default id p.classInfoMap record) record).relations
          = true then
        some (out { p with classInfoMap := mapUpdate default id p.classInfoMap record }
          (derivedText p getPointeeType
            (mapGet default (mapUpdate default id p.classInfoMap record) record)))
      else none := by
  unfold printDerivedMembers derivedText
  simp only [printOpCmps_eq_out]
  by_cases hnn : pointeesNotNull getPointeeType
      (mapGet default (mapUpdate default id p.classInfoMap record) record).relations = true
  · have e1 : ∀ type : QualType,
        opCmpText { p with classInfoMap := mapUpdate default id p.classInfoMap record } type
          = opCmpText p type := fun _ => rfl
    have e2 : opCastText { p with classInfoMap := mapUpdate default id p.classInfoMap record }
        = opCastText p := rfl
    simp only [hnn, if_true, printOpCast_eq_out, opCastText_out, Option.some.injEq, e1, e2]
    cases h1 : (mapGet default (mapUpdate default id p.classInfoMap record)
        record).hasOpExclaim <;>
      cases h2 : (mapGet default (mapUpdate default id p.classInfoMap record)
        record).hasBoolConv <;>
      simp [out_out]
  · simp only [hnn, Bool.false_eq_true, if_false]

theorem printDerivedMembers_eq_out (p : DPrinter) (getPointeeType : Nat → QualType)
    (record : Nat) (hs : mapSorted p.classInfoMap) :
    printDerivedMembers p getPointeeType (some record) =
      if pointeesNotNull getPointeeType (mapGet default p.classInfoMap record).relations
          = true then
        some (out { p with classInfoMap := mapUpdate default id p.classInfoMap record }
          (derivedText p getPointeeType (mapGet default p.classInfoMap record)))
      else none := by
  rw [printDerivedMembers_eq_out_read, mapGet_mapUpdate_id default p.classInfoMap record hs]

theorem printDerivedMembers_of_present (q : DPrinter) (getPointeeType : Nat → QualType)
    (record : Nat) (h : mapUpdate default id q.classInfoMap record = q.classInfoMap) :
    printDerivedMembers q getPointeeType (some record) =
      if pointeesNotNull getPointeeType (mapGet default q.classInfoMap record).relations
          = true then
        some (out q (derivedText q getPointeeType (mapGet default q.classInfoMap record)))
      else none := by
  rw [printDerivedMembers_eq_out_read, h]

theorem count_opCmpRelations (relations : List (Nat × RelationInfo))
    (hs : mapSorted relations) (type : Nat) :
    ((opCmpRelations relations).map Prod.fst).count type =
      if (mapGet default relations type).hasOpLess = true ∧
          (mapGet default relations type).hasOpEqual = true then 1 else 0 := by
  induction relations with
  | nil => simp [opCmpRelations, mapGet, mapFind]
  | cons e rest ih =>
    obtain ⟨ke, v⟩ := e
    have hs' := List.pairwise_cons.1 hs
    have ih' := ih hs'.2
    by_cases ht : type = ke
    · subst ht
      have hnone : mapFind rest type = none :=
        mapFind_eq_none_of_lt rest type (fun e' he' => hs'.1 e' he')
      have hrest : ((opCmpRelations rest).map Prod.fst).count type = 0 := by
        rw [ih']
        simp [mapGet, hnone]
      cases hl : v.hasOpLess <;> cases he : v.hasOpEqual <;>
        simp [opCmpRelations, List.filter_cons, hl, he, mapGet, mapFind] <;>
        simpa [opCmpRelations] using hrest
    · have hne : ¬ ke = type := fun h => ht h.symm
      have hget : mapGet default ((ke, v) :: rest) type = mapGet default rest type := by
        simp [mapGet, mapFind, ht]
      rw [hget, ← ih']
      cases hl : v.hasOpLess <;> cases he : v.hasOpEqual <;>
        simp [opCmpRelations, List.filter_cons, hl, he, List.count_cons, hne]

/-- Where the `opCmp` loop can print every related type it synthesizes a method
for, it sends to `out()` one `opCmp` method for each related type whose
relation has both `hasOpLess` and `hasOpEqual`, and nothing for the other
related types: the methods are those of `opCmpRelations`, each related type
with both flags gets exactly one and each other type none, and the body of the
method is `return _opLess(other) ? -1: ((this == other)? 0: 1);`.  Where it
cannot, it does not return. -/
theorem opCmp_synthesis (p : DPrinter) (getPointeeType : Nat → QualType)
    (classInfo : ClassInfo) :
    (pointeesNotNull getPointeeType classInfo.relations = true →
      printOpCmps p getPointeeType classInfo.relations =
        some (out p (concat ((opCmpRelations classInfo.relations).map
          (fun type_info => opCmpText p (getPointeeType type_info.1)))))) ∧
    (pointeesNotNull getPointeeType classInfo.relations = false →
      printOpCmps p getPointeeType classInfo.relations = none) ∧
    (∀ type_info : Nat × RelationInfo, type_info ∈ opCmpRelations classInfo.relations ↔
      (type_info ∈ classInfo.relations ∧
        type_info.2.hasOpLess = true ∧ type_info.2.hasOpEqual = true)) ∧
    (mapSorted classInfo.relations → ∀ type : Nat,
      ((opCmpRelations classInfo.relations).map Prod.fst).count type =
        if (mapGet default classInfo.relations type).hasOpLess = true ∧
            (mapGet default classInfo.relations type).hasOpEqual = true then 1 else 0) ∧
    (∀ type : QualType, opCmpText p type =
      indentStr p ++ "int opCmp(ref in " ++ typeText p.portConst type ++ " other)"
        ++ (if p.portConst then " const" else "") ++ "\n"
        ++ indentStr p ++ "\x7b\n"
        ++ indentStr { p with indent := p.indent + 1 }
        ++ "return _opLess(other) ? -1: ((this == other)? 0: 1);\n"
        ++ indentStr p ++ "\x7d\n") := by
  refine ⟨fun h => ?_, fun h => ?_, ?_,
    fun hs type => count_opCmpRelations classInfo.relations hs type, fun _ => rfl⟩
  · rw [printOpCmps_eq_out, if_pos h]
  · rw [printOpCmps_eq_out, if_neg (by simp [h])]
  · intro type_info
    simp [opCmpRelations, List.mem_filter]

/-- Example: a type with both overloads for the related type `101`, whose
pointee type is `Foo`, gets one `opCmp`; a type with only an equality overload
gets none. -/
theorem opCmp_synthesis_witness :
    ((opCmpRelations orderedClassInfo.relations).map Prod.fst).count 101 = 1 ∧
    ((opCmpRelations equalityOnlyClassInfo.relations).map Prod.fst).count 101 = 0 ∧
    (printDerivedMembers (closePrinter orderedClassInfo) (fun _ => fooType)
        (some 1)).map DPrinter.outStack =
      some ["    int opCmp(ref in Foo other)\n    \x7b\n" ++
       "        return _opLess(other) ? -1: ((this == other)? 0: 1);\n    \x7d\n"] ∧
    (printDerivedMembers (closePrinter equalityOnlyClassInfo) (fun _ => fooType)
      (some 1)).map DPrinter.outStack = some [""] :=
  ⟨((opCmp_synthesis (closePrinter orderedClassInfo) (fun _ => fooType) orderedClassInfo).2.2.2.1
      (by decide) 101).trans (by decide),
   ((opCmp_synthesis (closePrinter equalityOnlyClassInfo) (fun _ => fooType)
      equalityOnlyClassInfo).2.2.2.1 (by decide) 101).trans (by decide),
   by decide, by decide⟩

/-- C6 fails on the code for a related type that is neither a pointer nor a
reference.  With `bool operator<(A const&, int)` and
`bool operator==(A const&, int)` the `ClassInfo` of `A` has the relation keyed
by the type `int` with both flags; at the close of the body of `A` the loop
asks that type for its pointee type, gets the null type and has `printType`
dereference it: no `opCmp` is written and the step does not return.  With the
operand `B const&` in place of `int` one `opCmp(ref in B other)` is written. -/
theorem opCmp_null_pointee :
    (printFuncBegin
        (printFuncBegin freshPrinter (freeOperatorAInt OverloadedOperatorKind.OO_Less) "" 0).2.2
        (freeOperatorAInt OverloadedOperatorKind.OO_EqualEqual) "" 0).2.2.classInfoMap =
      [(1, { relations := [(10, { hasOpLess := true, hasOpEqual := true })],
             hasOpExclaim := false, hasBoolConv := false })] ∧
    (pointeeOf 10).ptr = 0 ∧
    printDerivedMembers
        (printFuncBegin
          (printFuncBegin freshPrinter (freeOperatorAInt OverloadedOperatorKind.OO_Less) "" 0).2.2
          (freeOperatorAInt OverloadedOperatorKind.OO_EqualEqual) "" 0).2.2
        pointeeOf (some 1) = none ∧
    (printDerivedMembers
        { (printFuncBegin
            (printFuncBegin freshPrinter (freeOperatorAB OverloadedOperatorKind.OO_Less) "" 0).2.2
            (freeOperatorAB OverloadedOperatorKind.OO_EqualEqual) "" 0).2.2 with
          outStack := [""] }
        pointeeOf (some 1)).map DPrinter.outStack =
      some ["int opCmp(ref in B other)\n\x7b\n" ++
        "    return _opLess(other) ? -1: ((this == other)? 0: 1);\n\x7d\n"] := by
  refine ⟨?_, ?_, ?_, ?_⟩ <;> decide

set_option maxRecDepth 8000 in
/-- C7 as stated fails: applied twice to the `ClassInfo` of a type with both an
equality and an ordering overload, the synthesis step emits `opCmp` twice. -/
theorem synthesis_twice_emits_two :
    (printDerivedMembers (closePrinter orderedClassInfo) (fun _ => fooType)
        (some 1)).map DPrinter.outStack =
      some ["    int opCmp(ref in Foo other)\n    \x7b\n" ++
       "        return _opLess(other) ? -1: ((this == other)? 0: 1);\n    \x7d\n"] ∧
    ((printDerivedMembers (closePrinter orderedClassInfo) (fun _ => fooType) (some 1)).bind
        (fun q => printDerivedMembers q (fun _ => fooType) (some 1))).map DPrinter.outStack =
      some ["    int opCmp(ref in Foo other)\n    \x7b\n" ++
       "        return _opLess(other) ? -1: ((this == other)? 0: 1);\n    \x7d\n" ++
       "    int opCmp(ref in Foo other)\n    \x7b\n" ++
       "        return _opLess(other) ? -1: ((this == other)? 0: 1);\n    \x7d\n"] := by
  constructor <;> decide

/-- C7, amended. The synthesis step leaves the `ClassInfo` of the aggregate as
it found it and keeps no trace of having run: a second application to the same
`ClassInfo` sends the same derived members to `out()` once more.  The step
returns whenever the `opCmp` loop can print the related types it synthesizes a
method for. -/
theorem synthesis_twice (p : DPrinter) (getPointeeType : Nat → QualType) (record : Nat)
    (hs : mapSorted p.classInfoMap) :
    (pointeesNotNull getPointeeType (mapGet default p.classInfoMap record).relations = true →
      (printDerivedMembers p getPointeeType (some record)).isSome = true) ∧
    (∀ q : DPrinter, printDerivedMembers p getPointeeType (some record) = some q →
      mapGet default q.classInfoMap record = mapGet default p.classInfoMap record ∧
      printDerivedMembers q getPointeeType (some record) =
        some (out { p with classInfoMap := mapUpdate default id p.classInfoMap record }
          (derivedText p getPointeeType (mapGet default p.classInfoMap record)
            ++ derivedText p getPointeeType (mapGet default p.classInfoMap record)))) := by
  have h1 := printDerivedMembers_eq_out p getPointeeType record hs
  constructor
  · intro hnn
    rw [h1, if_pos hnn]
    rfl
  · intro q hq
    rw [h1] at hq
    split_ifs at hq with hnn
    cases hq
    constructor
    · rw [out_classInfoMap]
      exact mapGet_mapUpdate_id default p.classInfoMap record hs
    · have hq : mapUpdate default id
          (out { p with classInfoMap := mapUpdate default id p.classInfoMap record }
            (derivedText p getPointeeType (mapGet default p.classInfoMap record))).classInfoMap
          record =
          (out { p with classInfoMap := mapUpdate default id p.classInfoMap record }
            (derivedText p getPointeeType (mapGet default p.classInfoMap record))).classInfoMap := by
        rw [out_classInfoMap]
        exact mapUpdate_id_idem default p.classInfoMap record
      have hcongr : ∀ (t : String) (ci : ClassInfo),
          derivedText
            (out { p with classInfoMap := mapUpdate default id p.classInfoMap record } t)
            getPointeeType ci = derivedText p getPointeeType ci :=
        fun t ci => derivedText_congr p _ getPointeeType ci (by rw [out_indent])
          (by rw [out_portConst])
      have hget : mapGet default
          (out { p with classInfoMap := mapUpdate default id p.classInfoMap record }
            (derivedText p getPointeeType (mapGet default p.classInfoMap record))).classInfoMap
          record = mapGet default p.classInfoMap record := by
        rw [out_classInfoMap]
        exact mapGet_mapUpdate_id default p.classInfoMap record hs
      rw [printDerivedMembers_of_present _ _ _ hq, hget, if_pos hnn, out_out, hcongr]

/-- Witness for the amended C7, on the `ClassInfo` with both overloads. -/
theorem synthesis_twice_witness :
    (printDerivedMembers (closePrinter orderedClassInfo) (fun _ => fooType)
      (some 1)).isSome = true ∧
    (printDerivedMembers (closePrinter orderedClassInfo) (fun _ => fooType) (some 1)).map
      (fun q => mapGet default q.classInfoMap 1) = some orderedClassInfo :=
  ⟨(synthesis_twice (closePrinter orderedClassInfo) (fun _ => fooType) 1 (by decide)).1
      (by decide),
   by decide⟩

/-- C8. At the close of an aggregate body the method `opCast(T : bool)`, whose
body is `return !_opExclaim();`, is sent to `out()` after the `opCmp` methods
if and only if the `ClassInfo` of the aggregate has `hasOpExclaim` set and
`hasBoolConv` not set; otherwise nothing is emitted for it.  The step returns
whenever the `opCmp` loop before it does, which it does when it can print the
related types it synthesizes a method for. -/
theorem opCast_synthesis (p : DPrinter) (getPointeeType : Nat → QualType) (record : Nat)
    (hs : mapSorted p.classInfoMap) :
    (((mapGet default p.classInfoMap record).hasOpExclaim = true ∧
        (mapGet default p.classInfoMap record).hasBoolConv = false) →
      printDerivedMembers p getPointeeType (some record) =
        (printOpCmps { p with classInfoMap := mapUpdate default id p.classInfoMap record }
              getPointeeType (mapGet default p.classInfoMap record).relations).map
          (fun q => out q
            (indentStr p ++ "bool opCast(T : bool)()"
              ++ (if p.portConst then " const" else "") ++ "\n"
              ++ indentStr p ++ "\x7b\n"
              ++ indentStr { p with indent := p.indent + 1 }
              ++ "return !_opExclaim();\n"
              ++ indentStr p ++ "\x7d\n"))) ∧
    (¬ ((mapGet default p.classInfoMap record).hasOpExclaim = true ∧
        (mapGet default p.classInfoMap record).hasBoolConv = false) →
      printDerivedMembers p getPointeeType (some record) =
        printOpCmps { p with classInfoMap := mapUpdate default id p.classInfoMap record }
          getPointeeType (mapGet default p.classInfoMap record).relations) ∧
    (pointeesNotNull getPointeeType (mapGet default p.classInfoMap record).relations = true →
      (printOpCmps { p with classInfoMap := mapUpdate default id p.classInfoMap record }
          getPointeeType (mapGet default p.classInfoMap record).relations).isSome = true ∧
      (printDerivedMembers p getPointeeType (some record)).isSome = true) := by
  have hget := mapGet_mapUpdate_id default p.classInfoMap record hs
  refine ⟨?_, ?_, ?_⟩
  · intro h
    unfold printDerivedMembers
    simp only [hget, h.1, h.2, Bool.not_false, Bool.and_self, if_true, printOpCmps_eq_out]
    by_cases hnn : pointeesNotNull getPointeeType
        (mapGet default p.classInfoMap record).relations = true
    · simp only [hnn, if_true, Option.map_some', printOpCast_eq_out, opCastText_out]
      rfl
    · simp only [hnn, Bool.false_eq_true, if_false, Option.map_none']
  · intro h
    unfold printDerivedMembers
    have hc : ((mapGet default p.classInfoMap record).hasOpExclaim &&
        !(mapGet default p.classInfoMap record).hasBoolConv) = false := by
      cases h1 : (mapGet default p.classInfoMap record).hasOpExclaim <;>
        cases h2 : (mapGet default p.classInfoMap record).hasBoolConv <;> simp_all
    simp only [hget, hc, Bool.false_eq_true, if_false, printOpCmps_eq_out]
    by_cases hnn : pointeesNotNull getPointeeType
        (mapGet default p.classInfoMap record).relations = true
    · simp only [hnn, if_true]
    · simp only [hnn, Bool.false_eq_true, if_false]
  · intro hnn
    constructor
    · rw [printOpCmps_eq_out, if_pos hnn]
      rfl
    · rw [printDerivedMembers_eq_out p getPointeeType record hs, if_pos hnn]
      rfl

/-- Witness for C8: with `hasOpExclaim` alone the method is emitted; with
`hasBoolConv` also set nothing is. -/
theorem opCast_synthesis_witness :
    (printDerivedMembers (closePrinter exclaimClassInfo) (fun _ => fooType)
        (some 1)).map DPrinter.outStack =
      some ["    bool opCast(T : bool)()\n    \x7b\n        return !_opExclaim();\n    \x7d\n"] ∧
    (printDerivedMembers (closePrinter exclaimBoolClassInfo) (fun _ => fooType)
      (some 1)).map DPrinter.outStack = some [""] :=
  ⟨(congrArg (Option.map DPrinter.outStack)
      ((opCast_synthesis (closePrinter exclaimClassInfo) (fun _ => fooType) 1 (by decide)).1
        (by decide))).trans (by decide),
   (congrArg (Option.map DPrinter.outStack)
      ((opCast_synthesis (closePrinter exclaimBoolClassInfo) (fun _ => fooType) 1
        (by decide)).2.1 (by decide))).trans (by decide)⟩

/-! ## Operator overloads -/

theorem printFuncBegin_less (p : DPrinter) (Decl : FunctionDecl) (tmpParams : String)
    (arg_become_this : Int)
    (himp : Decl.isImplicit = false)
    (hop : Decl.overloadedOperator = OverloadedOperatorKind.OO_Less)
    (hname : Decl.name ≠ "cpp2d_dummy_variadic") :
    (printFuncBegin p Decl tmpParams arg_become_this).2.2.classInfoMap =
      match (arg1 Decl).2 with
      | some r => setHasOpLess p.classInfoMap r (arg2 Decl).1.ptr
      | none => p.classInfoMap := by
  unfold printFuncBegin printOperatorName
  simp only [himp, hop, hname, printType_eq_out, out_out]
  cases (arg1 Decl).2 <;> simp [out_classInfoMap]

/-- C9 as stated fails: for `bool operator<(A const&, B const&)` the flag
`hasOpLess` is set in the `ClassInfo` of `A` (keyed by the type of `B`) but not
in the `ClassInfo` of `B`, whereas `operator==` sets `hasOpEqual` in both. -/
theorem opLess_not_set_on_second_operand :
    (mapGet default (mapGet default
      (printFuncBegin freshPrinter (freeOperatorAB OverloadedOperatorKind.OO_Less) "" 0).2.2.classInfoMap
      1).relations 202).hasOpLess = true ∧
    (mapGet default (mapGet default
      (printFuncBegin freshPrinter (freeOperatorAB OverloadedOperatorKind.OO_Less) "" 0).2.2.classInfoMap
      2).relations 201).hasOpLess = false ∧
    (mapGet default (mapGet default
      (printFuncBegin freshPrinter (freeOperatorAB OverloadedOperatorKind.OO_EqualEqual) "" 0).2.2.classInfoMap
      1).relations 202).hasOpEqual = true ∧
    (mapGet default (mapGet default
      (printFuncBegin freshPrinter (freeOperatorAB OverloadedOperatorKind.OO_EqualEqual) "" 0).2.2.classInfoMap
      2).relations 201).hasOpEqual = true := by
  refine ⟨?_, ?_, ?_, ?_⟩ <;> decide

theorem mapFind_mapUpdate_twice {β : Type} (dflt : β) (f g : β → β) (m : List (Nat × β))
    (k : Nat) :
    ∃ v, mapFind (mapUpdate dflt g (mapUpdate dflt f m k) k) k = some (g (f v)) := by
  induction m with
  | nil => exact ⟨dflt, by simp [mapUpdate, mapFind]⟩
  | cons e rest ih =>
    obtain ⟨ke, v⟩ := e
    by_cases h1 : k < ke
    · exact ⟨dflt, by simp [mapUpdate, h1, mapFind]⟩
    · by_cases h2 : k = ke
      · subst h2
        exact ⟨v, by simp [mapUpdate, mapFind]⟩
      · obtain ⟨w, hw⟩ := ih
        exact ⟨w, by simp only [mapUpdate, h1, h2, if_false, mapFind, hw]⟩

theorem hasOpEqual_setHasOpEqual (m : List (Nat × ClassInfo)) (record type : Nat) :
    (mapGet default (mapGet default (setHasOpEqual m record type) record).relations
      type).hasOpEqual = true := by
  unfold setHasOpEqual
  obtain ⟨v, hv⟩ := mapFind_mapUpdate_exists (default : ClassInfo)
    (fun ci =>
      { ci with
        relations := mapUpdate default (fun r => { r with hasOpEqual := true }) ci.relations
          type })
    m record
  obtain ⟨w, hw⟩ := mapFind_mapUpdate_exists (default : RelationInfo)
    (fun r => { r with hasOpEqual := true }) v.relations type
  simp only [mapGet, hv, Option.getD_some, hw]

theorem hasOpEqual_setHasOpEqual_twice (m : List (Nat × ClassInfo)) (a t2 b t1 : Nat) :
    (mapGet default (mapGet default (setHasOpEqual (setHasOpEqual m a t2) b t1) a).relations
      t2).hasOpEqual = true := by
  by_cases hab : a = b
  · subst hab
    unfold setHasOpEqual
    obtain ⟨v, hv⟩ := mapFind_mapUpdate_twice (default : ClassInfo)
      (fun ci =>
        { ci with
          relations := mapUpdate default (fun r => { r with hasOpEqual := true }) ci.relations
            t2 })
      (fun ci =>
        { ci with
          relations := mapUpdate default (fun r => { r with hasOpEqual := true }) ci.relations
            t1 })
      m a
    simp only [mapGet, hv, Option.getD_some]
    by_cases ht : t2 = t1
    · subst ht
      obtain ⟨w, hw⟩ := mapFind_mapUpdate_exists (default : RelationInfo)
        (fun r => { r with hasOpEqual := true })
        (mapUpdate default (fun r => { r with hasOpEqual := true }) v.relations t2) t2
      simp only [hw, Option.getD_some]
    · obtain ⟨w, hw⟩ := mapFind_mapUpdate_exists (default : RelationInfo)
        (fun r => { r with hasOpEqual := true }) v.relations t2
      rw [mapFind_mapUpdate_other _ _ _ _ _ ht, hw]
      rfl
  · have h := hasOpEqual_setHasOpEqual m a t2
    unfold mapGet at h ⊢
    have hfind : mapFind (setHasOpEqual (setHasOpEqual m a t2) b t1) a =
        mapFind (setHasOpEqual m a t2) a := by
      conv_lhs => unfold setHasOpEqual
      exact mapFind_mapUpdate_other _ _ _ _ _ hab
    rw [hfind]
    exact h

theorem printFuncBegin_equal (p : DPrinter) (Decl : FunctionDecl) (tmpParams : String)
    (arg_become_this : Int)
    (himp : Decl.isImplicit = false)
    (hop : Decl.overloadedOperator = OverloadedOperatorKind.OO_EqualEqual)
    (hname : Decl.name ≠ "cpp2d_dummy_variadic") :
    (printFuncBegin p Decl tmpParams arg_become_this).2.2.classInfoMap =
      match (arg1 Decl).2, (arg2 Decl).2 with
      | some r1, some r2 =>
        setHasOpEqual (setHasOpEqual p.classInfoMap r1 (arg2 Decl).1.ptr) r2 (arg1 Decl).1.ptr
      | some r1, none => setHasOpEqual p.classInfoMap r1 (arg2 Decl).1.ptr
      | none, some r2 => setHasOpEqual p.classInfoMap r2 (arg1 Decl).1.ptr
      | none, none => p.classInfoMap := by
  unfold printFuncBegin printOperatorName
  simp only [himp, hop, hname, printType_eq_out, out_out]
  cases (arg1 Decl).2 <;> cases (arg2 Decl).2 <;> simp [out_classInfoMap]

/-- C9, amended. When `printFuncBegin` renders an ordering overload
(`operator<`) whose first operand is class-typed, it sets `hasOpLess` in the
`ClassInfo` of the first operand's class, keyed by the second operand's type,
and leaves the `ClassInfo` of every other class as it was: in particular that
of the second operand's class when it is another class (when both operands
have the same class there is one `ClassInfo`, which gets the flag).  An
equality overload (`operator==`) sets `hasOpEqual` in the `ClassInfo` of the
class of each class-typed operand, keyed by the type of the other operand. -/
theorem opLess_sets_first_operand_only (p : DPrinter) (Decl : FunctionDecl)
    (tmpParams : String) (arg_become_this : Int) (a : Nat)
    (himp : Decl.isImplicit = false)
    (hop : Decl.overloadedOperator = OverloadedOperatorKind.OO_Less)
    (hname : Decl.name ≠ "cpp2d_dummy_variadic")
    (ha : (arg1 Decl).2 = some a) :
    (mapGet default (mapGet default
      (printFuncBegin p Decl tmpParams arg_become_this).2.2.classInfoMap a).relations
      (arg2 Decl).1.ptr).hasOpLess = true ∧
    (∀ b : Nat, b ≠ a →
      mapFind (printFuncBegin p Decl tmpParams arg_become_this).2.2.classInfoMap b =
        mapFind p.classInfoMap b) ∧
    (∀ b : Nat, (arg2 Decl).2 = some b → b ≠ a →
      mapFind (printFuncBegin p Decl tmpParams arg_become_this).2.2.classInfoMap b =
        mapFind p.classInfoMap b) ∧
    (∀ (equality : FunctionDecl) (tmpParamsEq : String) (arg_become_thisEq : Int),
      equality.isImplicit = false →
      equality.overloadedOperator = OverloadedOperatorKind.OO_EqualEqual →
      equality.name ≠ "cpp2d_dummy_variadic" →
      (∀ r1 : Nat, (arg1 equality).2 = some r1 →
        (mapGet default (mapGet default
          (printFuncBegin p equality tmpParamsEq arg_become_thisEq).2.2.classInfoMap r1).relations
          (arg2 equality).1.ptr).hasOpEqual = true) ∧
      (∀ r2 : Nat, (arg2 equality).2 = some r2 →
        (mapGet default (mapGet default
          (printFuncBegin p equality tmpParamsEq arg_become_thisEq).2.2.classInfoMap r2).relations
          (arg1 equality).1.ptr).hasOpEqual = true)) := by
  have hother : ∀ b : Nat, b ≠ a →
      mapFind (printFuncBegin p Decl tmpParams arg_become_this).2.2.classInfoMap b =
        mapFind p.classInfoMap b := by
    intro b hb
    rw [printFuncBegin_less p Decl tmpParams arg_become_this himp hop hname, ha]
    exact mapFind_mapUpdate_other _ _ _ _ _ hb
  refine ⟨?_, hother, fun b _ hb => hother b hb, ?_⟩
  · rw [printFuncBegin_less p Decl tmpParams arg_become_this himp hop hname, ha]
    simp only [setHasOpLess]
    obtain ⟨v, hv⟩ := mapFind_mapUpdate_exists (default : ClassInfo)
      (fun ci =>
        { ci with
          relations := mapUpdate default (fun r => { r with hasOpLess := true }) ci.relations
            (arg2 Decl).1.ptr })
      p.classInfoMap a
    obtain ⟨w, hw⟩ := mapFind_mapUpdate_exists (default : RelationInfo)
      (fun r => { r with hasOpLess := true }) v.relations (arg2 Decl).1.ptr
    simp only [mapGet, hv, Option.getD_some, hw]
  · intro equality tmpParamsEq arg_become_thisEq himpEq hopEq hnameEq
    have heq := printFuncBegin_equal p equality tmpParamsEq arg_become_thisEq himpEq hopEq
      hnameEq
    constructor
    · intro r1 h1
      rw [heq, h1]
      cases h2 : (arg2 equality).2 with
      | none => exact hasOpEqual_setHasOpEqual _ _ _
      | some r2 => exact hasOpEqual_setHasOpEqual_twice _ _ _ _ _
    · intro r2 h2
      rw [heq, h2]
      cases h1 : (arg1 equality).2 with
      | none => exact hasOpEqual_setHasOpEqual _ _ _
      | some r1 => exact hasOpEqual_setHasOpEqual _ _ _

/-- Witness for the amended C9, on `bool operator<(A const&, B const&)` and
`bool operator==(A const&, B const&)`; for `bool operator<(A const&, A const&)`
the one `ClassInfo` of `A` gets the flag. -/
theorem opLess_sets_first_operand_only_witness :
    (mapGet default (mapGet default
      (printFuncBegin freshPrinter (freeOperatorAB OverloadedOperatorKind.OO_Less) "" 0).2.2.classInfoMap
      1).relations 202).hasOpLess = true ∧
    mapFind
      (printFuncBegin freshPrinter (freeOperatorAB OverloadedOperatorKind.OO_Less) "" 0).2.2.classInfoMap
      2 = none ∧
    (mapGet default (mapGet default
      (printFuncBegin freshPrinter (freeOperatorAB OverloadedOperatorKind.OO_EqualEqual) "" 0).2.2.classInfoMap
      2).relations 201).hasOpEqual = true ∧
    (mapGet default (mapGet default
      (printFuncBegin freshPrinter (freeOperatorAA OverloadedOperatorKind.OO_Less) "" 0).2.2.classInfoMap
      1).relations 201).hasOpLess = true :=
  ⟨(opLess_sets_first_operand_only freshPrinter (freeOperatorAB OverloadedOperatorKind.OO_Less)
      "" 0 1 rfl rfl (by decide) rfl).1,
   ((opLess_sets_first_operand_only freshPrinter (freeOperatorAB OverloadedOperatorKind.OO_Less)
      "" 0 1 rfl rfl (by decide) rfl).2.2.1 2 rfl (by decide)).trans rfl,
   ((opLess_sets_first_operand_only freshPrinter (freeOperatorAB OverloadedOperatorKind.OO_Less)
      "" 0 1 rfl rfl (by decide) rfl).2.2.2
      (freeOperatorAB OverloadedOperatorKind.OO_EqualEqual) "" 0 rfl rfl (by decide)).2 2 rfl,
   (opLess_sets_first_operand_only freshPrinter (freeOperatorAA OverloadedOperatorKind.OO_Less)
      "" 0 1 rfl rfl (by decide) rfl).1⟩

/-- C10. For an overloaded operator that `printFuncBegin` does not name
explicitly, with two operands and a spelling that ends in `=` (these are
exactly `+= -= *= /= %= ^= &= |= <<= >>=`), `printFuncBegin` sends the method
name `opOpAssign` to `out()` after the return type and sets `tmpParams` to
`string op: "S"`, where `S` is the spelling without its trailing `=`. -/
theorem compound_assign_opOpAssign (p : DPrinter) (Decl : FunctionDecl) (tmpParams : String)
    (arg_become_this : Int)
    (himp : Decl.isImplicit = false)
    (hname : Decl.name ≠ "cpp2d_dummy_variadic")
    (hnone : Decl.overloadedOperator ≠ OverloadedOperatorKind.OO_None)
    (hded : Decl.overloadedOperator ∉ dedicatedOps)
    (hargs : nbArgs Decl arg_become_this = 2)
    (hspell : (getOperatorSpelling Decl.overloadedOperator).data.getLast? = some '=') :
    Decl.overloadedOperator ∈ compoundAssignOps ∧
    (∃ S : String, S ++ "=" = getOperatorSpelling Decl.overloadedOperator ∧
      printFuncBegin p Decl tmpParams arg_become_this =
        (true, "string op: \"" ++ S ++ "\"",
          out (out (printType p Decl.returnType) " ") "opOpAssign")) := by
  have hmem : Decl.overloadedOperator ∈ compoundAssignOps := by
    revert hnone hded hspell
    cases Decl.overloadedOperator <;> decide
  refine ⟨hmem, dropLastChar (getOperatorSpelling Decl.overloadedOperator), ?_, ?_⟩
  · revert hmem
    cases Decl.overloadedOperator <;> decide
  · unfold printFuncBegin printOperatorName
    simp only [compoundAssignOps, List.mem_cons, List.mem_singleton, List.mem_nil_iff,
      or_false] at hmem
    rcases hmem with h | h | h | h | h | h | h | h | h | h <;>
      simp [himp, hname, h, hargs, getOperatorSpelling]

/-- Witness for C10: `+=` gives `opOpAssign` with `string op: "+"`, and `<<=`
gives `string op: "<<"`. -/
theorem compound_assign_opOpAssign_witness :
    (∃ S : String, S ++ "=" = "+=" ∧
      printFuncBegin freshPrinter (freeOperatorAB OverloadedOperatorKind.OO_PlusEqual) "" 0 =
        (true, "string op: \"" ++ S ++ "\"",
          out (out (printType freshPrinter boolType) " ") "opOpAssign")) ∧
    (printFuncBegin freshPrinter (freeOperatorAB OverloadedOperatorKind.OO_PlusEqual) "" 0).2.1
      = "string op: \"+\"" ∧
    (printFuncBegin freshPrinter (freeOperatorAB OverloadedOperatorKind.OO_LessLessEqual) "" 0).2.1
      = "string op: \"<<\"" ∧
    (printFuncBegin freshPrinter
      (freeOperatorAB OverloadedOperatorKind.OO_PlusEqual) "" 0).2.2.outStack
      = ["bool opOpAssign"] :=
  ⟨(compound_assign_opOpAssign freshPrinter (freeOperatorAB OverloadedOperatorKind.OO_PlusEqual)
      "" 0 rfl (by decide) (by decide) (by decide) (by decide) (by decide)).2,
   by decide, by decide, by decide⟩

/-! ## Reserved words and right-hand operator variants -/

/-- C12. `mangleName` appends `_` to a name that is exactly one of the reserved
words `version`, `out`, `in`, `ref`, `debug`, `function`, `Exception`, and
returns every other name unchanged. -/
theorem mangleName_reserved (name : String) :
    (name ∈ reservedWords → mangleName name = name ++ "_") ∧
    (name ∉ reservedWords → mangleName name = name) := by
  constructor
  · intro h
    simp only [reservedWords, List.mem_cons, List.mem_singleton, List.mem_nil_iff,
      or_false] at h
    rcases h with rfl | rfl | rfl | rfl | rfl | rfl | rfl <;> decide
  · intro h
    simp only [reservedWords, List.mem_cons, List.mem_singleton, List.mem_nil_iff,
      or_false, not_or] at h
    obtain ⟨h1, h2, h3, h4, h5, h6, h7⟩ := h
    simp only [mangleName, h1, h2, h3, h4, h5, h6, h7, if_false]

/-- Witness for C12: `out` is escaped; `Out` (other case) and `output` (a name
that contains a reserved word) are not. -/
theorem mangleName_reserved_witness :
    mangleName "out" = "out_" ∧ mangleName "Out" = "Out" ∧ mangleName "output" = "output" :=
  ⟨((mangleName_reserved "out").1 (by decide)).trans (by decide),
   (mangleName_reserved "Out").2 (by decide),
   (mangleName_reserved "output").2 (by decide)⟩

/-- C11 fails on the code for the compound assignments: for
`operator+=(A const&, B const&)` the right-hand variant (`arg_become_this = 1`)
gets the same method name `opOpAssign` as the left-hand one, whereas for
`operator+` the right-hand variant gets `opBinaryRight`. -/
theorem opOpAssign_right_variant_same_name :
    (printFuncBegin freshPrinter (freeOperatorAB OverloadedOperatorKind.OO_PlusEqual)
      "" 1).2.2.outStack = ["bool opOpAssign"] ∧
    (printFuncBegin freshPrinter (freeOperatorAB OverloadedOperatorKind.OO_PlusEqual)
      "" 0).2.2.outStack = ["bool opOpAssign"] ∧
    (printFuncBegin freshPrinter (freeOperatorAB OverloadedOperatorKind.OO_Plus)
      "" 1).2.2.outStack = ["bool opBinaryRight"] ∧
    (printFuncBegin freshPrinter (freeOperatorAB OverloadedOperatorKind.OO_Plus)
      "" 0).2.2.outStack = ["bool opBinary"] := by
  refine ⟨?_, ?_, ?_, ?_⟩ <;> decide

/-! ## Imports -/

theorem lookup_mem_type2type (l : List (String × String)) (k v : String)
    (h : l.lookup k = some v) : (k, v) ∈ l := by
  induction l with
  | nil => simp [List.lookup] at h
  | cons e rest ih =>
    obtain ⟨k', v'⟩ := e
    simp only [List.lookup] at h
    by_cases hk : k = k'
    · subst hk
      simp at h
      subst h
      exact List.mem_cons_self _ _
    · have hb : (k == k') = false := by simpa using hk
      rw [hb] at h
      exact List.mem_cons_of_mem _ (ih h)

theorem type2type_remapSplitOk : ∀ e ∈ type2type, remapSplitOk e.2 = true := by decide

/-- C13. For a declaration whose canonical qualified name is a key of
`type2type`, `mangleType` returns the mapped name's text after its last dot,
whatever the include set is, and records the qualified name under the mapped
name's text before the last dot exactly when that text is not empty; otherwise
the import set is unchanged. -/
theorem mangleType_remap (p : DPrinter) (decl : NamedDecl) (dQualType : String)
    (h : type2type.lookup (qualName decl) = some dQualType) :
    (beforeLastDot dQualType ≠ "" →
      ∀ includes : List String,
        mangleType { p with includesInFile := includes } decl =
          some (afterLastDot dQualType,
            addExternInclude { p with includesInFile := includes }
              (beforeLastDot dQualType) (qualName decl))) ∧
    (beforeLastDot dQualType = "" →
      ∀ includes : List String,
        mangleType { p with includesInFile := includes } decl =
          some (afterLastDot dQualType, { p with includesInFile := includes })) := by
  have hok := type2type_remapSplitOk _ (lookup_mem_type2type _ _ _ h)
  simp only [remapSplitOk, Bool.and_eq_true, decide_eq_true_eq] at hok
  obtain ⟨h1, h2⟩ := hok
  constructor
  · intro hne includes
    simp only [mangleType, h, h1, h2, hne, ne_eq, not_false_eq_true, if_true, addExternInclude]
  · intro he includes
    simp only [mangleType, h, h1, h2, he, ne_eq, not_true_eq_false, if_false]

/-- Witness for C13: `std::vector` yields `vector` with `std::vector` recorded
under the module `cpp_std`; `std::string` yields `string` and leaves the import
set unchanged. -/
theorem mangleType_remap_witness :
    mangleType freshPrinter ⟨"vector", some "std::vector", none⟩ =
      some ("vector", { freshPrinter with externIncludes := [("cpp_std", ["std::vector"])] }) ∧
    mangleType freshPrinter ⟨"string", some "std::string", none⟩ =
      some ("string", freshPrinter) :=
  ⟨((mangleType_remap freshPrinter ⟨"vector", some "std::vector", none⟩ "cpp_std.vector"
      (by decide)).1 (by decide) []).trans (by decide),
   ((mangleType_remap freshPrinter ⟨"string", some "std::string", none⟩ "string"
      (by decide)).2 (by decide) []).trans (by decide)⟩

/-- C14 fails on the code: the include `list` is a suffix of the path
`/opt/mylist/include/list` and begins right after a `/`, yet `includeFile`
records nothing, because `find` reports the earlier occurrence inside `mylist`;
when the include occurs only once, as in `/opt/include/list`, it is recorded. -/
theorem includeFile_first_occurrence :
    findPos "/opt/mylist/include/list" "list" = 7 ∧
    (includeFile { freshPrinter with includesInFile := ["list"] }
      "/opt/mylist/include/list" "List").externIncludes = [] ∧
    (includeFile { freshPrinter with includesInFile := ["list"] }
      "/opt/include/list" "List").externIncludes = [("list", ["List"])] := by
  refine ⟨?_, ?_, ?_⟩ <;> decide

/-- C15 fails on the code: the matched include `my.hash.h` ends in `.h`, yet
the module recorded for it keeps the extension, because `find(".h")` reports
the earlier occurrence in `.hash`; `Foo/Bar.hpp` is recorded as `foo.bar`. -/
theorem includeFile_extension_kept :
    findPos "my.hash.h" ".h" = 2 ∧
    (includeFile { freshPrinter with includesInFile := ["my.hash.h"] }
      "src/my.hash.h" "Hash").externIncludes = [("my.hash.h", ["Hash"])] ∧
    (includeFile { freshPrinter with includesInFile := ["Foo/Bar.hpp"] }
      "/x/Foo/Bar.hpp" "Bar").externIncludes = [("foo.bar", ["Bar"])] := by
  refine ⟨?_, ?_, ?_⟩ <;> decide

theorem mem_setInsert (set : List String) (x y : String) :
    y ∈ setInsert set x ↔ y = x ∨ y ∈ set := by
  induction set with
  | nil => simp [setInsert]
  | cons z zs ih =>
    unfold setInsert
    by_cases h1 : x < z
    · simp [h1]
    · by_cases h2 : x = z
      · subst h2
        simp [h1]
      · simp only [h1, h2, if_false, List.mem_cons, ih]
        tauto

theorem setInsert_sorted (set : List String) (x : String) (hs : setSorted set) :
    setSorted (setInsert set x) := by
  induction set with
  | nil => simp [setInsert]
  | cons z zs ih =>
    have hs' := List.pairwise_cons.1 hs
    unfold setInsert
    by_cases h1 : x < z
    · simp only [h1, if_true]
      refine List.pairwise_cons.2 ⟨?_, hs⟩
      intro y hy
      rcases List.mem_cons.1 hy with rfl | hy'
      · exact h1
      · exact lt_trans h1 (hs'.1 y hy')
    · by_cases h2 : x = z
      · subst h2
        simp only [h1, if_false, if_true]
        exact hs
      · simp only [h1, h2, if_false]
        refine List.pairwise_cons.2 ⟨?_, ih hs'.2⟩
        intro y hy
        rcases (mem_setInsert zs x y).1 hy with rfl | hy'
        · exact lt_of_le_of_ne (not_lt.1 h1) (Ne.symm h2)
        · exact hs'.1 y hy'

theorem count_eq_one_of_sorted (set : List String) (x : String) (hs : setSorted set)
    (hx : x ∈ set) : set.count x = 1 := by
  have hnd : set.Nodup := hs.imp (fun h => ne_of_lt h)
  exact List.count_eq_one_of_mem hnd hx

theorem importsFind_eq_none_of_lt (imports : List (String × List String)) (module : String)
    (h : ∀ e ∈ imports, module < e.1) : importsFind imports module = none := by
  induction imports with
  | nil => rfl
  | cons e rest ih =>
    obtain ⟨k, set⟩ := e
    have h1 : module < k := h (k, set) (List.mem_cons_self _ _)
    have hne : ¬ module = k := ne_of_lt h1
    simp only [importsFind, hne, if_false]
    exact ih (fun e' he' => h e' (List.mem_cons_of_mem _ he'))

theorem importsFind_recordImport (imports : List (String × List String))
    (module symbol : String) (hs : imports.Pairwise (fun a b => a.1 < b.1)) :
    importsFind (recordImport imports module symbol) module =
      some (setInsert (importedSymbols imports module) symbol) := by
  induction imports with
  | nil => simp [recordImport, importsFind, importedSymbols, setInsert]
  | cons e rest ih =>
    obtain ⟨k, set⟩ := e
    have hs' := List.pairwise_cons.1 hs
    unfold recordImport
    by_cases h1 : module < k
    · have hnone : importsFind rest module = none :=
        importsFind_eq_none_of_lt rest module
          (fun e' he' => lt_trans h1 (hs'.1 e' he'))
      have hne : ¬ module = k := ne_of_lt h1
      simp [h1, importsFind, importedSymbols, hne, hnone, setInsert]
    · by_cases h2 : module = k
      · subst h2
        simp [importsFind, importedSymbols]
      · simp only [h1, h2, if_false, importsFind, importedSymbols]
        have := ih hs'.2
        simpa [importedSymbols] using this

theorem mem_keys_recordImport (imports : List (String × List String))
    (module symbol k : String) :
    k ∈ (recordImport imports module symbol).map Prod.fst ↔
      k = module ∨ k ∈ imports.map Prod.fst := by
  induction imports with
  | nil => simp [recordImport]
  | cons e rest ih =>
    obtain ⟨k', set⟩ := e
    unfold recordImport
    by_cases h1 : module < k'
    · simp [h1]
    · by_cases h2 : module = k'
      · subst h2
        simp [h1]
      · simp only [h1, h2, if_false, List.map_cons, List.mem_cons, ih]
        tauto

theorem mem_recordImport_sets (imports : List (String × List String))
    (module symbol : String) (hs : ∀ e ∈ imports, setSorted e.2) :
    ∀ e ∈ recordImport imports module symbol, setSorted e.2 := by
  induction imports with
  | nil =>
    intro e he
    simp only [recordImport, List.mem_singleton] at he
    subst he
    simp
  | cons e' rest ih =>
    obtain ⟨k', set⟩ := e'
    have hhead : setSorted set := hs (k', set) (List.mem_cons_self _ _)
    have htail : ∀ e ∈ rest, setSorted e.2 := fun e he => hs e (List.mem_cons_of_mem _ he)
    unfold recordImport
    by_cases h1 : module < k'
    · simp only [h1, if_true]
      intro e he
      rcases List.mem_cons.1 he with rfl | he'
      · simp
      · exact hs e he'
    · by_cases h2 : module = k'
      · subst h2
        simp only [h1, if_false, if_true]
        intro e he
        rcases List.mem_cons.1 he with rfl | he'
        · exact setInsert_sorted set symbol hhead
        · exact htail e he'
      · simp only [h1, h2, if_false]
        intro e he
        rcases List.mem_cons.1 he with rfl | he'
        · exact hhead
        · exact ih htail e he'

theorem recordImport_keys_sorted (imports : List (String × List String))
    (module symbol : String) (hs : imports.Pairwise (fun a b => a.1 < b.1)) :
    (recordImport imports module symbol).Pairwise (fun a b => a.1 < b.1) := by
  induction imports with
  | nil => simp [recordImport]
  | cons e rest ih =>
    obtain ⟨k, set⟩ := e
    have hs' := List.pairwise_cons.1 hs
    unfold recordImport
    by_cases h1 : module < k
    · simp only [h1, if_true]
      refine List.pairwise_cons.2 ⟨?_, hs⟩
      intro e' he'
      rcases List.mem_cons.1 he' with rfl | he''
      · exact h1
      · exact lt_trans h1 (hs'.1 e' he'')
    · by_cases h2 : module = k
      · subst h2
        simp only [h1, if_false, if_true]
        refine List.pairwise_cons.2 ⟨?_, hs'.2⟩
        intro e' he'
        exact hs'.1 e' he'
      · simp only [h1, h2, if_false]
        refine List.pairwise_cons.2 ⟨?_, ih hs'.2⟩
        intro e' he'
        have hk : e'.1 ∈ (recordImport rest module symbol).map Prod.fst :=
          List.mem_map_of_mem _ he'
        rcases (mem_keys_recordImport rest module symbol e'.1).1 hk with h | h
        · rw [h]
          exact lt_of_le_of_ne (not_lt.1 h1) (Ne.symm h2)
        · obtain ⟨e'', he'', hk''⟩ := List.mem_map.1 h
          rw [← hk'']
          exact hs'.1 e'' he''

theorem recordImport_sorted (imports : List (String × List String))
    (module symbol : String) (hs : importsSorted imports) :
    importsSorted (recordImport imports module symbol) :=
  ⟨recordImport_keys_sorted imports module symbol hs.1,
    mem_recordImport_sets imports module symbol hs.2⟩

theorem importedSymbols_sorted (imports : List (String × List String)) (module : String)
    (hs : importsSorted imports) : setSorted (importedSymbols imports module) := by
  have hsets := hs.2
  clear hs
  induction imports with
  | nil => simp [importedSymbols, importsFind]
  | cons e rest ih =>
    obtain ⟨k, set⟩ := e
    by_cases h : module = k
    · simp only [importedSymbols, importsFind, h, if_true, Option.getD_some]
      exact hsets (k, set) (List.mem_cons_self _ _)
    · simp only [importedSymbols, importsFind, h, if_false]
      exact ih (fun e he => hsets e (List.mem_cons_of_mem _ he))

theorem recordAll_spec (module : String) (symbols : List String) :
    ∀ imports : List (String × List String), importsSorted imports →
      importsSorted (recordAll imports module symbols) ∧
      (∀ s, s ∈ importedSymbols (recordAll imports module symbols) module ↔
        (s ∈ symbols ∨ s ∈ importedSymbols imports module)) ∧
      (∀ k, k ∈ (recordAll imports module symbols).map Prod.fst ↔
        ((k = module ∧ symbols ≠ []) ∨ k ∈ imports.map Prod.fst)) := by
  induction symbols with
  | nil =>
    intro imports hs
    exact ⟨hs, fun s => by simp [recordAll], fun k => by simp [recordAll]⟩
  | cons x xs ih =>
    intro imports hs
    have hs1 := recordImport_sorted imports module x hs
    obtain ⟨r1, r2, r3⟩ := ih (recordImport imports module x) hs1
    have hstep : recordAll imports module (x :: xs) =
        recordAll (recordImport imports module x) module xs := rfl
    rw [hstep]
    refine ⟨r1, ?_, ?_⟩
    · intro s
      rw [r2 s]
      have hfind := importsFind_recordImport imports module x hs.1
      have : importedSymbols (recordImport imports module x) module =
          setInsert (importedSymbols imports module) x := by
        simp [importedSymbols, hfind]
      rw [this, mem_setInsert]
      simp only [List.mem_cons]
      tauto
    · intro k
      rw [r3 k, mem_keys_recordImport]
      by_cases hxs : xs = []
      · simp [hxs]
      · simp [hxs]

theorem addExternIncludes_externIncludes (module : String) (symbols : List String) :
    ∀ p : DPrinter, (addExternIncludes p module symbols).externIncludes =
      recordAll p.externIncludes module symbols := by
  induction symbols with
  | nil => intro p; rfl
  | cons x xs ih =>
    intro p
    have h : addExternIncludes p module (x :: xs) =
        addExternIncludes (addExternInclude p module x) module xs := rfl
    rw [h, ih]
    rfl

theorem includeLoop_cases (externIncludes : List (String × List String))
    (declInc typeName : String) (includes : List String) :
    includeLoop externIncludes declInc typeName includes = externIncludes ∨
    ∃ inc ∈ includes, includeLoop externIncludes declInc typeName includes =
      recordImport externIncludes (moduleOfInclude inc) typeName := by
  induction includes with
  | nil => exact Or.inl rfl
  | cons inc rest ih =>
    unfold includeLoop
    by_cases h : includeMatches declInc inc = true
    · simp only [h, if_true]
      exact Or.inr ⟨inc, List.mem_cons_self _ _, rfl⟩
    · simp only [h, if_false]
      rcases ih with h1 | ⟨i, hi, h2⟩
      · exact Or.inl h1
      · exact Or.inr ⟨i, List.mem_cons_of_mem _ hi, h2⟩

theorem includeFile_cases (p : DPrinter) (declInc typeName : String) :
    includeFile p declInc typeName = p ∨
    ∃ inc ∈ p.includesInFile,
      includeFile p declInc typeName = addExternInclude p (moduleOfInclude inc) typeName := by
  unfold includeFile
  by_cases hm : p.isInMacro ≠ 0
  · left
    rw [if_pos hm]
  · rw [if_neg hm]
    rcases includeLoop_cases p.externIncludes declInc typeName p.includesInFile with h | h
    · left
      rw [h]
    · obtain ⟨inc, hinc, h⟩ := h
      right
      exact ⟨inc, hinc, by rw [h]; rfl⟩

/-- C16. Whatever the import set holds, recording two symbols `a` and `b` for one
module, in any order and any number of times each (`symbols` is the sequence of
recordings), leaves exactly one entry for the module, and its set holds each of
the two symbols exactly once.  Every
recording `includeFile` makes is one such `addExternInclude` recording, under
the module name of the matched include. -/
theorem import_dedup (p : DPrinter) (module a b : String) (symbols : List String)
    (hs : importsSorted p.externIncludes) (ha : a ∈ symbols) (hb : b ∈ symbols) :
    ((addExternIncludes p module symbols).externIncludes.map Prod.fst).count module = 1 ∧
    (importedSymbols (addExternIncludes p module symbols).externIncludes module).count a = 1 ∧
    (importedSymbols (addExternIncludes p module symbols).externIncludes module).count b = 1 ∧
    (∀ declInc typeName : String,
      includeFile p declInc typeName = p ∨
      ∃ inc ∈ p.includesInFile,
        includeFile p declInc typeName = addExternInclude p (moduleOfInclude inc) typeName) := by
  obtain ⟨r1, r2, r3⟩ := recordAll_spec module symbols p.externIncludes hs
  rw [addExternIncludes_externIncludes]
  have hne : symbols ≠ [] := List.ne_nil_of_mem ha
  have hsorted := importedSymbols_sorted _ module r1
  refine ⟨?_, ?_, ?_, ?_⟩
  · have hnd : ((recordAll p.externIncludes module symbols).map Prod.fst).Nodup := by
      have := List.pairwise_map.2 r1.1
      exact this.imp (fun h => ne_of_lt h)
    exact List.count_eq_one_of_mem hnd ((r3 module).2 (Or.inl ⟨rfl, hne⟩))
  · exact count_eq_one_of_sorted _ a hsorted ((r2 a).2 (Or.inl ha))
  · exact count_eq_one_of_sorted _ b hsorted ((r2 b).2 (Or.inl hb))
  · exact fun declInc typeName => includeFile_cases p declInc typeName

/-- Witness for C16: `b`, `a`, `b` recorded for the module `m`, next to an
entry of another module, give the single entry `m` with `a` and `b` once each. -/
theorem import_dedup_witness :
    (addExternIncludes { freshPrinter with externIncludes := [("k", ["x"])] } "m"
      ["b", "a", "b"]).externIncludes = [("k", ["x"]), ("m", ["a", "b"])] ∧
    ((addExternIncludes { freshPrinter with externIncludes := [("k", ["x"])] } "m"
      ["b", "a", "b"]).externIncludes.map Prod.fst).count "m" = 1 :=
  ⟨by simp +decide [addExternIncludes, addExternInclude, recordImport, setInsert, freshPrinter],
   (import_dedup { freshPrinter with externIncludes := [("k", ["x"])] } "m" "a" "b"
      ["b", "a", "b"]
      ⟨List.pairwise_singleton _ _, fun e he => by
        rw [List.mem_singleton.1 he]
        exact List.pairwise_singleton _ _⟩
      (by decide) (by decide)).1⟩

/-! ## Comments between statements -/

theorem splitFrom_no_newline (s : List Char) :
    ∀ cur : List Char, '\n' ∉ s → splitFrom cur s = [trim (String.mk (cur ++ s))] := by
  induction s with
  | nil => intro cur _; simp [splitFrom]
  | cons c cs ih =>
    intro cur h
    have hc : ¬ c = '\n' := fun e => h (by rw [e]; exact List.mem_cons_self _ _)
    have hcs : '\n' ∉ cs := fun e => h (List.mem_cons_of_mem _ e)
    simp only [splitFrom, hc, if_false]
    rw [ih (cur ++ [c]) hcs]
    simp

theorem splitFrom_append (pre post : List Char) :
    ∀ cur : List Char,
      splitFrom cur (pre ++ '\n' :: post) = splitFrom cur pre ++ splitFrom [] post := by
  induction pre with
  | nil => intro cur; simp [splitFrom]
  | cons c cs ih =>
    intro cur
    by_cases hc : c = '\n'
    · simp [splitFrom, hc, ih]
    · simp [splitFrom, hc, ih]

/-- C20 as stated fails: the span ` /* note */ ` between two statements of one
line splits into the single line `/* note */`, which is not empty and is the
line dropped; only a line break is written and the comment is lost. -/
theorem printStmtComment_drops_comment :
    split " /* note */ " = ["/* note */"] ∧
    (split " /* note */ ").dropLast = [] ∧
    (printStmtComment bodyPrinter (some " /* note */ ")).outStack = ["\n"] ∧
    (printStmtComment bodyPrinter (some "\n\t// a\n\t// b")).outStack = [" \n    // a\n"] := by
  refine ⟨?_, ?_, ?_, ?_⟩ <;> decide

/-- C20, amended. `printStmtComment` drops the last of the trimmed lines without
testing it: for a span whose text after the last line break is `last`, the
dropped line is `trim last` and the lines printed are those of the text before
that line break; for a span without a line break the dropped line is the whole
trimmed span and no line is printed.  The dropped line is empty only when
`trim last` is. -/
theorem printStmtComment_drops_last (p : DPrinter) (pre last : List Char)
    (h : '\n' ∉ last) :
    split (String.mk (pre ++ '\n' :: last)) =
      split (String.mk pre) ++ [trim (String.mk last)] ∧
    printStmtComment p (some (String.mk (pre ++ '\n' :: last))) =
      printCommentLines p (split (String.mk pre)) ∧
    split (String.mk last) = [trim (String.mk last)] ∧
    printStmtComment p (some (String.mk last)) = out p endl := by
  have h1 : split (String.mk (pre ++ '\n' :: last)) =
      split (String.mk pre) ++ [trim (String.mk last)] := by
    simp only [split]
    rw [splitFrom_append, splitFrom_no_newline last [] h]
    simp
  have h2 : split (String.mk last) = [trim (String.mk last)] := by
    simp only [split]
    rw [splitFrom_no_newline last [] h]
    simp
  refine ⟨h1, ?_, h2, ?_⟩
  · simp only [printStmtComment, h1, List.dropLast_concat]
  · simp only [printStmtComment, h2]
    rfl

/-- Witness for the amended C20: of the span `// a`, line break, `// b` the
line `// b` is dropped and `// a` is printed. -/
theorem printStmtComment_drops_last_witness :
    split "// a\n// b" = split "// a" ++ [trim "// b"] ∧
    trim "// b" = "// b" ∧
    (printStmtComment bodyPrinter (some "// a\n// b")).outStack = [" // a\n"] :=
  ⟨(printStmtComment_drops_last bodyPrinter "// a".data "// b".data (by decide)).1,
   by decide, by decide⟩

/-! ## Templates -/

theorem out_renamedIdentifiers (p : DPrinter) (s : String) :
    (out p s).renamedIdentifiers = p.renamedIdentifiers := by
  unfold out
  split
  · split <;> rfl
  · rfl

theorem out_renameIdentifiers (p : DPrinter) (s : String) :
    (out p s).renameIdentifiers = p.renameIdentifiers := by
  unfold out
  split
  · split <;> rfl
  · rfl

theorem templateParamText_congr (p q : DPrinter) (param : TemplateParam)
    (h1 : q.renamedIdentifiers = p.renamedIdentifiers)
    (h2 : q.renameIdentifiers = p.renameIdentifiers) (h3 : q.portConst = p.portConst) :
    templateParamText q param = templateParamText p param := by
  cases param with
  | TemplateTypeParm identifier d =>
    cases identifier <;> simp [templateParamText, h1, h2]
  | NonTypeTemplateParm type identifier d =>
    cases identifier <;> simp [templateParamText, h3]
  | TemplateTemplateParm text identifier d => rfl

theorem templateArgumentText_congr (p q : DPrinter) (ta : TemplateArgument)
    (h3 : q.portConst = p.portConst) :
    templateArgumentText q ta = templateArgumentText p ta := by
  cases ta <;> simp [templateArgumentText, h3]

theorem defaultArgumentText_congr (p q : DPrinter) (param : TemplateParam)
    (h3 : q.portConst = p.portConst) :
    defaultArgumentText q param = defaultArgumentText p param := by
  cases param with
  | TemplateTypeParm identifier d => cases d <;> simp [defaultArgumentText, h3]
  | NonTypeTemplateParm type identifier d => cases d <;> simp [defaultArgumentText]
  | TemplateTemplateParm text identifier d =>
    cases d <;> simp [defaultArgumentText, templateArgumentText_congr p q _ h3]

theorem TraverseTemplateParam_eq_out (p : DPrinter) (param : TemplateParam) :
    TraverseTemplateParam p param = out p (templateParamText p param) := by
  cases param with
  | TemplateTypeParm identifier d =>
    cases identifier with
    | none => simp [TraverseTemplateParam, TraverseTemplateTypeParmDecl, templateParamText,
        out_empty]
    | some info =>
      simp only [TraverseTemplateParam, TraverseTemplateTypeParmDecl, templateParamText]
      cases mapFind p.renamedIdentifiers info.ptr with
      | none => rfl
      | some renamed => cases p.renameIdentifiers <;> simp
  | NonTypeTemplateParm type identifier d =>
    cases identifier with
    | none =>
      simp [TraverseTemplateParam, TraverseNonTypeTemplateParmDecl, templateParamText,
        printType_eq_out, out_out]
    | some info =>
      simp [TraverseTemplateParam, TraverseNonTypeTemplateParmDecl, templateParamText,
        printType_eq_out, out_out, String.append_assoc]
  | TemplateTemplateParm text identifier d => rfl

theorem printTemplateArgument_eq_out (p : DPrinter) (ta : TemplateArgument) :
    printTemplateArgument p ta = out p (templateArgumentText p ta) := by
  cases ta <;>
    simp [printTemplateArgument, templateArgumentText, out_empty, printType_eq_out]

theorem printDefaultArgument_eq_out (p : DPrinter) (param : TemplateParam) :
    printDefaultArgument p param = out p (defaultArgumentText p param) := by
  cases param with
  | TemplateTypeParm identifier d =>
    cases d <;>
      simp [printDefaultArgument, defaultArgumentText, out_empty, printType_eq_out, out_out,
        out_portConst]
  | NonTypeTemplateParm type identifier d =>
    cases d <;> simp [printDefaultArgument, defaultArgumentText, out_empty, out_out]
  | TemplateTemplateParm text identifier d =>
    cases d with
    | none => simp [printDefaultArgument, defaultArgumentText, out_empty]
    | some ta =>
      simp only [printDefaultArgument, defaultArgumentText, printTemplateArgument_eq_out,
        out_out]
      rw [templateArgumentText_congr p (out p " = ") ta (out_portConst _ _)]

theorem printTemplateParameterLoop_eq_out (tmpParams : List TemplateParam) :
    ∀ (p : DPrinter) (first : Bool),
      printTemplateParameterLoop p first tmpParams =
        out p (joinItems first (tmpParams.map
          (fun param => templateParamText p param ++ defaultArgumentText p param))) := by
  induction tmpParams with
  | nil => intro p first; simp [printTemplateParameterLoop, joinItems, out_empty]
  | cons param rest ih =>
    intro p first
    have hcongr : ∀ (s : String) (prm : TemplateParam),
        templateParamText (out p s) prm ++ defaultArgumentText (out p s) prm =
          templateParamText p prm ++ defaultArgumentText p prm := by
      intro s prm
      rw [templateParamText_congr p (out p s) prm (out_renamedIdentifiers _ _)
        (out_renameIdentifiers _ _) (out_portConst _ _),
        defaultArgumentText_congr p (out p s) prm (out_portConst _ _)]
    cases first
    · simp only [printTemplateParameterLoop, Spliter.split, Bool.false_eq_true, if_false,
        TraverseTemplateParam_eq_out, printDefaultArgument_eq_out, ih, out_out, hcongr,
        List.map_cons, joinItems]
      rw [templateParamText_congr p (out p ", ") param (out_renamedIdentifiers _ _)
        (out_renameIdentifiers _ _) (out_portConst _ _),
        defaultArgumentText_congr p (out p (", " ++ templateParamText p param)) param
          (out_portConst _ _)]
      simp [String.append_assoc]
    · simp only [printTemplateParameterLoop, Spliter.split, if_true,
        TraverseTemplateParam_eq_out, printDefaultArgument_eq_out, ih, out_out, hcongr,
        List.map_cons, joinItems]
      rw [defaultArgumentText_congr p (out p (templateParamText p param)) param
          (out_portConst _ _)]
      simp [String.append_assoc]

theorem printTemplateParameterList_eq_out (p : DPrinter) (tmpParams : List TemplateParam)
    (prevTmplParmsStr : String) :
    printTemplateParameterList p tmpParams prevTmplParmsStr =
      out p ("(" ++ joinItems true
        ((if prevTmplParmsStr ≠ "" then [prevTmplParmsStr] else []) ++
          tmpParams.map
            (fun param => templateParamText p param ++ defaultArgumentText p param)) ++ ")") := by
  have hcongr : ∀ (s : String),
      (tmpParams.map (fun param =>
        templateParamText (out p s) param ++ defaultArgumentText (out p s) param)) =
      (tmpParams.map (fun param =>
        templateParamText p param ++ defaultArgumentText p param)) := by
    intro s
    apply List.map_congr_left
    intro prm _
    rw [templateParamText_congr p (out p s) prm (out_renamedIdentifiers _ _)
      (out_renameIdentifiers _ _) (out_portConst _ _),
      defaultArgumentText_congr p (out p s) prm (out_portConst _ _)]
  unfold printTemplateParameterList
  by_cases hprev : prevTmplParmsStr = ""
  · simp only [hprev, ne_eq, not_true_eq_false, if_false, printTemplateParameterLoop_eq_out,
      out_out, hcongr, List.nil_append]
  · simp only [hprev, ne_eq, not_false_eq_true, if_true, Spliter.split,
      printTemplateParameterLoop_eq_out, out_out, hcongr, List.singleton_append, joinItems]
    simp [String.append_assoc]

theorem TraverseTemplateParam_withoutDefault (p : DPrinter) (param : TemplateParam) :
    TraverseTemplateParam p param.withoutDefault = TraverseTemplateParam p param := by
  cases param <;> rfl

theorem identifier_withoutDefault (param : TemplateParam) :
    param.withoutDefault.identifier = param.identifier := by
  cases param <;> rfl

theorem registerRenames_withoutDefault (params : List TemplateParam) :
    ∀ m : List (Nat × String),
      registerRenames m (params.map TemplateParam.withoutDefault) = registerRenames m params := by
  induction params with
  | nil => intro m; rfl
  | cons param rest ih =>
    intro m
    simp only [List.map_cons, registerRenames, identifier_withoutDefault]
    cases param.identifier with
    | none => rfl
    | some info => exact ih _

theorem printBindingLoop_withoutDefault (params : List TemplateParam) :
    ∀ (args : List TemplateArgument) (p : DPrinter) (first : Bool),
      printBindingLoop p first (params.map TemplateParam.withoutDefault) args =
        printBindingLoop p first params args := by
  induction params with
  | nil => intro args p first; rfl
  | cons param rest ih =>
    intro args p first
    cases args with
    | nil => rfl
    | cons arg args =>
      simp only [List.map_cons, printBindingLoop, TraverseTemplateParam_withoutDefault, ih]

theorem printExtraLoop_withoutDefault (params : List TemplateParam) :
    ∀ (p : DPrinter) (first : Bool),
      printExtraLoop p first (params.map TemplateParam.withoutDefault) =
        printExtraLoop p first params := by
  induction params with
  | nil => intro p first; rfl
  | cons param rest ih =>
    intro p first
    simp only [List.map_cons, printExtraLoop, TraverseTemplateParam_withoutDefault, ih]

/-- C17. `printTemplateParameterList` writes, between `(` and `)` and separated
by `, `, every parameter followed by ` = ` and its default argument when it has
one (and by nothing when it has none), whereas the binding list of
`printTemplateSpec_TmpArgsAndParms` is the same whether or not its primary and
extra parameters have default arguments: it never writes one. -/
theorem default_arguments_primary_only (p : DPrinter) (tmpParams : List TemplateParam)
    (tmpArgs : List TemplateArgument) (newTmpParams : Option (List TemplateParam))
    (prevTmplParmsStr : String) :
    printTemplateParameterList p tmpParams prevTmplParmsStr =
      out p ("(" ++ joinItems true
        ((if prevTmplParmsStr ≠ "" then [prevTmplParmsStr] else []) ++
          tmpParams.map
            (fun param => templateParamText p param ++ defaultArgumentText p param)) ++ ")") ∧
    (∀ param : TemplateParam,
      (param.hasDefaultArgument = false → defaultArgumentText p param = "") ∧
      (param.hasDefaultArgument = true →
        ∃ rendered : String, defaultArgumentText p param = " = " ++ rendered)) ∧
    printTemplateSpec_TmpArgsAndParms p (tmpParams.map TemplateParam.withoutDefault) tmpArgs
        (newTmpParams.map (List.map TemplateParam.withoutDefault)) prevTmplParmsStr =
      printTemplateSpec_TmpArgsAndParms p tmpParams tmpArgs newTmpParams prevTmplParmsStr := by
  refine ⟨printTemplateParameterList_eq_out p tmpParams prevTmplParmsStr, ?_, ?_⟩
  · intro param
    cases param with
    | TemplateTypeParm identifier d =>
      cases d <;> simp [TemplateParam.hasDefaultArgument, defaultArgumentText]
    | NonTypeTemplateParm type identifier d =>
      cases d <;> simp [TemplateParam.hasDefaultArgument, defaultArgumentText]
    | TemplateTemplateParm text identifier d =>
      cases d <;> simp [TemplateParam.hasDefaultArgument, defaultArgumentText]
  · cases newTmpParams with
    | none =>
      simp only [printTemplateSpec_TmpArgsAndParms, Option.map_none',
        printBindingLoop_withoutDefault]
    | some extra =>
      simp only [printTemplateSpec_TmpArgsAndParms, Option.map_some',
        printBindingLoop_withoutDefault, registerRenames_withoutDefault,
        printExtraLoop_withoutDefault]

/-- Witness for C17: the primary list of `template<class T = int, int N = 3>`
prints both defaults; the binding list of a specialisation of the same
parameters prints none. -/
theorem default_arguments_primary_only_witness :
    (printTemplateParameterList freshPrinter
      [TemplateParam.TemplateTypeParm (some identT) (some intType),
       TemplateParam.NonTypeTemplateParm intType (some identN) (some "3")] "").outStack =
      ["(T = int, int N = 3)"] ∧
    (printTemplateSpec_TmpArgsAndParms freshPrinter
      [TemplateParam.TemplateTypeParm (some identT) (some intType),
       TemplateParam.NonTypeTemplateParm intType (some identN) (some "3")]
      [TemplateArgument.Type boolType, TemplateArgument.Integral 7] none "").map
        DPrinter.outStack = some ["(T : bool, int N : 7)"] :=
  ⟨(congrArg DPrinter.outStack (default_arguments_primary_only freshPrinter
      [TemplateParam.TemplateTypeParm (some identT) (some intType),
       TemplateParam.NonTypeTemplateParm intType (some identN) (some "3")] [] none "").1).trans
      (by decide),
   by decide⟩

/-- C18 fails on the code for non-type parameters: in the binding list of
`template<int N> struct A<int, N>` (primary `template<class T, int N>`) the
extra parameter `N` collides with the primary `N`, is entered in
`renamedIdentifiers` as `N_`, and is still rendered `int N`; an extra type
parameter `T` that collides is rendered `T_`. -/
theorem nonType_extra_not_renamed :
    (printTemplateSpec_TmpArgsAndParms freshPrinter
      [TemplateParam.TemplateTypeParm (some identT) none,
       TemplateParam.NonTypeTemplateParm intType (some identN) none]
      [TemplateArgument.Type intType, TemplateArgument.Other "N"]
      (some [TemplateParam.NonTypeTemplateParm intType (some identN) none]) "").map
        (fun q => (q.outStack, q.renamedIdentifiers)) =
      some (["(T : int, int N : N, int N)"], [(302, "N_")]) ∧
    (printTemplateSpec_TmpArgsAndParms freshPrinter
      [TemplateParam.TemplateTypeParm (some identT) none]
      [TemplateArgument.Type pointerToT]
      (some [TemplateParam.TemplateTypeParm (some identT) none]) "").map
        (fun q => (q.outStack, q.renamedIdentifiers)) =
      some (["(T : T_[], T_)"], [(301, "T_")]) := by
  constructor <;> decide

/-! ## Frame: what leaves `renamedIdentifiers` alone -/

theorem pushStream_renamedIdentifiers (p : DPrinter) :
    (pushStream p).renamedIdentifiers = p.renamedIdentifiers := rfl

theorem popStream_renamedIdentifiers (p : DPrinter) :
    (popStream p).2.renamedIdentifiers = p.renamedIdentifiers := by
  unfold popStream
  split <;> rfl

theorem printType_renamedIdentifiers (p : DPrinter) (type : QualType) :
    (printType p type).renamedIdentifiers = p.renamedIdentifiers := by
  rw [printType_eq_out, out_renamedIdentifiers]

theorem TraverseDecl_renamedIdentifiers (p : DPrinter) (d : Decl) :
    (TraverseDecl p d).renamedIdentifiers = p.renamedIdentifiers := by
  simp [TraverseDecl, out_renamedIdentifiers]

theorem memberDeclstr_renamedIdentifiers (st : MemberLoop) (d : Decl) :
    (memberDeclstr st d).2.renamedIdentifiers = st.p.renamedIdentifiers := by
  unfold memberDeclstr
  simp only [popStream_renamedIdentifiers, TraverseDecl_renamedIdentifiers]
  split_ifs <;> simp [out_renamedIdentifiers, pushStream_renamedIdentifiers]

theorem memberEmit_renamedIdentifiers (p : DPrinter) (access : AccessSpecifier)
    (inBitField nextIsBitField : Bool) (d : Decl) (declstr : String) :
    (memberEmit p access inBitField nextIsBitField d declstr).1.renamedIdentifiers =
      p.renamedIdentifiers := by
  unfold memberEmit
  simp only [printCommentAfter_eq_out, printCommentBefore_eq_out, printAccessLabel_eq_out]
  split_ifs <;> simp [out_renamedIdentifiers]

theorem memberStep_renamedIdentifiers (st : MemberLoop) (d : Decl) :
    (memberStep st d).p.renamedIdentifiers = st.p.renamedIdentifiers := by
  unfold memberStep
  simp only
  split_ifs <;>
    simp [memberEmit_renamedIdentifiers, memberDeclstr_renamedIdentifiers]

theorem memberLoop_renamedIdentifiers (decls : List Decl) :
    ∀ st : MemberLoop, (memberLoop st decls).p.renamedIdentifiers = st.p.renamedIdentifiers := by
  induction decls with
  | nil => intro st; rfl
  | cons d ds ih =>
    intro st
    rw [memberLoop_cons, ih, memberStep_renamedIdentifiers]

theorem traverseMembers_renamedIdentifiers (p : DPrinter) (isClass : Bool)
    (decls : List Decl) :
    (traverseMembers p isClass decls).renamedIdentifiers = p.renamedIdentifiers := by
  unfold traverseMembers closeMembers
  simp only [out_renamedIdentifiers]
  split_ifs <;>
    simp [out_renamedIdentifiers, memberLoop_renamedIdentifiers, memberLoopInit]

theorem printDerivedMembers_renamedIdentifiers (p : DPrinter)
    (getPointeeType : Nat → QualType) (cxxRecordDecl : Option Nat) :
    ∀ q, printDerivedMembers p getPointeeType cxxRecordDecl = some q →
      q.renamedIdentifiers = p.renamedIdentifiers := by
  intro q h
  cases cxxRecordDecl with
  | none => cases h; rfl
  | some record =>
    rw [printDerivedMembers_eq_out_read] at h
    split_ifs at h
    cases h
    rw [out_renamedIdentifiers]

theorem ite_snd_renamedIdentifiers (c : Prop) [Decidable c] (a b : String × DPrinter)
    (m : List (Nat × String)) (ha : a.2.renamedIdentifiers = m)
    (hb : b.2.renamedIdentifiers = m) :
    (if c then a else b).2.renamedIdentifiers = m := by
  split_ifs <;> assumption

theorem printOperatorName_renamedIdentifiers (p : DPrinter) (Decl : FunctionDecl)
    (tmpParams : String) (arg_become_this : Int) :
    (printOperatorName p Decl tmpParams arg_become_this).2.renamedIdentifiers =
      p.renamedIdentifiers := by
  unfold printOperatorName
  generalize (arg1 Decl).2 = r1
  generalize (arg2 Decl).2 = r2
  dsimp only
  repeat' apply ite_snd_renamedIdentifiers
  all_goals cases r1 <;> cases r2 <;> simp only [out_renamedIdentifiers]

theorem printFuncBegin_renamedIdentifiers (p : DPrinter) (Decl : FunctionDecl)
    (tmpParams : String) (arg_become_this : Int) :
    (printFuncBegin p Decl tmpParams arg_become_this).2.2.renamedIdentifiers =
      p.renamedIdentifiers := by
  unfold printFuncBegin
  split_ifs <;>
    simp [printOperatorName_renamedIdentifiers, out_renamedIdentifiers,
      printType_renamedIdentifiers]

theorem printBindingLoop_renamedIdentifiers (params : List TemplateParam) :
    ∀ (args : List TemplateArgument) (p : DPrinter) (first : Bool) (b : DPrinter × Bool),
      printBindingLoop p first params args = some b →
      b.1.renamedIdentifiers = p.renamedIdentifiers := by
  induction params with
  | nil =>
    intro args p first b h
    cases args with
    | nil => simp only [printBindingLoop, Option.some.injEq] at h; rw [← h]
    | cons arg args => simp [printBindingLoop] at h
  | cons param rest ih =>
    intro args p first b h
    cases args with
    | nil => simp only [printBindingLoop, Option.some.injEq] at h; rw [← h]
    | cons arg args =>
      simp only [printBindingLoop] at h
      rw [ih _ _ _ _ h, printTemplateArgument_eq_out, out_renamedIdentifiers,
        out_renamedIdentifiers]
      simp only [TraverseTemplateParam_eq_out, out_renamedIdentifiers]
      cases first <;> simp [Spliter.split, out_renamedIdentifiers]

theorem printExtraLoop_renamedIdentifiers (params : List TemplateParam) :
    ∀ (p : DPrinter) (first : Bool),
      (printExtraLoop p first params).renamedIdentifiers = p.renamedIdentifiers := by
  induction params with
  | nil => intro p first; rfl
  | cons param rest ih =>
    intro p first
    simp only [printExtraLoop]
    rw [ih, TraverseTemplateParam_eq_out, out_renamedIdentifiers]
    cases first <;> simp [Spliter.split, out_renamedIdentifiers]

theorem printTemplateSpec_renamedIdentifiers (p : DPrinter)
    (primaryTmpParams : List TemplateParam) (tmpArgs : List TemplateArgument)
    (newTmpParams : Option (List TemplateParam)) (prevTmplParmsStr : String) (q : DPrinter)
    (h : printTemplateSpec_TmpArgsAndParms p primaryTmpParams tmpArgs newTmpParams
      prevTmplParmsStr = some q) :
    match newTmpParams with
    | some params => registerRenames p.renamedIdentifiers params = some q.renamedIdentifiers
    | none => q.renamedIdentifiers = p.renamedIdentifiers := by
  have hs : ∀ prev : String,
      (if prev ≠ "" then
        (out (Spliter.split (out p "(") ", " true).1 prev, (Spliter.split (out p "(") ", " true).2)
       else (out p "(", true)).1.renamedIdentifiers = p.renamedIdentifiers := by
    intro prev
    split_ifs <;> simp [Spliter.split, out_renamedIdentifiers]
  unfold printTemplateSpec_TmpArgsAndParms at h
  simp only at h
  cases newTmpParams with
  | none =>
    simp only at h
    cases hb : printBindingLoop
        (if prevTmplParmsStr ≠ "" then
          (out (Spliter.split (out p "(") ", " true).1 prevTmplParmsStr,
            (Spliter.split (out p "(") ", " true).2)
         else (out p "(", true)).1
        (if prevTmplParmsStr ≠ "" then
          (out (Spliter.split (out p "(") ", " true).1 prevTmplParmsStr,
            (Spliter.split (out p "(") ", " true).2)
         else (out p "(", true)).2 primaryTmpParams tmpArgs with
    | none => rw [hb] at h; cases h
    | some b =>
      rw [hb] at h
      simp only [Option.some.injEq] at h
      simp only
      rw [← h, out_renamedIdentifiers,
        printBindingLoop_renamedIdentifiers _ _ _ _ _ hb, hs]
  | some params =>
    simp only at h
    rw [hs] at h
    cases hr : registerRenames p.renamedIdentifiers params with
    | none => rw [hr] at h; simp at h
    | some m =>
      rw [hr] at h
      simp only [Option.map_some'] at h
      cases hb : printBindingLoop
          { (if prevTmplParmsStr ≠ "" then
              (out (Spliter.split (out p "(") ", " true).1 prevTmplParmsStr,
                (Spliter.split (out p "(") ", " true).2)
             else (out p "(", true)).1 with renamedIdentifiers := m }
          (if prevTmplParmsStr ≠ "" then
            (out (Spliter.split (out p "(") ", " true).1 prevTmplParmsStr,
              (Spliter.split (out p "(") ", " true).2)
           else (out p "(", true)).2 primaryTmpParams tmpArgs with
      | none => rw [hb] at h; cases h
      | some b =>
        rw [hb] at h
        simp only [Option.some.injEq] at h
        simp only
        rw [← h, out_renamedIdentifiers, printExtraLoop_renamedIdentifiers,
          printBindingLoop_renamedIdentifiers _ _ _ _ _ hb]
        exact hr

theorem printTemplateParameterList_renamedIdentifiers (p : DPrinter)
    (tmpParams : List TemplateParam) (prevTmplParmsStr : String) :
    (printTemplateParameterList p tmpParams prevTmplParmsStr).renamedIdentifiers =
      p.renamedIdentifiers := by
  rw [printTemplateParameterList_eq_out, out_renamedIdentifiers]

theorem printFunctionTemplateLists_renamedIdentifiers (p : DPrinter) (kind : TemplatedKind)
    (tmplParamsStr : String) (b : DPrinter × Bool)
    (h : printFunctionTemplateLists p kind tmplParamsStr = some b) :
    b.1.renamedIdentifiers = p.renamedIdentifiers := by
  unfold printFunctionTemplateLists at h
  cases kind with
  | TK_NonTemplate => simp only [Option.some.injEq] at h; rw [← h]
  | TK_MemberSpecialization => simp only [Option.some.injEq] at h; rw [← h]
  | TK_FunctionTemplate described =>
    cases described with
    | none => simp only [Option.some.injEq] at h; rw [← h]
    | some tmpParams =>
      simp only [Option.some.injEq] at h
      rw [← h, printTemplateParameterList_renamedIdentifiers]
  | TK_FunctionTemplateSpecialization primary =>
    cases primary with
    | none => simp only [Option.some.injEq] at h; rw [← h]
    | some pr =>
      simp only [Option.map_eq_some'] at h
      obtain ⟨q, hq, hb⟩ := h
      rw [← hb]
      exact printTemplateSpec_renamedIdentifiers p _ _ none _ q hq
  | TK_DependentFunctionTemplateSpecialization primary =>
    cases primary with
    | none => simp only [Option.some.injEq] at h; rw [← h]
    | some pr =>
      simp only [Option.map_eq_some'] at h
      obtain ⟨q, hq, hb⟩ := h
      rw [← hb]
      exact printTemplateSpec_renamedIdentifiers p _ _ none _ q hq

theorem printCommentLoop_renamedIdentifiers (str : String) (comments : List String) :
    ∀ (p : DPrinter) (first : Bool),
      (printCommentLoop p str first comments).renamedIdentifiers = p.renamedIdentifiers := by
  induction comments with
  | nil => intro p first; rfl
  | cons c rest ih =>
    intro p first
    simp only [printCommentLoop]
    rw [ih]
    cases first <;> simp [out_renamedIdentifiers]

theorem printStmtComment_renamedIdentifiers (p : DPrinter) (span : Option String) :
    (printStmtComment p span).renamedIdentifiers = p.renamedIdentifiers := by
  cases span with
  | none => simp only [printStmtComment, out_renamedIdentifiers]
  | some comment =>
    simp only [printStmtComment, printCommentLines]
    split
    · rw [out_renamedIdentifiers]
    · rw [printCommentLoop_renamedIdentifiers, out_renamedIdentifiers]

theorem printParameters_renamedIdentifiers (p : DPrinter) (f : FunctionInfo) :
    (printParameters p f).renamedIdentifiers = p.renamedIdentifiers := by
  unfold printParameters
  split_ifs with h1
  · dsimp only
    cases f.closingComment with
    | none =>
      dsimp only
      split_ifs <;>
        simp only [out_renamedIdentifiers, popStream_renamedIdentifiers,
          pushStream_renamedIdentifiers]
    | some span =>
      dsimp only
      split_ifs <;>
        simp only [out_renamedIdentifiers, popStream_renamedIdentifiers,
          pushStream_renamedIdentifiers, printStmtComment_renamedIdentifiers]
  · rfl

theorem ite_option_renamedIdentifiers (c : Prop) [Decidable c] (a b : Option DPrinter)
    (m : List (Nat × String))
    (ha : ∀ q, a = some q → q.renamedIdentifiers = m)
    (hb : ∀ q, b = some q → q.renamedIdentifiers = m) :
    ∀ q, (if c then a else b) = some q → q.renamedIdentifiers = m := by
  split_ifs <;> assumption

theorem traverseFunctionDeclImpl_renamedIdentifiers (p : DPrinter) (f : FunctionInfo)
    (arg_become_this : Int) :
    ∀ q, traverseFunctionDeclImpl p f arg_become_this = some q →
      q.renamedIdentifiers = p.renamedIdentifiers := by
  have hb := printFuncBegin_renamedIdentifiers (pushStream p) f.Decl "" arg_become_this
  rw [pushStream_renamedIdentifiers] at hb
  unfold traverseFunctionDeclImpl
  dsimp only
  generalize printFuncBegin (pushStream p) f.Decl "" arg_become_this = begun at hb
  apply ite_option_renamedIdentifiers
  · intro q h; cases h; rfl
  apply ite_option_renamedIdentifiers
  · intro q h; cases h; rfl
  apply ite_option_renamedIdentifiers
  · intro q h; cases h; rfl
  apply ite_option_renamedIdentifiers
  · intro q h; cases h; rw [popStream_renamedIdentifiers, hb]
  cases hl : printFunctionTemplateLists begun.2.2 f.templatedKind begun.2.1 with
  | none => intro q h; cases h
  | some lists =>
    have hl1 := printFunctionTemplateLists_renamedIdentifiers _ _ _ _ hl
    dsimp only
    apply ite_option_renamedIdentifiers
    all_goals
      intro q h
      cases h
      simp only [out_renamedIdentifiers, popStream_renamedIdentifiers]
      split_ifs <;> simp only [out_renamedIdentifiers, printParameters_renamedIdentifiers, hl1, hb]
theorem printFreeOperators_renamedIdentifiers (arg_become_this : Int)
    (fs : List FunctionInfo) :
    ∀ (p q : DPrinter), printFreeOperators p arg_become_this fs = some q →
      q.renamedIdentifiers = p.renamedIdentifiers := by
  induction fs with
  | nil => intro p q h; simp only [printFreeOperators, Option.some.injEq] at h; rw [← h]
  | cons f rest ih =>
    intro p q h
    simp only [printFreeOperators] at h
    cases ht : traverseFunctionDeclImpl (out p (indentStr p)) f arg_become_this with
    | none => rw [ht] at h; cases h
    | some r =>
      rw [ht] at h
      simp only at h
      rw [ih _ _ h, out_renamedIdentifiers,
        traverseFunctionDeclImpl_renamedIdentifiers _ _ _ _ ht, out_renamedIdentifiers]

theorem printBaseSpecs_renamedIdentifiers (bases : List CXXBaseSpecifier) :
    ∀ (p : DPrinter) (first : Bool),
      (printBaseSpecs p first bases).renamedIdentifiers = p.renamedIdentifiers := by
  induction bases with
  | nil => intro p first; rfl
  | cons base rest ih =>
    intro p first
    simp only [printBaseSpecs]
    rw [ih, printType_renamedIdentifiers]
    cases first <;> split_ifs <;> simp [Spliter.split, out_renamedIdentifiers]

theorem printBasesClass_renamedIdentifiers (p : DPrinter)
    (bases vbases : List CXXBaseSpecifier) :
    (printBasesClass p bases vbases).renamedIdentifiers = p.renamedIdentifiers := by
  unfold printBasesClass
  split_ifs
  · simp only [printBaseSpecs_renamedIdentifiers, out_renamedIdentifiers]
  · rfl

theorem traverseCXXRecordDeclImpl_renamedIdentifiers (p : DPrinter) (decl : RecordDecl)
    (traverseTmpSpecs : DPrinter → Option DPrinter) (printBases : DPrinter → DPrinter)
    (getPointeeType : Nat → QualType) (q : DPrinter)
    (hpb : ∀ r, (printBases r).renamedIdentifiers = r.renamedIdentifiers)
    (himp : decl.isImplicit = false)
    (hdef : decl.isCompleteDefinition = true ∨ decl.hasDefinition = false)
    (h : traverseCXXRecordDeclImpl p decl traverseTmpSpecs printBases getPointeeType = some q) :
    ∃ s r, traverseTmpSpecs (out p s) = some r ∧
      q.renamedIdentifiers = r.renamedIdentifiers := by
  have hdef' : ¬ (decl.isCompleteDefinition = false ∧ decl.hasDefinition = true) := by
    rcases hdef with hd | hd <;> simp [hd]
  unfold traverseCXXRecordDeclImpl at h
  rw [if_neg (by simp [himp]), if_neg hdef'] at h
  dsimp only at h
  generalize ((if decl.isClass = true then "class" else if decl.isUnion = true then "union"
    else "struct") ++ " " ++ mangleName decl.name) = s at h
  refine ⟨s, ?_⟩
  cases ht : traverseTmpSpecs (out p s) with
  | none => rw [ht] at h; cases h
  | some r =>
    refine ⟨r, rfl, ?_⟩
    rw [ht] at h
    dsimp only at h
    by_cases hc : decl.isCompleteDefinition = false
    · rw [if_pos hc] at h; cases h; rfl
    · rw [if_neg hc] at h
      split at h
      · cases h
      · rename_i p1 h1
        split at h
        · cases h
        · rename_i p2 h2
          split at h
          · cases h
          · rename_i p3 h3
            cases h
            rw [out_renamedIdentifiers]
            show p3.renamedIdentifiers = _
            rw [printDerivedMembers_renamedIdentifiers _ _ _ _ h3,
              printFreeOperators_renamedIdentifiers _ _ _ _ h2,
              printFreeOperators_renamedIdentifiers _ _ _ _ h1,
              traverseMembers_renamedIdentifiers]
            show (out (printBases r) _).renamedIdentifiers = _
            rw [out_renamedIdentifiers, hpb]

theorem registerRenames_keeps (ps : List TemplateParam) :
    ∀ (m m' : List (Nat × String)) (k : Nat) (v : String),
      registerRenames m ps = some m' →
      mapFind m k = some v →
      (∀ param ∈ ps, ∀ info, param.identifier = some info → info.ptr = k →
        info.name ++ "_" = v) →
      mapFind m' k = some v := by
  induction ps with
  | nil =>
    intro m m' k v h hf _
    simp only [registerRenames, Option.some.injEq] at h
    rw [← h]; exact hf
  | cons parmDecl rest ih =>
    intro m m' k v h hf hv
    unfold registerRenames at h
    cases hi : parmDecl.identifier with
    | none => rw [hi] at h; cases h
    | some info =>
      rw [hi] at h
      dsimp only at h
      refine ih _ _ k v h ?_ (fun param hp => hv param (List.mem_cons_of_mem _ hp))
      by_cases hk : info.ptr = k
      · obtain ⟨w, hw⟩ := mapFind_mapUpdate_exists "" (fun _ => info.name ++ "_") m info.ptr
        rw [← hk, hw]
        exact congrArg some (hv parmDecl (List.mem_cons_self _ _) info hi hk)
      · rw [mapFind_mapUpdate_other _ _ _ _ _ (Ne.symm hk)]
        exact hf

theorem registerRenames_find (ps : List TemplateParam) :
    ∀ (m m' : List (Nat × String)),
      registerRenames m ps = some m' →
      (∀ a ∈ ps, ∀ b ∈ ps, ∀ ia ib, a.identifier = some ia → b.identifier = some ib →
        ia.ptr = ib.ptr → ia.name = ib.name) →
      ∀ param ∈ ps, ∀ info, param.identifier = some info →
        mapFind m' info.ptr = some (info.name ++ "_") := by
  induction ps with
  | nil => intro m m' _ _ param hp; cases hp
  | cons parmDecl rest ih =>
    intro m m' h hn param hp info hinfo
    have h0 := h
    unfold registerRenames at h
    cases hi : parmDecl.identifier with
    | none => rw [hi] at h; cases h
    | some info0 =>
      rw [hi] at h
      dsimp only at h
      rcases List.mem_cons.1 hp with hp | hp
      · rw [hp, hi] at hinfo
        have e : info0 = info := Option.some.inj hinfo
        rw [← e]
        obtain ⟨w, hw⟩ := mapFind_mapUpdate_exists "" (fun _ => info0.name ++ "_") m info0.ptr
        refine registerRenames_keeps rest _ _ _ _ h hw ?_
        intro b hb ib hib hptr
        rw [hn b (List.mem_cons_of_mem _ hb) parmDecl (List.mem_cons_self _ _) ib info0 hib hi
          hptr]
      · exact ih _ _ h
          (fun a ha b hb => hn a (List.mem_cons_of_mem _ ha) b (List.mem_cons_of_mem _ hb))
          param hp info hinfo

theorem TraverseTemplateTypeParmDecl_renamed (r : DPrinter) (info : IdentifierInfo)
    (renamed : String) (hf : mapFind r.renamedIdentifiers info.ptr = some renamed)
    (hr : r.renameIdentifiers = true) :
    TraverseTemplateTypeParmDecl r (some info) = out r renamed := by
  simp only [TraverseTemplateTypeParmDecl, hf, hr, if_true]

/-- What `renamedIdentifiers` holds when a partial specialisation has been
rendered: the table at entry with every parameter of the specialisation
registered. -/
theorem traverseClassTemplateSpecialization_registered (p : DPrinter)
    (Decl : ClassTemplateSpecializationDecl) (getPointeeType : Nat → QualType)
    (ps : List TemplateParam) (q : DPrinter)
    (hprinter : Decl.printer = none)
    (hkind : Decl.specializationKind = TemplateSpecializationKind.TSK_ExplicitSpecialization ∨
      Decl.specializationKind = TemplateSpecializationKind.TSK_Undeclared)
    (himp : Decl.record.isImplicit = false)
    (hdef : Decl.record.isCompleteDefinition = true ∨ Decl.record.hasDefinition = false)
    (hps : Decl.templateParameters = some ps)
    (h : traverseClassTemplateSpecializationDeclImpl p Decl getPointeeType = some q) :
    registerRenames p.renamedIdentifiers ps = some q.renamedIdentifiers := by
  have hk : ¬ (Decl.specializationKind =
        TemplateSpecializationKind.TSK_ExplicitInstantiationDeclaration
      ∨ Decl.specializationKind = TemplateSpecializationKind.TSK_ExplicitInstantiationDefinition
      ∨ Decl.specializationKind = TemplateSpecializationKind.TSK_ImplicitInstantiation) := by
    rcases hkind with hk | hk <;> simp [hk]
  obtain ⟨record, printer, kind, tps, sps, targs⟩ := Decl
  dsimp only at hprinter hk himp hdef hps
  subst hprinter hps
  unfold traverseClassTemplateSpecializationDeclImpl at h
  dsimp only at h
  rw [if_neg hk] at h
  split at h
  · cases h
  · rename_i q1 h1
    cases h
    obtain ⟨s, r, hr, hq⟩ := traverseCXXRecordDeclImpl_renamedIdentifiers _ _ _ _ _ _
      (fun r => printBasesClass_renamedIdentifiers r _ _) himp hdef h1
    have hreg := printTemplateSpec_renamedIdentifiers _ _ _ _ _ _ hr
    dsimp only at hreg
    rw [out_renamedIdentifiers] at hreg
    rw [hq, ← hreg]

/-- C19 as stated fails: rendering the partial specialisation
`template<class T> class A<T*>` from an empty rename table returns with the
entry for `T` still in `renamedIdentifiers`, and a template parameter `T`
printed afterwards is written `T_`, whereas before it was written `T`. -/
theorem renamedIdentifiers_not_discarded :
    freshPrinter.renamedIdentifiers = [] ∧
    (TraverseTemplateParam freshPrinter
      (TemplateParam.TemplateTypeParm (some identT) none)).outStack = ["T"] ∧
    (traverseClassTemplateSpecializationDeclImpl freshPrinter partialSpecOfA
      (fun _ => fooType)).map (fun q => q.renamedIdentifiers) = some [(301, "T_")] ∧
    (traverseClassTemplateSpecializationDeclImpl freshPrinter partialSpecOfA
      (fun _ => fooType)).map
        (fun q => (TraverseTemplateParam { q with outStack := [""] }
          (TemplateParam.TemplateTypeParm (some identT) none)).outStack) = some ["T_"] := by
  refine ⟨?_, ?_, ?_, ?_⟩ <;> decide

/-- C19, amended. When `traverseClassTemplateSpecializationDeclImpl` returns
after rendering a partial specialisation (no printer override, a specialisation
kind that is rendered, a record that is rendered), `renamedIdentifiers` still
holds every entry registered for that specialisation: it is the table at entry
with each parameter of the specialisation entered under its name followed by
`_`, nothing being removed.  So, identifiers being determined by their address,
each such parameter is found in the table under `name_`, and a template type
parameter with that identifier printed afterwards from any state with this
table, `renameIdentifiers` being on, is written `name_`. -/
theorem renamedIdentifiers_kept_after_specialization (p : DPrinter)
    (Decl : ClassTemplateSpecializationDecl) (getPointeeType : Nat → QualType)
    (ps : List TemplateParam) (q : DPrinter)
    (hprinter : Decl.printer = none)
    (hkind : Decl.specializationKind = TemplateSpecializationKind.TSK_ExplicitSpecialization ∨
      Decl.specializationKind = TemplateSpecializationKind.TSK_Undeclared)
    (himp : Decl.record.isImplicit = false)
    (hdef : Decl.record.isCompleteDefinition = true ∨ Decl.record.hasDefinition = false)
    (hps : Decl.templateParameters = some ps)
    (hnames : ∀ a ∈ ps, ∀ b ∈ ps, ∀ ia ib, a.identifier = some ia → b.identifier = some ib →
      ia.ptr = ib.ptr → ia.name = ib.name)
    (h : traverseClassTemplateSpecializationDeclImpl p Decl getPointeeType = some q) :
    registerRenames p.renamedIdentifiers ps = some q.renamedIdentifiers ∧
    ∀ param ∈ ps, ∀ info, param.identifier = some info →
      mapFind q.renamedIdentifiers info.ptr = some (info.name ++ "_") ∧
      ∀ r : DPrinter, r.renamedIdentifiers = q.renamedIdentifiers →
        r.renameIdentifiers = true →
        TraverseTemplateTypeParmDecl r (some info) = out r (info.name ++ "_") := by
  have hreg := traverseClassTemplateSpecialization_registered p Decl getPointeeType ps q
    hprinter hkind himp hdef hps h
  refine ⟨hreg, ?_⟩
  intro param hp info hinfo
  have hf := registerRenames_find ps _ _ hreg hnames param hp info hinfo
  refine ⟨hf, ?_⟩
  intro r hr hon
  exact TraverseTemplateTypeParmDecl_renamed r info _ (by rw [hr]; exact hf) hon

theorem renamedIdentifiers_kept_after_specialization_witness :
    traverseClassTemplateSpecializationDeclImpl freshPrinter partialSpecOfA
      (fun _ => fooType) = some partialSpecOfAPrinted ∧
    (registerRenames freshPrinter.renamedIdentifiers
        [TemplateParam.TemplateTypeParm (some identT) none] =
      some partialSpecOfAPrinted.renamedIdentifiers ∧
    ∀ param ∈ [TemplateParam.TemplateTypeParm (some identT) none], ∀ info,
      param.identifier = some info →
      mapFind partialSpecOfAPrinted.renamedIdentifiers info.ptr = some (info.name ++ "_") ∧
      ∀ r : DPrinter, r.renamedIdentifiers = partialSpecOfAPrinted.renamedIdentifiers →
        r.renameIdentifiers = true →
        TraverseTemplateTypeParmDecl r (some info) = out r (info.name ++ "_")) :=
  ⟨by decide,
   renamedIdentifiers_kept_after_specialization freshPrinter partialSpecOfA (fun _ => fooType)
    [TemplateParam.TemplateTypeParm (some identT) none] partialSpecOfAPrinted
    rfl (Or.inl rfl) rfl (Or.inl rfl) rfl
    (fun a ha b hb ia ib hia hib _ => by
      rw [List.mem_singleton.1 ha] at hia
      rw [List.mem_singleton.1 hb] at hib
      rw [← Option.some.inj hia, ← Option.some.inj hib])
    (by decide)⟩

/-! ## Reserved words, once more -/

/-- C28. `mangleName` is idempotent: applied to its own result it changes
nothing, the escaped form of a reserved word not being a reserved word. -/
theorem mangleName_idempotent (name : String) :
    mangleName (mangleName name) = mangleName name := by
  by_cases h1 : name = "version"
  · subst h1; decide
  by_cases h2 : name = "out"
  · subst h2; decide
  by_cases h3 : name = "in"
  · subst h3; decide
  by_cases h4 : name = "ref"
  · subst h4; decide
  by_cases h5 : name = "debug"
  · subst h5; decide
  by_cases h6 : name = "function"
  · subst h6; decide
  by_cases h7 : name = "Exception"
  · subst h7; decide
  have h : mangleName name = name := by
    simp only [mangleName, h1, h2, h3, h4, h5, h6, h7, if_false]
  rw [h, h]

/-! ## Look-alike containers -/

theorem isPrefixOf_append_data (a b : String) : a.data.isPrefixOf (a ++ b).data = true := by
  rw [List.isPrefixOf_iff_prefix, String.data_append]
  exact List.prefix_append _ _

theorem getSemantic_std_array (qt : QualType)
    (h : "class std::array<".data.isPrefixOf qt.name.data = true) :
    getSemantic qt = structuralSemantic qt := by
  apply getSemantic_of_isPrefixOf_false
  intro e he
  simp only [semanticTable, List.mem_cons, List.mem_singleton, List.mem_nil_iff, or_false] at he
  rcases he with rfl | rfl | rfl | rfl | rfl | rfl | rfl | rfl | rfl <;>
    exact isPrefixOf_exclusive "class std::array<" _ _ h (by decide)

/-- C24 fails on the code for `std::array`: whatever the template arguments,
a type whose printed canonical name begins with `class std::array<` is a
fixed-size-array look-alike for `isStdArray`, and `getSemantic`, whose table
has `boost::array` but not `std::array`, classifies it structurally: a class
type, it is Reference.  `boost::array` is Value. -/
theorem std_array_classified_reference (qt : QualType) (args : String) :
    isStdArray ("class std::array<" ++ args) = true ∧
    getSemantic { qt with name := "class std::array<" ++ args, isClassType := true,
                          typeClass := TypeClass.Record } = Semantic.Reference ∧
    isStdArray stdArrayOfInt.name = true ∧
    getSemantic stdArrayOfInt = Semantic.Reference ∧
    isStdArray boostArrayOfInt.name = true ∧
    getSemantic boostArrayOfInt = Semantic.Value := by
  refine ⟨?_, ?_, by decide, by decide, by decide, by decide⟩
  · have hp := isPrefixOf_append_data "class std::array<" args
    rw [List.isPrefixOf_iff_prefix] at hp
    obtain ⟨t, ht⟩ := hp
    have hl : "class std::array<".length = "class std::array<".data.length := rfl
    simp only [isStdArray, substr, List.drop_zero, Bool.or_eq_true, beq_iff_eq]
    right
    rw [← ht, hl, List.take_left]
  · rw [getSemantic_std_array _ (isPrefixOf_append_data _ _)]
    simp [structuralSemantic]

/-! ## Base classes -/

theorem printBaseSpecs_eq_out (bases : List CXXBaseSpecifier) :
    ∀ (p : DPrinter) (first : Bool),
      printBaseSpecs p first bases =
        out p (joinItems first (bases.map (baseSpecText p.portConst))) := by
  induction bases with
  | nil => intro p first; simp [printBaseSpecs, joinItems, out_empty]
  | cons base rest ih =>
    intro p first
    cases first <;> by_cases ha : base.accessSpecifier = AccessSpecifier.AS_public <;>
      simp [printBaseSpecs, Spliter.split, printType_eq_out, ih, out_out, out_portConst,
        joinItems, baseSpecText, baseAnnotation, ha, String.append_assoc]

/-- C25. `printBasesClass` writes nothing for an aggregate without bases;
otherwise it writes ` : ` once and then every base, the virtual bases after the
others, separated by `, `: each base is its type preceded by the annotation of
its access, which is empty for a public base, `/*protected*/ ` for a protected
one and `/*private*/ ` for a private one.  No base is left out. -/
theorem printBasesClass_annotated (p : DPrinter) (bases vbases : List CXXBaseSpecifier) :
    printBasesClass p bases vbases =
      (if bases.length + vbases.length ≠ 0 then
        out p (" : " ++ joinItems true ((bases ++ vbases).map (baseSpecText p.portConst)))
       else p) ∧
    (∀ base : CXXBaseSpecifier,
      baseSpecText p.portConst base =
        baseAnnotation base.accessSpecifier ++ typeText p.portConst base.type) ∧
    baseAnnotation AccessSpecifier.AS_public = "" ∧
    baseAnnotation AccessSpecifier.AS_protected = "/*protected*/ " ∧
    baseAnnotation AccessSpecifier.AS_private = "/*private*/ " := by
  refine ⟨?_, fun _ => rfl, by decide, by decide, by decide⟩
  unfold printBasesClass
  split_ifs
  · simp only [printBaseSpecs_eq_out, out_out, out_portConst]
  · rfl

/-- Example for C25: `class D : public Foo, protected Foo, private Foo`. -/
theorem printBasesClass_annotated_witness :
    (printBasesClass freshPrinter threeBases []).outStack =
      [" : Foo, /*protected*/ Foo, /*private*/ Foo"] ∧
    (printBasesClass freshPrinter [] []).outStack = [""] :=
  ⟨(congrArg DPrinter.outStack (printBasesClass_annotated freshPrinter threeBases []).1).trans
      (by decide),
   by decide⟩

/-! ## Bit-field runs: totals above 64 and zero-width runs -/

theorem roundPow2_sub_neg (n : Int) (h : 64 < n) : roundPow2 n - n < 0 := by
  unfold roundPow2
  split_ifs <;> omega

/-- C26 fails on the code: a run of two 40-bit bit-fields has total width 80,
`roundPow2(80)` is 64, and the padding field written when the run closes has
width `64 - 80 = -16`, at the end of the list as well as before a following
member that is not a bit-field. -/
theorem padding_negative_above_64 :
    roundPow2 80 - 80 = -16 ∧
    (traverseMembers bodyPrinter false
        [bitFieldDecl 40 AccessSpecifier.AS_public "\tulong, \"a\", 40,",
         bitFieldDecl 40 AccessSpecifier.AS_public "\tulong, \"b\", 40,"]).outStack =
      ["\n    mixin(bitfields!(\n    \tulong, \"a\", 40,\n    \tulong, \"b\", 40,"
        ++ "\n    \tuint, \"\", -16));\n"] ∧
    (traverseMembers bodyPrinter false
        [bitFieldDecl 40 AccessSpecifier.AS_public "\tulong, \"a\", 40,",
         bitFieldDecl 40 AccessSpecifier.AS_public "\tulong, \"b\", 40,",
         fieldDecl AccessSpecifier.AS_public "int c"]).outStack =
      ["\n    mixin(bitfields!(\n    \tulong, \"a\", 40,\n    \tulong, \"b\", 40,"
        ++ "\n    \tuint, \"\", -16));\n    int c;\n"] := by
  refine ⟨?_, ?_, ?_⟩ <;> decide

/-- C27 fails on the code: in a struct with the members `int : 0;` and `int b;`
the zero-width bit-field opens a block `mixin(bitfields!(`, and since `bit_count` is still `0`
when the next member, not a bit-field, is reached, the guard `bit_count != 0`
skips the padding field that closes the block: one block opened, none closed.
The same run at the end of the list is closed. -/
theorem zero_width_run_not_closed :
    (traverseMembers bodyPrinter false
        [bitFieldDecl 0 AccessSpecifier.AS_public "\tint, \"\", 0,",
         fieldDecl AccessSpecifier.AS_public "int b"]).outStack =
      ["\n    mixin(bitfields!(\n    \tint, \"\", 0,\n    int b;\n"] ∧
    occurrences "mixin(bitfields!(".data
      ("\n    mixin(bitfields!(\n    \tint, \"\", 0,\n    int b;\n").data = 1 ∧
    occurrences "));".data
      ("\n    mixin(bitfields!(\n    \tint, \"\", 0,\n    int b;\n").data = 0 ∧
    (traverseMembers bodyPrinter false
        [bitFieldDecl 0 AccessSpecifier.AS_public "\tint, \"\", 0,"]).outStack =
      ["\n    mixin(bitfields!(\n    \tint, \"\", 0,\n    \tuint, \"\", 0));\n"] := by
  refine ⟨?_, ?_, ?_, ?_⟩ <;> decide

/-! ## Literals -/

/-- C29 fails on the code for unsigned literals with the top bit set:
`TraverseIntegerLiteral` writes the value with `toString(10, true)`, as a signed
number, so `0xFFFFFFFFu` is written `-1` and `2147483648u` is written
`-2147483648`; `TraverseConstantArrayType` writes a size with
`toString(10, false)`, and the same bits give `4294967295`. -/
theorem unsigned_literal_printed_negative :
    allOnes32.isUnsignedIntegerType = true ∧
    (TraverseIntegerLiteral emptyReceiver freshPrinter allOnes32).outStack = ["-1"] ∧
    (TraverseIntegerLiteral emptyReceiver freshPrinter twoTo31).outStack = ["-2147483648"] ∧
    (TraverseIntegerLiteral emptyReceiver freshPrinter fortyTwo).outStack = ["42"] ∧
    allOnes32.value.toString false = "4294967295" ∧
    (TraverseConstantArrayType emptyReceiver freshPrinter hugeArray).outStack =
      ["int[4294967295]"] := by
  refine ⟨?_, ?_, ?_, ?_, ?_, ?_⟩ <;> decide

/-- C30 fails on the code for a double quote that follows a backslash: the
first loop doubles the backslash of the content `a\"b`, and the third loop,
finding a backslash before the quote, takes the quote for an escaped one and
leaves it: the text written is `a\\"b`, in which the quote follows two
backslashes and ends the literal.  A quote that follows any other character is
escaped. -/
theorem quote_after_backslash_not_escaped :
    escapeLiteral backslashQuote.literal = some "a\\\\\"b" ∧
    hasUnescapedQuote "a\\\\\"b".data = true ∧
    (TraverseStringLiteral emptyReceiver freshPrinter backslashQuote).map DPrinter.outStack =
      some ["\"a\\\\\"b\\0\""] ∧
    escapeLiteral quoted.literal = some "say \\\"hi\\\"" ∧
    hasUnescapedQuote "say \\\"hi\\\"".data = false := by
  refine ⟨?_, ?_, ?_, ?_, ?_⟩ <;> decide

/-! ## Line endings of comments -/

theorem replaceLoop_none (inp outp : String) (iter : Nat) (hout : 0 < outp.length) :
    ∀ (fuel : Nat) (str : String), iter < str.length →
      replaceLoop inp outp iter fuel str = none := by
  intro fuel
  induction fuel with
  | zero => intro str _; rfl
  | succ fuel ih =>
    intro str h
    have hne : iter ≠ str.length := by omega
    unfold replaceLoop
    rw [if_pos hne]
    dsimp only
    split_ifs with hc
    · apply ih
      simp only [String.length_append, substr, substrFrom, String.length_mk, List.length_take,
        List.length_drop]
      have : str.length = str.data.length := rfl
      omega
    · exact ih str h

theorem replace_of_cr (fuel : Nat) (str : String) (h : '\r' ∈ str.data) :
    replace fuel str "\r\n" "\n" = none := by
  unfold replace
  exact replaceLoop_none _ _ _ (by decide) fuel str (List.indexOf_lt_length.2 h)

theorem replace_of_no_cr (fuel : Nat) (str inp outp : String) (h : '\r' ∉ str.data) :
    replace (fuel + 1) str inp outp = some str := by
  have hi : str.data.indexOf '\r' = str.length := List.indexOf_eq_length.2 h
  unfold replace
  simp only [hi]
  unfold replaceLoop
  simp

/-- C21 fails on the code for every text that holds a carriage return: the
loop of `replace` tests an iterator that no statement of the loop advances, so
on a text `before ++ "\r" ++ after`, whether or not a line feed follows the
carriage return, no number of iterations brings it to its `return`.  A text
without carriage return is returned as it is, the loop not being entered. -/
theorem replace_never_returns (fuel : Nat) (before after : String) :
    replace fuel (before ++ "\r" ++ after) "\r\n" "\n" = none ∧
    replace fuel "/// a\r\n/// b" "\r\n" "\n" = none ∧
    (∀ str : String, '\r' ∉ str.data → replace (fuel + 1) str "\r\n" "\n" = some str) := by
  refine ⟨replace_of_cr _ _ ?_, replace_of_cr _ _ (by decide),
    fun str h => replace_of_no_cr _ _ _ _ h⟩
  simp [String.data_append]

/-! ## The override table -/

theorem passDecl_eq (receiver : MatchContainer) (p : DPrinter) (node : Nat) :
    passDecl receiver p node =
      ((getPrinter receiver.declTags receiver.declPrinters node).isSome,
       match getPrinter receiver.declTags receiver.declPrinters node with
       | some printer => printer p
       | none => p) := by
  unfold passDecl
  cases getPrinter receiver.declTags receiver.declPrinters node <;> rfl

theorem passStmt_eq (receiver : MatchContainer) (p : DPrinter) (node : Nat) :
    passStmt receiver p node =
      ((getPrinter receiver.stmtTags receiver.stmtPrinters node).isSome,
       match getPrinter receiver.stmtTags receiver.stmtPrinters node with
       | some printer => printer p
       | none => p) := by
  unfold passStmt
  cases getPrinter receiver.stmtTags receiver.stmtPrinters node <;> rfl

theorem passType_eq (receiver : MatchContainer) (p : DPrinter) (node : Nat) :
    passType receiver p node =
      ((getPrinter receiver.typeTags receiver.typePrinters node).isSome,
       match getPrinter receiver.typeTags receiver.typePrinters node with
       | some printer => printer p
       | none => p) := by
  unfold passType
  cases getPrinter receiver.typeTags receiver.typePrinters node <;> rfl

/-- C23. `passDecl`, `passStmt` and `passType` return true exactly when
`getPrinter` returns a printer for the node, and the state they leave is the
one the printer leaves (the state they were given when there is no printer).
The dispatch routines `TraverseVarDecl`, `TraverseIntegerLiteral`,
`TraverseStringLiteral`, `TraverseConstantArrayType` and
`TraverseTranslationUnitDecl` begin with that call: for a node with a printer
their result is the result of the printer, whatever the node is, none of their
own rendering being done.  `traverseVarDeclImpl`, which `TraverseVarDecl` only
reaches without a printer, does the same for a variable whose name is not that
of a macro statement. -/
theorem override_consulted_first (receiver : MatchContainer) (p : DPrinter) :
    (∀ node : Nat,
      (passDecl receiver p node).1 =
        (getPrinter receiver.declTags receiver.declPrinters node).isSome ∧
      (passStmt receiver p node).1 =
        (getPrinter receiver.stmtTags receiver.stmtPrinters node).isSome ∧
      (passType receiver p node).1 =
        (getPrinter receiver.typeTags receiver.typePrinters node).isSome) ∧
    (∀ (node : Nat) (printer : DPrinter → DPrinter),
      (getPrinter receiver.declTags receiver.declPrinters node = some printer →
        (passDecl receiver p node).2 = printer p) ∧
      (getPrinter receiver.stmtTags receiver.stmtPrinters node = some printer →
        (passStmt receiver p node).2 = printer p) ∧
      (getPrinter receiver.typeTags receiver.typePrinters node = some printer →
        (passType receiver p node).2 = printer p)) ∧
    (∀ node : Nat,
      (getPrinter receiver.declTags receiver.declPrinters node = none →
        (passDecl receiver p node).2 = p) ∧
      (getPrinter receiver.stmtTags receiver.stmtPrinters node = none →
        (passStmt receiver p node).2 = p) ∧
      (getPrinter receiver.typeTags receiver.typePrinters node = none →
        (passType receiver p node).2 = p)) ∧
    (∀ (Decl : VarDecl) (printer : DPrinter → DPrinter) (doPrintType inForRangeInit : Bool),
      getPrinter receiver.declTags receiver.declPrinters Decl.ptr = some printer →
      TraverseVarDecl receiver p Decl doPrintType inForRangeInit = printer p ∧
      (findAtZero Decl.declaration.name "CPP2D_MACRO_STMT" = false →
        traverseVarDeclImpl receiver p Decl doPrintType inForRangeInit = printer p)) ∧
    (∀ (Stmt : IntegerLiteral) (printer : DPrinter → DPrinter),
      getPrinter receiver.stmtTags receiver.stmtPrinters Stmt.ptr = some printer →
      TraverseIntegerLiteral receiver p Stmt = printer p) ∧
    (∀ (Stmt : StringLiteral) (printer : DPrinter → DPrinter),
      getPrinter receiver.stmtTags receiver.stmtPrinters Stmt.ptr = some printer →
      TraverseStringLiteral receiver p Stmt = some (printer p)) ∧
    (∀ (type : ConstantArrayType) (printer : DPrinter → DPrinter),
      getPrinter receiver.typeTags receiver.typePrinters type.ptr = some printer →
      TraverseConstantArrayType receiver p type = printer p) ∧
    (∀ (unit : Nat) (decls : List (Bool × Decl)) (printer : DPrinter → DPrinter),
      getPrinter receiver.declTags receiver.declPrinters unit = some printer →
      TraverseTranslationUnitDecl receiver p unit decls = printer p) := by
  refine ⟨?_, ?_, ?_, ?_, ?_, ?_, ?_, ?_⟩
  · intro node
    simp only [passDecl_eq, passStmt_eq, passType_eq, and_self]
  · intro node printer
    refine ⟨?_, ?_, ?_⟩ <;> intro h
    · simp only [passDecl_eq, h]
    · simp only [passStmt_eq, h]
    · simp only [passType_eq, h]
  · intro node
    refine ⟨?_, ?_, ?_⟩ <;> intro h
    · simp only [passDecl_eq, h]
    · simp only [passStmt_eq, h]
    · simp only [passType_eq, h]
  · intro Decl printer doPrintType inForRangeInit h
    refine ⟨?_, ?_⟩
    · simp only [TraverseVarDecl, passDecl_eq, h, Option.isSome_some, if_true]
    · intro hm
      simp only [traverseVarDeclImpl, hm, passDecl_eq, h, Option.isSome_some, if_true,
        Bool.false_eq_true, if_false]
  · intro Stmt printer h
    simp only [TraverseIntegerLiteral, passStmt_eq, h, Option.isSome_some, if_true]
  · intro Stmt printer h
    simp only [TraverseStringLiteral, passStmt_eq, h, Option.isSome_some, if_true]
  · intro type printer h
    simp only [TraverseConstantArrayType, passType_eq, h, Option.isSome_some, if_true]
  · intro unit decls printer h
    simp only [TraverseTranslationUnitDecl, passDecl_eq, h, Option.isSome_some, if_true]

/-- Example for C23: with `sampleReceiver`, the literal `allOnes32` is written
by its printer and the variable bound by `free_operator` is not written at all;
with an empty table the variable is written `int x = 1`. -/
theorem override_consulted_first_witness :
    TraverseIntegerLiteral sampleReceiver freshPrinter allOnes32 = out freshPrinter "uint.max" ∧
    TraverseVarDecl sampleReceiver freshPrinter overriddenVar true false = freshPrinter ∧
    (TraverseVarDecl emptyReceiver freshPrinter overriddenVar true false).outStack =
      ["int x = 1"] ∧
    (passStmt sampleReceiver freshPrinter 401).1 = true ∧
    (passStmt sampleReceiver freshPrinter 402).1 = false :=
  ⟨(override_consulted_first sampleReceiver freshPrinter).2.2.2.2.1 allOnes32
      (fun p => out p "uint.max") rfl,
   ((override_consulted_first sampleReceiver freshPrinter).2.2.2.1 overriddenVar
      (fun p => p) true false rfl).1,
   by decide, by decide, by decide⟩

/-! ## The stack of output streams: what leaves its depth and the streams under the top alone -/

theorem stackBelow_congr (q p : DPrinter) (h : q.outStack = p.outStack) :
    stackBelow q = stackBelow p := by
  unfold stackBelow
  rw [h]

theorem out_stackBelow (p : DPrinter) (s : String) : stackBelow (out p s) = stackBelow p := by
  unfold out
  split
  · split
    · rfl
    · rename_i top rest h
      simp [stackBelow, h]
  · rfl

theorem stackBelow_pushStream (p : DPrinter) :
    stackBelow (pushStream p) = (p.outStack.length + 1, p.outStack) := rfl

theorem popStream_outStack (r p : DPrinter) (h : stackBelow r = stackBelow (pushStream p)) :
    (popStream r).2.outStack = p.outStack := by
  rw [stackBelow_pushStream] at h
  unfold stackBelow at h
  unfold popStream
  cases hr : r.outStack with
  | nil => rw [hr] at h; simp at h
  | cons top rest =>
    rw [hr] at h
    simp only [List.tail_cons, Prod.mk.injEq] at h
    exact h.2

theorem popStream_stackBelow (r p : DPrinter) (h : stackBelow r = stackBelow (pushStream p)) :
    stackBelow (popStream r).2 = stackBelow p :=
  stackBelow_congr _ _ (popStream_outStack r p h)

theorem stackBelow_indent (p : DPrinter) (i : Int) :
    stackBelow { p with indent := i } = stackBelow p := rfl

theorem stackBelow_isInMacro (p : DPrinter) (i : Int) :
    stackBelow { p with isInMacro := i } = stackBelow p := rfl

theorem stackBelow_output_enabled (p : DPrinter) (b : Bool) :
    stackBelow { p with output_enabled := b } = stackBelow p := rfl

theorem stackBelow_classInfoMap (p : DPrinter) (m : List (Nat × ClassInfo)) :
    stackBelow { p with classInfoMap := m } = stackBelow p := rfl

theorem stackBelow_renameIdentifiers (p : DPrinter) (b : Bool) :
    stackBelow { p with renameIdentifiers := b } = stackBelow p := rfl

theorem stackBelow_renamedIdentifiers (p : DPrinter) (m : List (Nat × String)) :
    stackBelow { p with renamedIdentifiers := m } = stackBelow p := rfl

theorem printType_stackBelow (p : DPrinter) (type : QualType) :
    stackBelow (printType p type) = stackBelow p := by
  rw [printType_eq_out, out_stackBelow]

theorem TraverseDecl_stackBelow (p : DPrinter) (d : Decl) :
    stackBelow (TraverseDecl p d) = stackBelow p := by
  unfold TraverseDecl
  exact (stackBelow_isInMacro _ _).trans (out_stackBelow _ _)

theorem memberDeclstr_outStack (st : MemberLoop) (d : Decl) :
    (memberDeclstr st d).2.outStack = st.p.outStack := by
  unfold memberDeclstr
  apply popStream_outStack
  rw [TraverseDecl_stackBelow]
  split_ifs <;> simp only [out_stackBelow]

theorem memberEmit_stackBelow (p : DPrinter) (access : AccessSpecifier)
    (inBitField nextIsBitField : Bool) (d : Decl) (declstr : String) :
    stackBelow (memberEmit p access inBitField nextIsBitField d declstr).1 = stackBelow p := by
  unfold memberEmit
  simp only [printCommentAfter_eq_out, printCommentBefore_eq_out, printAccessLabel_eq_out]
  split_ifs <;> simp only [out_stackBelow]

theorem memberStep_stackBelow (st : MemberLoop) (d : Decl) :
    stackBelow (memberStep st d).p = stackBelow st.p := by
  unfold memberStep
  dsimp only
  rw [stackBelow_output_enabled]
  split_ifs
  · rw [memberEmit_stackBelow]
    exact stackBelow_congr _ _ (memberDeclstr_outStack st d)
  · exact stackBelow_congr _ _ (memberDeclstr_outStack st d)

theorem memberLoop_stackBelow (decls : List Decl) :
    ∀ st : MemberLoop, stackBelow (memberLoop st decls).p = stackBelow st.p := by
  induction decls with
  | nil => intro st; rfl
  | cons d ds ih =>
    intro st
    rw [memberLoop_cons, ih, memberStep_stackBelow]

theorem traverseMembers_stackBelow (p : DPrinter) (isClass : Bool) (decls : List Decl) :
    stackBelow (traverseMembers p isClass decls) = stackBelow p := by
  unfold traverseMembers closeMembers
  simp only [out_stackBelow]
  split_ifs <;> simp only [out_stackBelow, memberLoop_stackBelow, memberLoopInit]

theorem printFuncBeginConversion_stackBelow (p : DPrinter) (attributes : String) (parent : Nat)
    (conversionType : QualType) (conversionTypeString : String) :
    stackBelow (printFuncBeginConversion p attributes parent conversionType
      conversionTypeString).2.2 = stackBelow p := by
  unfold printFuncBeginConversion
  dsimp only
  rw [popStream_stackBelow _ (out (printType (out p attributes) conversionType) " opCast")]
  · simp only [out_stackBelow, printType_stackBelow]
  · rw [printType_stackBelow]
    split_ifs
    · rw [stackBelow_classInfoMap, out_stackBelow]
    · rw [out_stackBelow]

theorem ite_snd_stackBelow (c : Prop) [Decidable c] (a b : String × DPrinter)
    (m : Nat × List String) (ha : stackBelow a.2 = m) (hb : stackBelow b.2 = m) :
    stackBelow (if c then a else b).2 = m := by
  split_ifs <;> assumption

theorem printOperatorName_stackBelow (p : DPrinter) (Decl : FunctionDecl)
    (tmpParams : String) (arg_become_this : Int) :
    stackBelow (printOperatorName p Decl tmpParams arg_become_this).2 = stackBelow p := by
  unfold printOperatorName
  generalize (arg1 Decl).2 = r1
  generalize (arg2 Decl).2 = r2
  dsimp only
  repeat' apply ite_snd_stackBelow
  all_goals cases r1 <;> cases r2 <;>
    simp only [out_stackBelow, stackBelow_classInfoMap]

theorem printFuncBegin_stackBelow (p : DPrinter) (Decl : FunctionDecl)
    (tmpParams : String) (arg_become_this : Int) :
    stackBelow (printFuncBegin p Decl tmpParams arg_become_this).2.2 = stackBelow p := by
  unfold printFuncBegin
  split_ifs <;>
    simp only [printOperatorName_stackBelow, out_stackBelow, printType_stackBelow]

theorem printBindingLoop_stackBelow (params : List TemplateParam) :
    ∀ (args : List TemplateArgument) (p : DPrinter) (first : Bool) (b : DPrinter × Bool),
      printBindingLoop p first params args = some b →
      stackBelow b.1 = stackBelow p := by
  induction params with
  | nil =>
    intro args p first b h
    cases args with
    | nil => simp only [printBindingLoop, Option.some.injEq] at h; rw [← h]
    | cons arg args => simp [printBindingLoop] at h
  | cons param rest ih =>
    intro args p first b h
    cases args with
    | nil => simp only [printBindingLoop, Option.some.injEq] at h; rw [← h]
    | cons arg args =>
      simp only [printBindingLoop] at h
      rw [ih _ _ _ _ h, printTemplateArgument_eq_out, out_stackBelow, out_stackBelow,
        stackBelow_renameIdentifiers, TraverseTemplateParam_eq_out, out_stackBelow,
        stackBelow_renameIdentifiers]
      cases first <;> simp [Spliter.split, out_stackBelow]

theorem printExtraLoop_stackBelow (params : List TemplateParam) :
    ∀ (p : DPrinter) (first : Bool),
      stackBelow (printExtraLoop p first params) = stackBelow p := by
  induction params with
  | nil => intro p first; rfl
  | cons param rest ih =>
    intro p first
    simp only [printExtraLoop]
    rw [ih, TraverseTemplateParam_eq_out, out_stackBelow]
    cases first <;> simp [Spliter.split, out_stackBelow]

theorem printTemplateSpec_stackBelow (p : DPrinter)
    (primaryTmpParams : List TemplateParam) (tmpArgs : List TemplateArgument)
    (newTmpParams : Option (List TemplateParam)) (prevTmplParmsStr : String) (q : DPrinter)
    (h : printTemplateSpec_TmpArgsAndParms p primaryTmpParams tmpArgs newTmpParams
      prevTmplParmsStr = some q) :
    stackBelow q = stackBelow p := by
  have hs : stackBelow
      (if prevTmplParmsStr ≠ "" then
        (out (Spliter.split (out p "(") ", " true).1 prevTmplParmsStr,
          (Spliter.split (out p "(") ", " true).2)
       else (out p "(", true)).1 = stackBelow p := by
    split_ifs <;> simp [Spliter.split, out_stackBelow]
  unfold printTemplateSpec_TmpArgsAndParms at h
  simp only at h
  cases newTmpParams with
  | none =>
    simp only at h
    split at h
    · cases h
    · rename_i b hb
      cases h
      rw [out_stackBelow, printBindingLoop_stackBelow _ _ _ _ _ hb, hs]
  | some params =>
    simp only at h
    cases hr : registerRenames
        (if prevTmplParmsStr ≠ "" then
          (out (Spliter.split (out p "(") ", " true).1 prevTmplParmsStr,
            (Spliter.split (out p "(") ", " true).2)
         else (out p "(", true)).1.renamedIdentifiers params with
    | none => rw [hr] at h; simp at h
    | some m =>
      rw [hr] at h
      simp only [Option.map_some'] at h
      split at h
      · cases h
      · rename_i b hb
        cases h
        rw [out_stackBelow, printExtraLoop_stackBelow,
          printBindingLoop_stackBelow _ _ _ _ _ hb, stackBelow_renamedIdentifiers, hs]

theorem printTemplateParameterList_stackBelow (p : DPrinter)
    (tmpParams : List TemplateParam) (prevTmplParmsStr : String) :
    stackBelow (printTemplateParameterList p tmpParams prevTmplParmsStr) = stackBelow p := by
  rw [printTemplateParameterList_eq_out, out_stackBelow]

theorem printFunctionTemplateLists_stackBelow (p : DPrinter) (kind : TemplatedKind)
    (tmplParamsStr : String) (b : DPrinter × Bool)
    (h : printFunctionTemplateLists p kind tmplParamsStr = some b) :
    stackBelow b.1 = stackBelow p := by
  unfold printFunctionTemplateLists at h
  cases kind with
  | TK_NonTemplate => simp only [Option.some.injEq] at h; rw [← h]
  | TK_MemberSpecialization => simp only [Option.some.injEq] at h; rw [← h]
  | TK_FunctionTemplate described =>
    cases described with
    | none => simp only [Option.some.injEq] at h; rw [← h]
    | some tmpParams =>
      simp only [Option.some.injEq] at h
      rw [← h, printTemplateParameterList_stackBelow]
  | TK_FunctionTemplateSpecialization primary =>
    cases primary with
    | none => simp only [Option.some.injEq] at h; rw [← h]
    | some pr =>
      simp only [Option.map_eq_some'] at h
      obtain ⟨q, hq, hb⟩ := h
      rw [← hb]
      exact printTemplateSpec_stackBelow p _ _ none _ q hq
  | TK_DependentFunctionTemplateSpecialization primary =>
    cases primary with
    | none => simp only [Option.some.injEq] at h; rw [← h]
    | some pr =>
      simp only [Option.map_eq_some'] at h
      obtain ⟨q, hq, hb⟩ := h
      rw [← hb]
      exact printTemplateSpec_stackBelow p _ _ none _ q hq

theorem printCommentLoop_stackBelow (str : String) (comments : List String) :
    ∀ (p : DPrinter) (first : Bool),
      stackBelow (printCommentLoop p str first comments) = stackBelow p := by
  induction comments with
  | nil => intro p first; rfl
  | cons c rest ih =>
    intro p first
    simp only [printCommentLoop]
    rw [ih]
    cases first <;> simp [out_stackBelow]

theorem printStmtComment_stackBelow (p : DPrinter) (span : Option String) :
    stackBelow (printStmtComment p span) = stackBelow p := by
  cases span with
  | none => simp only [printStmtComment, out_stackBelow]
  | some comment =>
    simp only [printStmtComment, printCommentLines]
    split
    · rw [out_stackBelow]
    · rw [printCommentLoop_stackBelow, out_stackBelow]

theorem printParameters_stackBelow (p : DPrinter) (f : FunctionInfo) :
    stackBelow (printParameters p f) = stackBelow p := by
  unfold printParameters
  split_ifs with h1
  · dsimp only
    have hpop : stackBelow
        (popStream
          (match f.closingComment with
          | some span =>
            printStmtComment (pushStream (out { p with indent := p.indent + 1 }
              f.parametersText)) span
          | none => pushStream (out { p with indent := p.indent + 1 } f.parametersText))).2 =
        stackBelow p := by
      rw [popStream_stackBelow _ (out { p with indent := p.indent + 1 } f.parametersText)]
      · rw [out_stackBelow, stackBelow_indent]
      · cases f.closingComment with
        | none => rfl
        | some span => exact printStmtComment_stackBelow _ _
    split_ifs
    · rw [out_stackBelow, stackBelow_indent, hpop]
    · rw [stackBelow_indent, hpop]
  · rfl

theorem ite_option_stackBelow (c : Prop) [Decidable c] (a b : Option DPrinter)
    (m : Nat × List String)
    (ha : ∀ q, a = some q → stackBelow q = m)
    (hb : ∀ q, b = some q → stackBelow q = m) :
    ∀ q, (if c then a else b) = some q → stackBelow q = m := by
  split_ifs <;> assumption

theorem traverseFunctionDeclImpl_stackBelow (p : DPrinter) (f : FunctionInfo)
    (arg_become_this : Int) :
    ∀ q, traverseFunctionDeclImpl p f arg_become_this = some q →
      stackBelow q = stackBelow p := by
  have hb := printFuncBegin_stackBelow (pushStream p) f.Decl "" arg_become_this
  unfold traverseFunctionDeclImpl
  dsimp only
  generalize printFuncBegin (pushStream p) f.Decl "" arg_become_this = begun at hb
  apply ite_option_stackBelow
  · intro q h; cases h; rfl
  apply ite_option_stackBelow
  · intro q h; cases h; rfl
  apply ite_option_stackBelow
  · intro q h; cases h; rfl
  apply ite_option_stackBelow
  · intro q h; cases h; exact popStream_stackBelow _ _ hb
  cases hl : printFunctionTemplateLists begun.2.2 f.templatedKind begun.2.1 with
  | none => intro q h; cases h
  | some lists =>
    have hl1 := printFunctionTemplateLists_stackBelow _ _ _ _ hl
    dsimp only
    have hbody : ∀ r : DPrinter, stackBelow r = stackBelow (pushStream p) →
        stackBelow
          (if f.hasBody = true then out (out r endl) f.bodyText else out r ";") =
        stackBelow (pushStream p) := by
      intro r hr
      split_ifs <;> simp only [out_stackBelow, hr]
    have hconst : ∀ r : DPrinter, stackBelow r = stackBelow (pushStream p) →
        stackBelow (if (f.isConstMethod && r.portConst) = true then out r " const" else r) =
        stackBelow (pushStream p) := by
      intro r hr
      split_ifs <;> simp only [out_stackBelow, hr]
    have hparams : stackBelow
        (out (printParameters (out
          (if lists.2 = false ∧ begun.2.1 ≠ "" then out lists.1 ("(" ++ begun.2.1 ++ ")")
           else lists.1) "(") f) ")") = stackBelow (pushStream p) := by
      rw [out_stackBelow, printParameters_stackBelow, out_stackBelow]
      split_ifs <;> simp only [out_stackBelow, hl1, hb]
    apply ite_option_stackBelow
    · intro q h
      cases h
      rw [out_stackBelow]
      exact popStream_stackBelow _ _ (hbody _ (hconst _ hparams))
    · intro q h
      cases h
      exact popStream_stackBelow _ _ (hbody _ (hconst _ hparams))

theorem startCtorBodyLoop_stackBelow (inits : List String) :
    ∀ (p q : DPrinter), startCtorBodyLoop p inits = some q → stackBelow q = stackBelow p := by
  induction inits with
  | nil => intro p q h; simp only [startCtorBodyLoop, Option.some.injEq] at h; rw [← h]
  | cons init rest ih =>
    intro p q h
    have hpop : stackBelow (popStream (out (pushStream p) init)).2 = stackBelow p :=
      popStream_stackBelow _ _ (out_stackBelow _ _)
    simp only [startCtorBodyLoop] at h
    split_ifs at h with h1 h2 h3
    · rw [ih _ _ h, out_stackBelow, out_stackBelow, out_stackBelow, hpop]
    · rw [ih _ _ h, out_stackBelow, hpop]
    · rw [ih _ _ h, hpop]

theorem startCtorBody_stackBelow (p q : DPrinter) (inits : List String)
    (h : startCtorBody p inits = some q) : stackBelow q = stackBelow p := by
  unfold startCtorBody at h
  split_ifs at h
  · exact startCtorBodyLoop_stackBelow _ _ _ h
  · cases h; rfl

theorem translationUnitLoop_stackBelow (decls : List (Bool × Decl)) :
    ∀ p : DPrinter, stackBelow (translationUnitLoop p decls) = stackBelow p := by
  induction decls with
  | nil => intro p; rfl
  | cons c rest ih =>
    intro p
    obtain ⟨inFile, c⟩ := c
    have hpop : stackBelow (popStream (TraverseDecl (pushStream p) c)).2 = stackBelow p :=
      popStream_stackBelow _ _ (TraverseDecl_stackBelow _ _)
    simp only [translationUnitLoop]
    split_ifs
    · rw [ih, stackBelow_output_enabled, out_stackBelow, printCommentAfter_eq_out,
        out_stackBelow, out_stackBelow, out_stackBelow, printCommentBefore_eq_out,
        out_stackBelow, hpop]
    · rw [ih, stackBelow_output_enabled, out_stackBelow, printCommentAfter_eq_out,
        out_stackBelow, out_stackBelow, printCommentBefore_eq_out, out_stackBelow, hpop]
    · rw [ih, stackBelow_output_enabled, hpop]
    · rw [ih]

theorem printBindingLoop_isSome (params : List TemplateParam) :
    ∀ (args : List TemplateArgument) (p : DPrinter) (first : Bool),
      args.length ≤ params.length → (printBindingLoop p first params args).isSome = true := by
  induction params with
  | nil =>
    intro args p first h
    cases args with
    | nil => rfl
    | cons arg args => simp at h
  | cons param rest ih =>
    intro args p first h
    cases args with
    | nil => rfl
    | cons arg args =>
      simp only [printBindingLoop]
      exact ih _ _ _ (by simpa using h)

theorem printFunctionTemplateLists_isSome (p : DPrinter) (kind : TemplatedKind)
    (tmplParamsStr : String) (h : kind.sizesAgree = true) :
    (printFunctionTemplateLists p kind tmplParamsStr).isSome = true := by
  have hspec : ∀ (primary : List TemplateParam × List TemplateArgument),
      (primary.2.length == primary.1.length) = true →
      (printTemplateSpec_TmpArgsAndParms p primary.1 primary.2 none tmplParamsStr).isSome
        = true := by
    intro primary hp
    have hle : primary.2.length ≤ primary.1.length := by
      rw [beq_iff_eq] at hp
      omega
    unfold printTemplateSpec_TmpArgsAndParms
    dsimp only
    have hb := printBindingLoop_isSome primary.1 primary.2
      (if tmplParamsStr ≠ "" then
        (out (Spliter.split (out p "(") ", " true).1 tmplParamsStr,
          (Spliter.split (out p "(") ", " true).2)
       else (out p "(", true)).1
      (if tmplParamsStr ≠ "" then
        (out (Spliter.split (out p "(") ", " true).1 tmplParamsStr,
          (Spliter.split (out p "(") ", " true).2)
       else (out p "(", true)).2 hle
    obtain ⟨b, hb⟩ := Option.isSome_iff_exists.1 hb
    rw [hb]
    rfl
  unfold printFunctionTemplateLists
  cases kind with
  | TK_NonTemplate => rfl
  | TK_MemberSpecialization => rfl
  | TK_FunctionTemplate described => cases described <;> rfl
  | TK_FunctionTemplateSpecialization primary =>
    cases primary with
    | none => rfl
    | some pr => simpa using hspec pr h
  | TK_DependentFunctionTemplateSpecialization primary =>
    cases primary with
    | none => rfl
    | some pr => simpa using hspec pr h

theorem ite_option_isSome (c : Prop) [Decidable c] (a b : Option DPrinter)
    (ha : a.isSome = true) (hb : b.isSome = true) :
    (if c then a else b).isSome = true := by
  split_ifs <;> assumption

theorem traverseFunctionDeclImpl_isSome (p : DPrinter) (f : FunctionInfo)
    (arg_become_this : Int) (h : f.templatedKind.sizesAgree = true) :
    (traverseFunctionDeclImpl p f arg_become_this).isSome = true := by
  unfold traverseFunctionDeclImpl
  dsimp only
  generalize printFuncBegin (pushStream p) f.Decl "" arg_become_this = begun
  apply ite_option_isSome
  · rfl
  apply ite_option_isSome
  · rfl
  apply ite_option_isSome
  · rfl
  apply ite_option_isSome
  · rfl
  obtain ⟨lists, hl⟩ := Option.isSome_iff_exists.1
    (printFunctionTemplateLists_isSome begun.2.2 f.templatedKind begun.2.1 h)
  rw [hl]
  dsimp only
  apply ite_option_isSome <;> rfl

theorem ite_option_outStack (c : Prop) [Decidable c] (a b : Option DPrinter)
    (m : List String)
    (ha : ∀ q, a = some q → q.outStack = m)
    (hb : ∀ q, b = some q → q.outStack = m) :
    ∀ q, (if c then a else b) = some q → q.outStack = m := by
  split_ifs <;> assumption

theorem traverseFunctionDeclImpl_declined (p : DPrinter) (f : FunctionInfo)
    (arg_become_this : Int)
    (hd : (printFuncBegin (pushStream p) f.Decl "" arg_become_this).1 = false) :
    ∀ q, traverseFunctionDeclImpl p f arg_become_this = some q → q.outStack = p.outStack := by
  have hb := printFuncBegin_stackBelow (pushStream p) f.Decl "" arg_become_this
  unfold traverseFunctionDeclImpl
  dsimp only
  generalize printFuncBegin (pushStream p) f.Decl "" arg_become_this = begun at hb hd
  apply ite_option_outStack
  · intro q h; cases h; rfl
  apply ite_option_outStack
  · intro q h; cases h; rfl
  apply ite_option_outStack
  · intro q h; cases h; rfl
  intro q h
  rw [if_pos hd] at h
  cases h
  exact popStream_outStack _ _ hb

theorem popStream_out_pushStream (p : DPrinter) (s : String) :
    (popStream (out (pushStream p) s)).1 = if p.output_enabled then s else "" := by
  unfold out pushStream popStream
  cases h : p.output_enabled <;> simp

theorem startCtorBodyLoop_isSome (inits : List String) :
    ∀ p : DPrinter, (∀ init ∈ inits, init.length ≠ 1) →
      (startCtorBodyLoop p inits).isSome = true := by
  induction inits with
  | nil => intro p _; rfl
  | cons init rest ih =>
    intro p h
    have h1 := h init (List.mem_cons_self _ _)
    have hrest : ∀ i ∈ rest, i.length ≠ 1 := fun i hi => h i (List.mem_cons_of_mem _ hi)
    simp only [startCtorBodyLoop]
    split_ifs with hne hlt
    · exfalso
      rw [popStream_out_pushStream] at hne hlt
      split_ifs at hne hlt
      · have : init.length ≠ 0 := fun h0 => hne (String.ext (List.length_eq_zero.1 h0))
        omega
      · exact hne rfl
    · exact ih _ hrest
    · exact ih _ hrest
    · exact ih _ hrest

theorem startCtorBody_isSome (p : DPrinter) (inits : List String)
    (h : ∀ init ∈ inits, init.length ≠ 1) : (startCtorBody p inits).isSome = true := by
  unfold startCtorBody
  split_ifs
  · exact startCtorBodyLoop_isSome inits p h
  · rfl

theorem stackBelow_nonempty (q p : DPrinter) (h : stackBelow q = stackBelow p)
    (hp : p.outStack ≠ []) :
    q.outStack ≠ [] ∧ q.outStack.length = p.outStack.length ∧
      q.outStack.tail = p.outStack.tail := by
  unfold stackBelow at h
  simp only [Prod.mk.injEq] at h
  refine ⟨?_, h.1, h.2⟩
  intro hq
  rw [hq] at h
  exact hp (List.length_eq_zero.1 h.1.symm)

/-- C22. Each of the routines that push an output stream pops it before it
returns: `traverseFunctionDeclImpl` (which returns whenever the template lists
it is given agree in size, also when `printFuncBegin` declines, the stack being
then exactly the one on entry), `printFuncBegin` for conversion operators,
`startCtorBody` (which returns whenever no initialiser text has one character)
and the member loop of `traverseCXXRecordDeclImpl` leave the stack with the
depth it had on entry and with the same streams under the top one; inside the
member loop the stack after the `popStream` of a member is the stack before its
`pushStream`.  The law behind every one of these pairs: a stream is pushed on
top of the stack, and popping a state that has the pushed depth and the entry
stack under its top gives back the entry stack.  So a stack that is not empty
on entry is not empty on return, and `TraverseTranslationUnitDecl` starts and
ends with a stack of depth one.  Nested traversals are given by the text they
write. -/
theorem buffer_stack_balanced (p : DPrinter) :
    (∀ (f : FunctionInfo) (arg_become_this : Int),
      (f.templatedKind.sizesAgree = true →
        (traverseFunctionDeclImpl p f arg_become_this).isSome = true) ∧
      (∀ q, traverseFunctionDeclImpl p f arg_become_this = some q →
        stackBelow q = stackBelow p) ∧
      ((printFuncBegin (pushStream p) f.Decl "" arg_become_this).1 = false →
        ∀ q, traverseFunctionDeclImpl p f arg_become_this = some q →
          q.outStack = p.outStack)) ∧
    (∀ (attributes : String) (parent : Nat) (conversionType : QualType)
        (conversionTypeString : String),
      stackBelow (printFuncBeginConversion p attributes parent conversionType
        conversionTypeString).2.2 = stackBelow p) ∧
    (∀ inits : List String,
      ((∀ init ∈ inits, init.length ≠ 1) → (startCtorBody p inits).isSome = true) ∧
      (∀ q, startCtorBody p inits = some q → stackBelow q = stackBelow p)) ∧
    (∀ (isClass : Bool) (decls : List Decl),
      stackBelow (memberLoop (memberLoopInit p isClass) decls).p = stackBelow p ∧
      stackBelow (traverseMembers p isClass decls) = stackBelow p) ∧
    (∀ (st : MemberLoop) (decl2 : Decl),
      (memberDeclstr st decl2).2.outStack = st.p.outStack ∧
      stackBelow (memberStep st decl2).p = stackBelow st.p) ∧
    (stackBelow (pushStream p) = (p.outStack.length + 1, p.outStack) ∧
      ∀ r : DPrinter, stackBelow r = stackBelow (pushStream p) →
        (popStream r).2.outStack = p.outStack) ∧
    (∀ q : DPrinter, stackBelow q = stackBelow p → p.outStack ≠ [] →
      q.outStack ≠ [] ∧ q.outStack.length = p.outStack.length ∧
        q.outStack.tail = p.outStack.tail) ∧
    (∀ (receiver : MatchContainer) (unit : Nat) (decls : List (Bool × Decl)),
      getPrinter receiver.declTags receiver.declPrinters unit = none →
      (TraverseTranslationUnitDecl receiver p unit decls).outStack.length = 1) := by
  refine ⟨?_, ?_, ?_, ?_, ?_, ?_, ?_, ?_⟩
  · intro f arg_become_this
    exact ⟨traverseFunctionDeclImpl_isSome p f arg_become_this,
      traverseFunctionDeclImpl_stackBelow p f arg_become_this,
      traverseFunctionDeclImpl_declined p f arg_become_this⟩
  · intro attributes parent conversionType conversionTypeString
    exact printFuncBeginConversion_stackBelow p _ _ _ _
  · intro inits
    exact ⟨startCtorBody_isSome p inits, fun q h => startCtorBody_stackBelow p q inits h⟩
  · intro isClass decls
    exact ⟨memberLoop_stackBelow decls _, traverseMembers_stackBelow p isClass decls⟩
  · intro st decl2
    exact ⟨memberDeclstr_outStack st decl2, memberStep_stackBelow st decl2⟩
  · exact ⟨rfl, fun r h => popStream_outStack r p h⟩
  · intro q h hp
    exact stackBelow_nonempty q p h hp
  · intro receiver unit decls h
    have hl := translationUnitLoop_stackBelow decls { p with outStack := [""] }
    simp only [TraverseTranslationUnitDecl, passDecl_eq, h, Option.isSome_none,
      Bool.false_eq_true, if_false]
    exact congrArg Prod.fst hl

/-- Example for C22: the free operator `<` rendered with its body and the
comment before its closing parenthesis, an operator that `printFuncBegin`
declines, a conversion operator, two constructor initialisers and a member list
with a bit-field run, each from a stack of one stream. -/
theorem buffer_stack_balanced_witness :
    (traverseFunctionDeclImpl freshPrinter freeLess 0).map DPrinter.outStack =
      some ["bool _opLess(B b /* rhs */\n)\n\x7b\n    return true;\n\x7d"] ∧
    (traverseFunctionDeclImpl freshPrinter declinedOperator 0).map DPrinter.outStack =
      some [""] ∧
    (printFuncBeginConversion freshPrinter "" 1 boolType "bool").2.2.outStack =
      ["bool opCast"] ∧
    (startCtorBody bodyPrinter ["a = 1", "b = ", ""]).map DPrinter.outStack =
      some ["\n    a = 1;\n    "] ∧
    stackBelow (traverseMembers bodyPrinter true
      [bitFieldDecl 3 AccessSpecifier.AS_public "\tuint, \"a\", 3,",
       fieldDecl AccessSpecifier.AS_public "int x"]) = (1, []) ∧
    (∀ q, traverseFunctionDeclImpl freshPrinter freeLess 0 = some q →
      stackBelow q = stackBelow freshPrinter) :=
  ⟨by decide, by decide, by decide, by decide,
   ((buffer_stack_balanced bodyPrinter).2.2.2.1 true
      [bitFieldDecl 3 AccessSpecifier.AS_public "\tuint, \"a\", 3,",
       fieldDecl AccessSpecifier.AS_public "int x"]).2.trans (by decide),
   ((buffer_stack_balanced freshPrinter).1 freeLess 0).2.1⟩

end CPP2D
